import Mathlib

/-!
Verification of the request/response pipeline of the Perplexity Enigma CLI.
The development shallowly embeds the TypeScript sources (the configuration
module and perplexity.ts): dynamic JavaScript values, the deep configuration
merge, environment overlays, JSON parsing and rendering, the SSE line parser,
the streaming buffer machine, API-key format validation and the error
classifier, and proves the specified properties about these embeddings.
-/

set_option maxHeartbeats 2000000

mutual

/-- Dynamic JavaScript values as manipulated by the configuration merger and
the JSON helpers.  An array is represented as an object whose first argument
is `true` and whose fields are its index-keyed entries, mirroring how
JavaScript arrays are index-keyed objects.  Numbers are modelled as exact
rationals. -/
inductive JVal where
  | vNull : JVal
  | vUndef : JVal
  | vBool : Bool → JVal
  | vNum : Rat → JVal
  | vStr : String → JVal
  | vObj : Bool → JFields → JVal

/-- Ordered field list of a JavaScript object (insertion order). -/
inductive JFields where
  | fnil : JFields
  | fcons : String → JVal → JFields → JFields

end

mutual

def beqJ : JVal → JVal → Bool
  | .vNull, .vNull => true
  | .vUndef, .vUndef => true
  | .vBool a, .vBool b => a = b
  | .vNum a, .vNum b => a = b
  | .vStr a, .vStr b => a = b
  | .vObj a fs, .vObj b gs => a = b && beqF fs gs
  | _, _ => false

def beqF : JFields → JFields → Bool
  | .fnil, .fnil => true
  | .fcons k v r, .fcons k2 v2 r2 => k = k2 && beqJ v v2 && beqF r r2
  | _, _ => false

end

mutual

theorem beqJ_iff : ∀ a b : JVal, beqJ a b = true ↔ a = b
  | .vNull, b => by cases b <;> simp [beqJ]
  | .vUndef, b => by cases b <;> simp [beqJ]
  | .vBool x, b => by cases b <;> simp [beqJ]
  | .vNum x, b => by cases b <;> simp [beqJ]
  | .vStr x, b => by cases b <;> simp [beqJ]
  | .vObj x fs, b => by
      cases b <;> simp [beqJ]
      intro _
      exact beqF_iff fs _

theorem beqF_iff : ∀ a b : JFields, beqF a b = true ↔ a = b
  | .fnil, b => by cases b <;> simp [beqF]
  | .fcons k v r, b => by
      cases b with
      | fnil => simp [beqF]
      | fcons k2 v2 r2 =>
          simp only [beqF, Bool.and_assoc, Bool.and_eq_true, decide_eq_true_eq,
            JFields.fcons.injEq]
          rw [beqJ_iff v v2, beqF_iff r r2]

end

instance : DecidableEq JVal := fun a b =>
  decidable_of_iff (beqJ a b = true) (beqJ_iff a b)

instance : DecidableEq JFields := fun a b =>
  decidable_of_iff (beqF a b = true) (beqF_iff a b)

/-- First binding of a key in a field list (JavaScript property lookup). -/
def lookupField : JFields → String → Option JVal
  | .fnil, _ => none
  | .fcons k v rest, key => if k = key then some v else lookupField rest key

/-- JavaScript property assignment on a field list: an existing key is
updated in place, a new key is appended (insertion order preserved). -/
def setField : JFields → String → JVal → JFields
  | .fnil, key, v => .fcons key v .fnil
  | .fcons k w rest, key, v =>
      if k = key then .fcons k v rest else .fcons k w (setField rest key v)

/-- Property read `obj[key]` restricted to objects; `none` otherwise. -/
def getKey : JVal → String → Option JVal
  | .vObj _ fs, k => lookupField fs k
  | _, _ => none

/-- Property write `obj[key] = v`; a silent no-op on non-objects, as in
non-strict JavaScript. -/
def setKey : JVal → String → JVal → JVal
  | .vObj a fs, k, v => .vObj a (setField fs k v)
  | b, _, _ => b

/-- Whether the value is a JavaScript object (arrays included). -/
def isObjJ : JVal → Bool
  | .vObj _ _ => true
  | _ => false

/-- The index-keyed entries produced by spreading a string. -/
def stringEntriesAux : Nat → List Char → JFields
  | _, [] => .fnil
  | i, c :: rest => .fcons (toString i) (.vStr (String.mk [c])) (stringEntriesAux (i + 1) rest)

/-- Spreading a string gives an object with keys "0", "1", ... -/
def stringEntries (s : String) : JFields := stringEntriesAux 0 s.toList

/-- `Array.isArray(base) ? [...base] : \x7b...base\x7d` from deepMerge:
the starting copy of the base.  An array base keeps its array flag and its
entries; an object base is copied; a string spreads to indexed characters;
any other primitive spreads to an empty object. -/
def spreadBase : JVal → JVal
  | .vObj a fs => .vObj a fs
  | .vStr s => .vObj false (stringEntries s)
  | _ => .vObj false .fnil

/-- `(result[key] ?? \x7b\x7d)` from deepMerge: the current value at `key`,
with a missing, null or undefined value replaced by an empty object. -/
def keyOrEmpty (r : JVal) (k : String) : JVal :=
  match getKey r k with
  | some .vNull => .vObj false .fnil
  | some .vUndef => .vObj false .fnil
  | none => .vObj false .fnil
  | some v => v

mutual

/-- `deepMerge(base, override)` from the configuration module: a non-object
(or null) override returns the base unchanged; otherwise the base is spread
into a fresh copy and the override's entries are folded over it. -/
def deepMerge : JVal → JVal → JVal
  | base, .vObj _ fields => mergeFields (spreadBase base) fields
  | base, _ => base

/-- The loop of `deepMerge` over `Object.entries(override)`. -/
def mergeFields : JVal → JFields → JVal
  | r, .fnil => r
  | r, .fcons k v rest => mergeFields (mergeOne r k v) rest

/-- One iteration of `deepMerge`'s loop: an undefined value is skipped, an
array value replaces wholesale (copied), a plain-object value is merged
recursively (the recursive `deepMerge` call is unfolded one step so the
recursion is structural; lemma `mergeOne_obj` recovers the source's shape),
anything else is assigned. -/
def mergeOne : JVal → String → JVal → JVal
  | r, _, .vUndef => r
  | r, k, .vObj true afs => setKey r k (.vObj true afs)
  | r, k, .vObj false ofs => setKey r k (mergeFields (spreadBase (keyOrEmpty r k)) ofs)
  | r, k, w => setKey r k w

end

/-- The plain-object branch of `mergeOne` is exactly the source's recursive
`deepMerge(result[key] ?? \x7b\x7d, value)` call. -/
theorem mergeOne_obj (r : JVal) (k : String) (ofs : JFields) :
    mergeOne r k (.vObj false ofs) = setKey r k (deepMerge (keyOrEmpty r k) (.vObj false ofs)) := rfl

/-- No duplicate keys in a key list. -/
def keysNodup : List String → Bool
  | [] => true
  | k :: rest => (decide (k ∉ rest)) && keysNodup rest

/-- The keys of a field list, in order. -/
def keysOf : JFields → List String
  | .fnil => []
  | .fcons k _ rest => k :: keysOf rest

mutual

/-- Well-formedness of a JavaScript value: at every object level the keys
are distinct, which is automatic for genuine JavaScript objects. -/
def wfJ : JVal → Bool
  | .vObj _ fs => keysNodup (keysOf fs) && wfFields fs
  | _ => true

def wfFields : JFields → Bool
  | .fnil => true
  | .fcons _ v rest => wfJ v && wfFields rest

end

/-- Induction principle for `JFields` alone (the mutual recursor has two
motives, which the induction tactic cannot use directly). -/
theorem JFields.inductionOn {motive : JFields → Prop}
    (fnil : motive .fnil)
    (fcons : ∀ (k : String) (v : JVal) (rest : JFields), motive rest → motive (.fcons k v rest)) :
    ∀ fs, motive fs
  | .fnil => fnil
  | .fcons k v rest => fcons k v rest (JFields.inductionOn fnil fcons rest)

/-- Entry membership in a field list. -/
def entF : JFields → String → JVal → Prop
  | .fnil, _, _ => False
  | .fcons k v rest, k', v' => (k = k' ∧ v = v') ∨ entF rest k' v'

theorem entF_key_mem {k : String} {v : JVal} : ∀ {fs : JFields},
    entF fs k v → k ∈ keysOf fs := by
  intro fs
  induction fs using JFields.inductionOn with
  | fnil => intro h; exact absurd h (by simp [entF])
  | fcons k0 v0 rest ih =>
      intro h
      rcases h with ⟨hk, _⟩ | h
      · simp [keysOf, hk]
      · simp only [keysOf, List.mem_cons]; right; exact ih h

theorem lookupField_of_entF {k : String} {v : JVal} : ∀ {fs : JFields},
    keysNodup (keysOf fs) = true → entF fs k v → lookupField fs k = some v := by
  intro fs
  induction fs using JFields.inductionOn with
  | fnil => intro _ h; exact absurd h (by simp [entF])
  | fcons k0 v0 rest ih =>
      intro hnd h
      simp only [keysOf, keysNodup, Bool.and_eq_true, decide_eq_true_eq] at hnd
      rcases h with ⟨hk, hv⟩ | h
      · subst hk; subst hv; simp [lookupField]
      · have hkmem := entF_key_mem h
        have hne : k0 ≠ k := by
          intro he; subst he; exact hnd.1 hkmem
        simp only [lookupField, if_neg hne]
        exact ih hnd.2 h

theorem wfJ_of_entF {k : String} {v : JVal} : ∀ {fs : JFields},
    wfFields fs = true → entF fs k v → wfJ v = true := by
  intro fs
  induction fs using JFields.inductionOn with
  | fnil => intro _ h; exact absurd h (by simp [entF])
  | fcons k0 v0 rest ih =>
      intro hwf h
      simp only [wfFields, Bool.and_eq_true] at hwf
      rcases h with ⟨_, hv⟩ | h
      · subst hv; exact hwf.1
      · exact ih hwf.2 h

theorem setField_lookup_self {k : String} {v : JVal} : ∀ {fs : JFields},
    lookupField fs k = some v → setField fs k v = fs := by
  intro fs
  induction fs using JFields.inductionOn with
  | fnil => intro h; exact absurd h (by simp [lookupField])
  | fcons k0 v0 rest ih =>
      intro h
      by_cases he : k0 = k
      · subst he
        simp [lookupField] at h
        simp [setField, h]
      · simp only [lookupField, if_neg he] at h
        simp [setField, if_neg he, ih h]

theorem setKey_getKey_self {r : JVal} {k : String} {v : JVal}
    (h : getKey r k = some v) : setKey r k v = r := by
  cases r with
  | vObj a fs =>
      simp only [getKey] at h
      simp [setKey, setField_lookup_self h]
  | vNull => rfl
  | vUndef => rfl
  | vBool b => rfl
  | vNum q => rfl
  | vStr s => rfl

theorem lookupField_setField_ne {k k' : String} {v : JVal} (h : k' ≠ k) :
    ∀ {fs : JFields}, lookupField (setField fs k v) k' = lookupField fs k' := by
  intro fs
  induction fs using JFields.inductionOn with
  | fnil =>
      simp only [setField, lookupField]
      rw [if_neg (fun he : k = k' => h he.symm)]
  | fcons k0 v0 rest ih =>
      by_cases he : k0 = k
      · subst he
        simp only [setField, if_pos rfl, lookupField]
        rw [if_neg (fun he2 : k0 = k' => h he2.symm), if_neg (fun he2 : k0 = k' => h he2.symm)]
      · simp only [setField, if_neg he, lookupField]
        by_cases he2 : k0 = k'
        · rw [if_pos he2, if_pos he2]
        · rw [if_neg he2, if_neg he2]; exact ih

theorem lookupField_setField_self {k : String} {v : JVal} :
    ∀ {fs : JFields}, lookupField (setField fs k v) k = some v := by
  intro fs
  induction fs using JFields.inductionOn with
  | fnil => simp [setField, lookupField]
  | fcons k0 v0 rest ih =>
      by_cases he : k0 = k
      · subst he; simp [setField, lookupField]
      · simp [setField, if_neg he, lookupField, if_neg he, ih]

theorem getKey_setKey_ne {r : JVal} {k k' : String} {v : JVal} (h : k' ≠ k) :
    getKey (setKey r k v) k' = getKey r k' := by
  cases r with
  | vObj a fs => simp only [setKey, getKey]; exact lookupField_setField_ne h
  | vNull => rfl
  | vUndef => rfl
  | vBool b => rfl
  | vNum q => rfl
  | vStr s => rfl

theorem getKey_setKey_self {r : JVal} {k : String} {v : JVal}
    (h : isObjJ r = true) : getKey (setKey r k v) k = some v := by
  cases r with
  | vObj a fs => simp only [setKey, getKey]; exact lookupField_setField_self
  | vNull => exact absurd h (by simp [isObjJ])
  | vUndef => exact absurd h (by simp [isObjJ])
  | vBool b => exact absurd h (by simp [isObjJ])
  | vNum q => exact absurd h (by simp [isObjJ])
  | vStr s => exact absurd h (by simp [isObjJ])

theorem isObjJ_setKey {r : JVal} {k : String} {v : JVal} (h : isObjJ r = true) :
    isObjJ (setKey r k v) = true := by
  cases r with
  | vObj a fs => rfl
  | vNull => exact h
  | vUndef => exact h
  | vBool b => exact h
  | vNum q => exact h
  | vStr s => exact h

theorem getKey_mergeOne_ne {r : JVal} {k k' : String} {v : JVal} (h : k' ≠ k) :
    getKey (mergeOne r k v) k' = getKey r k' := by
  cases v with
  | vObj isArr fs => cases isArr <;> simp [mergeOne, getKey_setKey_ne h]
  | vNull => simp [mergeOne, getKey_setKey_ne h]
  | vUndef => rfl
  | vBool b => simp [mergeOne, getKey_setKey_ne h]
  | vNum q => simp [mergeOne, getKey_setKey_ne h]
  | vStr s => simp [mergeOne, getKey_setKey_ne h]

theorem isObjJ_mergeOne {r : JVal} {k : String} {v : JVal} (h : isObjJ r = true) :
    isObjJ (mergeOne r k v) = true := by
  cases v with
  | vObj isArr fs => cases isArr <;> simp [mergeOne, isObjJ_setKey h]
  | vNull => simp [mergeOne, isObjJ_setKey h]
  | vUndef => exact h
  | vBool b => simp [mergeOne, isObjJ_setKey h]
  | vNum q => simp [mergeOne, isObjJ_setKey h]
  | vStr s => simp [mergeOne, isObjJ_setKey h]

theorem getKey_mergeFields_notmem {k : String} : ∀ {fs : JFields} {r : JVal},
    k ∉ keysOf fs → getKey (mergeFields r fs) k = getKey r k := by
  intro fs
  induction fs using JFields.inductionOn with
  | fnil => intro r _; rfl
  | fcons k0 v0 rest ih =>
      intro r h
      simp only [keysOf, List.mem_cons, not_or] at h
      simp only [mergeFields]
      rw [ih h.2, getKey_mergeOne_ne (fun he => h.1 he)]

theorem sizeOf_entF_lt {a : Bool} {k : String} {v : JVal} {fs : JFields}
    (h : entF fs k v) : sizeOf v < sizeOf (JVal.vObj a fs) := by
  have aux : ∀ {fs' : JFields}, entF fs' k v → sizeOf v < sizeOf fs' := by
    intro fs'
    induction fs' using JFields.inductionOn with
    | fnil => intro h'; exact absurd h' (by simp [entF])
    | fcons k0 v0 rest ih =>
        intro h'
        rcases h' with ⟨_, hv⟩ | h'
        · subst hv; simp only [JFields.fcons.sizeOf_spec]; omega
        · have := ih h'; simp only [JFields.fcons.sizeOf_spec]; omega
  have := aux h
  simp only [JVal.vObj.sizeOf_spec]
  omega

theorem mergeFields_id : ∀ (fs : JFields) (r : JVal),
    (∀ k v, entF fs k v → getKey r k = some v ∧ deepMerge v v = v) →
    mergeFields r fs = r := by
  intro fs
  induction fs using JFields.inductionOn with
  | fnil => intro r _; rfl
  | fcons k0 v0 rest ih =>
      intro r h
      have h0 := h k0 v0 (Or.inl ⟨rfl, rfl⟩)
      have hone : mergeOne r k0 v0 = r := by
        cases v0 with
        | vUndef => rfl
        | vObj isArr fs0 =>
            cases isArr with
            | true => exact setKey_getKey_self h0.1
            | false =>
                have hk : keyOrEmpty r k0 = .vObj false fs0 := by
                  simp [keyOrEmpty, h0.1]
                calc mergeOne r k0 (.vObj false fs0)
                    = setKey r k0 (deepMerge (keyOrEmpty r k0) (.vObj false fs0)) := rfl
                  _ = setKey r k0 (deepMerge (.vObj false fs0) (.vObj false fs0)) := by rw [hk]
                  _ = setKey r k0 (.vObj false fs0) := by rw [h0.2]
                  _ = r := setKey_getKey_self h0.1
        | vNull => exact setKey_getKey_self h0.1
        | vBool b => exact setKey_getKey_self h0.1
        | vNum q => exact setKey_getKey_self h0.1
        | vStr s => exact setKey_getKey_self h0.1
      simp only [mergeFields, hone]
      exact ih r (fun k v hkv => h k v (Or.inr hkv))

theorem deepMerge_self_aux : ∀ (n : Nat) (v : JVal), sizeOf v ≤ n → wfJ v = true →
    deepMerge v v = v := by
  intro n
  induction n using Nat.strong_induction_on with
  | _ n ih =>
      intro v hsz hwf
      cases v with
      | vObj a fs =>
          simp only [wfJ, Bool.and_eq_true] at hwf
          show mergeFields (spreadBase (.vObj a fs)) fs = .vObj a fs
          rw [show spreadBase (.vObj a fs) = .vObj a fs from rfl]
          apply mergeFields_id
          intro k v hkv
          refine ⟨lookupField_of_entF hwf.1 hkv, ?_⟩
          have hlt := sizeOf_entF_lt (a := a) hkv
          exact ih (sizeOf v) (by omega) v (le_refl _) (wfJ_of_entF hwf.2 hkv)
      | vNull => rfl
      | vUndef => rfl
      | vBool b => rfl
      | vNum q => rfl
      | vStr s => rfl

/-- Idempotence of deepMerge on (duplicate-key-free) values. -/
theorem deepMerge_self (v : JVal) (h : wfJ v = true) : deepMerge v v = v :=
  deepMerge_self_aux (sizeOf v) v (le_refl _) h

theorem isObjJ_spreadBase (base : JVal) : isObjJ (spreadBase base) = true := by
  cases base <;> rfl

theorem getKey_mergeFields_lookup_arr {k : String} {afs : JFields} :
    ∀ {os : JFields} {r : JVal},
    isObjJ r = true → keysNodup (keysOf os) = true →
    lookupField os k = some (.vObj true afs) →
    getKey (mergeFields r os) k = some (.vObj true afs) := by
  intro os
  induction os using JFields.inductionOn with
  | fnil => intro r _ _ hl; exact absurd hl (by simp [lookupField])
  | fcons k0 v0 rest ih =>
      intro r hobj hnd hl
      simp only [keysOf, keysNodup, Bool.and_eq_true, decide_eq_true_eq] at hnd
      by_cases he : k0 = k
      · subst he
        simp [lookupField] at hl
        subst hl
        simp only [mergeFields]
        rw [getKey_mergeFields_notmem hnd.1]
        show getKey (setKey r k0 (.vObj true afs)) k0 = _
        exact getKey_setKey_self hobj
      · simp only [lookupField, if_neg he] at hl
        simp only [mergeFields]
        exact ih (isObjJ_mergeOne hobj) hnd.2 hl

theorem getKey_mergeFields_lookup_undef {k : String} : ∀ {os : JFields} {r : JVal},
    keysNodup (keysOf os) = true → lookupField os k = some .vUndef →
    getKey (mergeFields r os) k = getKey r k := by
  intro os
  induction os using JFields.inductionOn with
  | fnil => intro r _ hl; exact absurd hl (by simp [lookupField])
  | fcons k0 v0 rest ih =>
      intro r hnd hl
      simp only [keysOf, keysNodup, Bool.and_eq_true, decide_eq_true_eq] at hnd
      by_cases he : k0 = k
      · subst he
        simp [lookupField] at hl
        subst hl
        simp only [mergeFields]
        rw [getKey_mergeFields_notmem hnd.1]
        rfl
      · simp only [lookupField, if_neg he] at hl
        simp only [mergeFields]
        rw [ih hnd.2 hl, getKey_mergeOne_ne (fun h2 => he h2.symm)]

/-- C4: `deepMerge(base, override)` is idempotent when the override equals
the base; an array-valued field in the override replaces the base array
wholesale; undefined leaves in the override never erase defined base values;
and a null or non-object override returns the base unchanged. -/
theorem deepMerge_claims :
    (∀ v : JVal, wfJ v = true → deepMerge v v = v) ∧
    (∀ (base : JVal) (c : Bool) (os : JFields) (k : String) (afs : JFields),
      keysNodup (keysOf os) = true → lookupField os k = some (.vObj true afs) →
      getKey (deepMerge base (.vObj c os)) k = some (.vObj true afs)) ∧
    (∀ (a c : Bool) (bs os : JFields) (k : String),
      keysNodup (keysOf os) = true → lookupField os k = some .vUndef →
      getKey (deepMerge (.vObj a bs) (.vObj c os)) k = getKey (.vObj a bs) k) ∧
    (∀ base ov : JVal, isObjJ ov = false → deepMerge base ov = base) := by
  refine ⟨deepMerge_self, ?_, ?_, ?_⟩
  · intro base c os k afs hnd hl
    show getKey (mergeFields (spreadBase base) os) k = _
    exact getKey_mergeFields_lookup_arr (isObjJ_spreadBase base) hnd hl
  · intro a c bs os k hnd hl
    show getKey (mergeFields (spreadBase (.vObj a bs)) os) k = _
    rw [show spreadBase (.vObj a bs) = .vObj a bs from rfl]
    exact getKey_mergeFields_lookup_undef hnd hl
  · intro base ov hov
    cases ov with
    | vObj a fs => exact absurd hov (by simp [isObjJ])
    | vNull => rfl
    | vUndef => rfl
    | vBool b => rfl
    | vNum q => rfl
    | vStr s => rfl

/-- Concrete instantiation of `deepMerge_claims`. -/
theorem deepMerge_claims_witness :
    deepMerge (.vObj false (.fcons "a" (.vNum 1) .fnil))
        (.vObj false (.fcons "a" (.vNum 1) .fnil))
      = .vObj false (.fcons "a" (.vNum 1) .fnil) ∧
    getKey (deepMerge (.vObj false (.fcons "a" (.vObj true (.fcons "0" (.vNum 1) .fnil)) .fnil))
        (.vObj false (.fcons "a" (.vObj true (.fcons "0" (.vNum 2) .fnil)) .fnil))) "a"
      = some (.vObj true (.fcons "0" (.vNum 2) .fnil)) ∧
    getKey (deepMerge (.vObj false (.fcons "a" (.vNum 1) .fnil))
        (.vObj false (.fcons "a" .vUndef .fnil))) "a"
      = getKey (.vObj false (.fcons "a" (.vNum 1) .fnil)) "a" ∧
    deepMerge (.vNum 7) .vNull = .vNum 7 :=
  ⟨deepMerge_claims.1 _ (by decide),
   deepMerge_claims.2.1 _ _ _ _ _ (by decide) (by decide),
   deepMerge_claims.2.2.1 _ _ _ _ _ (by decide) (by decide),
   deepMerge_claims.2.2.2 _ _ (by decide)⟩

/-- JSON insignificant whitespace. -/
def isJsonWs (c : Char) : Bool := c = ' ' || c = '\t' || c = '\n' || c = '\r'

/-- Skip JSON whitespace. -/
def skipJsonWs : List Char → List Char
  | [] => []
  | c :: rest => if isJsonWs c then skipJsonWs rest else c :: rest

/-- Hexadecimal digit value. -/
def hexVal (c : Char) : Option Nat :=
  if '0' ≤ c ∧ c ≤ '9' then some (c.toNat - 48)
  else if 'a' ≤ c ∧ c ≤ 'f' then some (c.toNat - 87)
  else if 'A' ≤ c ∧ c ≤ 'F' then some (c.toNat - 55)
  else none

/-- Body of a JSON string literal, after the opening quote: returns the
decoded string and the characters following the closing quote.  Raw control
characters and invalid escapes are rejected, as by `JSON.parse`.
(A `\u` escape is mapped through `Char.ofNat`; unpaired surrogates, which
`Char` cannot represent, land on the null character.) -/
def parseJsonStringAux : List Char → List Char → Option (String × List Char)
  | _, [] => none
  | acc, c :: rest =>
    if c = '"' then some (String.mk acc.reverse, rest)
    else if c = '\\' then
      match rest with
      | [] => none
      | e :: rest2 =>
        if e = '"' then parseJsonStringAux ('"' :: acc) rest2
        else if e = '\\' then parseJsonStringAux ('\\' :: acc) rest2
        else if e = '/' then parseJsonStringAux ('/' :: acc) rest2
        else if e = 'b' then parseJsonStringAux ('\x08' :: acc) rest2
        else if e = 'f' then parseJsonStringAux ('\x0c' :: acc) rest2
        else if e = 'n' then parseJsonStringAux ('\n' :: acc) rest2
        else if e = 'r' then parseJsonStringAux ('\r' :: acc) rest2
        else if e = 't' then parseJsonStringAux ('\t' :: acc) rest2
        else if e = 'u' then
          match rest2 with
          | h1 :: h2 :: h3 :: h4 :: rest3 =>
            match hexVal h1, hexVal h2, hexVal h3, hexVal h4 with
            | some a, some b, some c2, some d =>
                parseJsonStringAux (Char.ofNat (((a * 16 + b) * 16 + c2) * 16 + d) :: acc) rest3
            | _, _, _, _ => none
          | _ => none
        else none
    else if c.toNat < 32 then none
    else parseJsonStringAux (c :: acc) rest

/-- Split the longest run of leading decimal digits. -/
def takeDigits : List Char → (List Char × List Char)
  | [] => ([], [])
  | c :: rest =>
    if c.isDigit then
      let (ds, r) := takeDigits rest
      (c :: ds, r)
    else ([], c :: rest)

/-- Numeric value of a digit run. -/
def digitsVal (ds : List Char) : Nat :=
  ds.foldl (fun n c => n * 10 + (c.toNat - 48)) 0

/-- Powers of ten (kernel-reducible). -/
def pow10 : Nat → Nat
  | 0 => 1
  | n + 1 => 10 * pow10 n

/-- A JSON number literal: optional minus, integer part without leading
zeros, optional fraction, optional exponent; assembled as an exact
rational. -/
def parseJsonNumber (cs : List Char) : Option (Rat × List Char) :=
  let (neg, cs1) : Bool × List Char :=
    match cs with
    | '-' :: rest => (true, rest)
    | _ => (false, cs)
  let intPart : Option (List Char × List Char) :=
    match cs1 with
    | '0' :: rest =>
        match rest with
        | c :: _ => if c.isDigit then none else some (['0'], rest)
        | [] => some (['0'], [])
    | c :: _ =>
        if c.isDigit then some (takeDigits cs1) else none
    | [] => none
  match intPart with
  | none => none
  | some (ids, cs2) =>
    let (fds, cs3) : List Char × List Char :=
      match cs2 with
      | '.' :: rest => takeDigits rest
      | _ => ([], cs2)
    let fracOk : Bool :=
      match cs2 with
      | '.' :: _ => !fds.isEmpty
      | _ => true
    if !fracOk then none
    else
      let expRes : Option (Int × List Char) :=
        match cs3 with
        | e :: rest =>
          if e = 'e' ∨ e = 'E' then
            let (esign, rest2) : Bool × List Char :=
              match rest with
              | '+' :: r => (false, r)
              | '-' :: r => (true, r)
              | _ => (false, rest)
            let (eds, rest3) := takeDigits rest2
            if eds.isEmpty then none
            else some (if esign then -(digitsVal eds : Int) else (digitsVal eds : Int), rest3)
          else some (0, cs3)
        | [] => some (0, [])
      match expRes with
      | none => none
      | some (ex, cs4) =>
        let mant : Int := (digitsVal ids * pow10 fds.length + digitsVal fds : Nat)
        let mant : Int := if neg then -mant else mant
        let scale : Int := ex - (fds.length : Int)
        let q : Rat :=
          if 0 ≤ scale then mkRat (mant * (pow10 scale.toNat : Int)) 1
          else mkRat mant (pow10 (-scale).toNat)
        some (q, cs4)

/-- Index-keyed fields of a JavaScript array, keys "0", "1", ... -/
def arrFields : Nat → List JVal → JFields
  | _, [] => .fnil
  | i, v :: rest => .fcons (toString i) v (arrFields (i + 1) rest)

mutual

/-- Fuelled recursive-descent parser for a JSON value, modelling
`JSON.parse`.  Each recursive call consumes at least one input character, so
the fuel supplied by `jsonParse` (input length plus one) never runs out. -/
def parseJsonVal : Nat → List Char → Option (JVal × List Char)
  | 0, _ => none
  | Nat.succ n, cs =>
    match cs with
    | [] => none
    | c :: rest =>
      if c = '\x7b' then
        let cs2 := skipJsonWs rest
        match cs2 with
        | '\x7d' :: rest2 => some (.vObj false .fnil, rest2)
        | _ => parseJsonMembers n cs2 .fnil
      else if c = '[' then
        let cs2 := skipJsonWs rest
        match cs2 with
        | ']' :: rest2 => some (.vObj true .fnil, rest2)
        | _ => parseJsonElems n cs2 []
      else if c = '"' then
        match parseJsonStringAux [] rest with
        | some (s, rest2) => some (.vStr s, rest2)
        | none => none
      else
        match cs with
        | 't' :: 'r' :: 'u' :: 'e' :: rest2 => some (.vBool true, rest2)
        | 'f' :: 'a' :: 'l' :: 's' :: 'e' :: rest2 => some (.vBool false, rest2)
        | 'n' :: 'u' :: 'l' :: 'l' :: rest2 => some (.vNull, rest2)
        | _ =>
          match parseJsonNumber cs with
          | some (q, rest2) => some (.vNum q, rest2)
          | none => none

/-- Object members: a quoted key, a colon, a value, then a comma or a
closing brace.  Duplicate keys overwrite in place, as property assignment
does for `JSON.parse`. -/
def parseJsonMembers : Nat → List Char → JFields → Option (JVal × List Char)
  | 0, _, _ => none
  | Nat.succ n, cs, acc =>
    match cs with
    | '"' :: rest =>
      match parseJsonStringAux [] rest with
      | none => none
      | some (key, rest2) =>
        match skipJsonWs rest2 with
        | ':' :: rest3 =>
          match parseJsonVal n (skipJsonWs rest3) with
          | none => none
          | some (v, rest4) =>
            let acc2 := setField acc key v
            match skipJsonWs rest4 with
            | ',' :: rest5 => parseJsonMembers n (skipJsonWs rest5) acc2
            | '\x7d' :: rest5 => some (.vObj false acc2, rest5)
            | _ => none
        | _ => none
    | _ => none

/-- Array elements: a value, then a comma or a closing bracket. -/
def parseJsonElems : Nat → List Char → List JVal → Option (JVal × List Char)
  | 0, _, _ => none
  | Nat.succ n, cs, acc =>
    match parseJsonVal n cs with
    | none => none
    | some (v, rest) =>
      let acc2 := acc ++ [v]
      match skipJsonWs rest with
      | ',' :: rest2 => parseJsonElems n (skipJsonWs rest2) acc2
      | ']' :: rest2 => some (.vObj true (arrFields 0 acc2), rest2)
      | _ => none

end

/-- `JSON.parse` over a whole string: a single JSON value surrounded only by
whitespace; anything else fails (the model of the `try/catch` in the
caller maps failure to `none`). -/
def jsonParse (s : String) : Option JVal :=
  let cs := skipJsonWs s.toList
  match parseJsonVal (cs.length + 1) cs with
  | some (v, rest) => if skipJsonWs rest = [] then some v else none
  | none => none

/-- Canonical array-index property names ("0", "1", ..., no leading
zeros). -/
def canonicalIndex (k : String) : Option Nat :=
  match k.toList with
  | [] => none
  | ['0'] => some 0
  | c :: rest =>
      if c.isDigit ∧ c ≠ '0' ∧ rest.all Char.isDigit then some (digitsVal (c :: rest))
      else none

/-- Optional-chaining member access `v?.[k]`: null and undefined
short-circuit to undefined, objects and arrays look the key up, strings
support index access to their characters, any other primitive gives
undefined.  (The `length` property of strings is not modelled; it is never
accessed by the embedded code.) -/
def jsMemberOpt (v : JVal) (k : String) : JVal :=
  match v with
  | .vNull => .vUndef
  | .vUndef => .vUndef
  | .vObj _ fs => (lookupField fs k).getD .vUndef
  | .vStr s =>
      match canonicalIndex k with
      | some i =>
          match s.toList.drop i with
          | c :: _ => .vStr (String.mk [c])
          | [] => .vUndef
      | none => .vUndef
  | _ => (.vUndef)

/-- The chain `parsed?.choices?.[0]?.delta?.content` from parseSSELine. -/
def sseDelta (parsed : JVal) : JVal :=
  jsMemberOpt (jsMemberOpt (jsMemberOpt (jsMemberOpt parsed "choices") "0") "delta") "content"

/-- Result of the SSE line parser: no content, the terminal done signal, or
a content fragment. -/
inductive SSEResult where
  | noth : SSEResult
  | done : SSEResult
  | frag : String → SSEResult
  deriving DecidableEq

/-- The whitespace recognised by JavaScript's `trim` (ASCII subset; the
Unicode space classes never occur in SSE frames). -/
def jsWsChar (c : Char) : Bool :=
  c = ' ' || c = '\t' || c = '\n' || c = '\r' || c = '\x0b' || c = '\x0c'

/-- The `"data: "` test and slice of parseSSELine: returns the characters
after the six-character literal when the line starts with it. -/
def sseData : List Char → Option (List Char)
  | 'd' :: 'a' :: 't' :: 'a' :: ':' :: ' ' :: rest => some rest
  | _ => none

/-- `parseSSELine` on the line's characters: the source's
`!line || line.trim() === ''` test is all-whitespace (true for the empty
line); a leading ':' is an SSE comment; a line without the `"data: "`
prefix is skipped; the remainder `"[DONE]"` is the terminal signal;
otherwise the remainder is JSON-parsed and `choices[0].delta.content` is
returned when it is a string, with every failure mapping to no content. -/
def parseSSELineL (cs : List Char) : SSEResult :=
  if cs.all jsWsChar then .noth
  else if cs.head? = some ':' then .noth
  else
    match sseData cs with
    | none => .noth
    | some rest =>
      let data := String.mk rest
      if data = "[DONE]" then .done
      else
        match jsonParse data with
        | none => .noth
        | some parsed =>
          match sseDelta parsed with
          | .vStr s => .frag s
          | _ => .noth

/-- `parseSSELine(line)` from perplexity.ts. -/
def parseSSELine (line : String) : SSEResult := parseSSELineL line.toList

theorem sseData_some {cs rest : List Char} (h : sseData cs = some rest) :
    cs = 'd' :: 'a' :: 't' :: 'a' :: ':' :: ' ' :: rest := by
  unfold sseData at h
  split at h
  · simp only [Option.some.injEq] at h
    subst h
    rfl
  · exact absurd h (by simp)

/-- C1: `parseSSELine` is a pure total case analysis: an empty or
whitespace-only line gives no content; a line beginning with ':' gives no
content; a line not beginning with the literal `"data: "` prefix gives no
content; a remainder equal to `"[DONE]"` gives the done signal; a remainder
that parses as JSON whose `choices[0].delta.content` is a string gives that
string as a fragment; in every other case (JSON parse failure, absent or
non-string field) it gives no content — and, being a Lean function, it never
throws. -/
theorem parseSSELine_spec (line : String) :
    (line.toList.all jsWsChar = true → parseSSELine line = .noth) ∧
    (line.toList.head? = some ':' → parseSSELine line = .noth) ∧
    (sseData line.toList = none → parseSSELine line = .noth) ∧
    (∀ rest, sseData line.toList = some rest → String.mk rest = "[DONE]" →
        parseSSELine line = .done) ∧
    (∀ rest parsed s, sseData line.toList = some rest → String.mk rest ≠ "[DONE]" →
        jsonParse (String.mk rest) = some parsed → sseDelta parsed = .vStr s →
        parseSSELine line = .frag s) ∧
    (∀ rest, sseData line.toList = some rest → String.mk rest ≠ "[DONE]" →
        jsonParse (String.mk rest) = none → parseSSELine line = .noth) ∧
    (∀ rest parsed, sseData line.toList = some rest → String.mk rest ≠ "[DONE]" →
        jsonParse (String.mk rest) = some parsed → (∀ s, sseDelta parsed ≠ .vStr s) →
        parseSSELine line = .noth) := by
  unfold parseSSELine parseSSELineL
  refine ⟨?_, ?_, ?_, ?_, ?_, ?_, ?_⟩
  · intro h
    rw [if_pos h]
  · intro h
    by_cases hw : line.toList.all jsWsChar = true
    · rw [if_pos hw]
    · rw [if_neg hw, if_pos h]
  · intro h
    by_cases hw : line.toList.all jsWsChar = true
    · rw [if_pos hw]
    · by_cases hc : line.toList.head? = some ':'
      · rw [if_neg hw, if_pos hc]
      · rw [if_neg hw, if_neg hc, h]
  · intro rest hsse hdone
    have hl := sseData_some hsse
    have hw : ¬line.toList.all jsWsChar = true := by
      rw [hl]; simp [jsWsChar]
    have hc : ¬line.toList.head? = some ':' := by
      rw [hl]; simp
    rw [if_neg hw, if_neg hc, hsse]
    show (if String.mk rest = "[DONE]" then SSEResult.done else _) = _
    rw [if_pos hdone]
  · intro rest parsed s hsse hdone hjson hdelta
    have hl := sseData_some hsse
    have hw : ¬line.toList.all jsWsChar = true := by
      rw [hl]; simp [jsWsChar]
    have hc : ¬line.toList.head? = some ':' := by
      rw [hl]; simp
    rw [if_neg hw, if_neg hc, hsse]
    show (if String.mk rest = "[DONE]" then SSEResult.done else _) = _
    rw [if_neg hdone, hjson]
    show (match sseDelta parsed with
          | JVal.vStr s2 => SSEResult.frag s2
          | _ => SSEResult.noth) = _
    rw [hdelta]
  · intro rest hsse hdone hjson
    have hl := sseData_some hsse
    have hw : ¬line.toList.all jsWsChar = true := by
      rw [hl]; simp [jsWsChar]
    have hc : ¬line.toList.head? = some ':' := by
      rw [hl]; simp
    rw [if_neg hw, if_neg hc, hsse]
    show (if String.mk rest = "[DONE]" then SSEResult.done else _) = _
    rw [if_neg hdone, hjson]
  · intro rest parsed hsse hdone hjson hdelta
    have hl := sseData_some hsse
    have hw : ¬line.toList.all jsWsChar = true := by
      rw [hl]; simp [jsWsChar]
    have hc : ¬line.toList.head? = some ':' := by
      rw [hl]; simp
    rw [if_neg hw, if_neg hc, hsse]
    show (if String.mk rest = "[DONE]" then SSEResult.done else _) = _
    rw [if_neg hdone, hjson]
    show (match sseDelta parsed with
          | JVal.vStr s2 => SSEResult.frag s2
          | _ => SSEResult.noth) = _
    match hd : sseDelta parsed with
    | .vStr s => exact absurd hd (hdelta s)
    | .vNull => rfl
    | .vUndef => rfl
    | .vBool b => rfl
    | .vNum q => rfl
    | .vObj a fs => rfl

/-- Concrete instantiations of `parseSSELine_spec`: the empty line, a
whitespace line, a keep-alive comment, a line without the data marker, the
done frame, a malformed JSON frame, and a well-formed content frame. -/
theorem parseSSELine_spec_witness :
    parseSSELine "" = .noth ∧
    parseSSELine "   " = .noth ∧
    parseSSELine ": keep-alive" = .noth ∧
    parseSSELine "hello" = .noth ∧
    parseSSELine "data: [DONE]" = .done ∧
    parseSSELine "data: \x7bbad json\x7d" = .noth ∧
    parseSSELine "data: \x7b\"choices\":[\x7b\"delta\":\x7b\"content\":\"Hello\"\x7d\x7d]\x7d" = .frag "Hello" :=
  ⟨(parseSSELine_spec "").1 (by decide),
   (parseSSELine_spec "   ").1 (by decide),
   (parseSSELine_spec ": keep-alive").2.1 (by decide),
   (parseSSELine_spec "hello").2.2.1 (by decide),
   (parseSSELine_spec "data: [DONE]").2.2.2.1 "[DONE]".toList (by decide) (by decide),
   (parseSSELine_spec "data: \x7bbad json\x7d").2.2.2.2.2.1 "\x7bbad json\x7d".toList
     (by decide) (by decide) (by decide),
   (parseSSELine_spec "data: \x7b\"choices\":[\x7b\"delta\":\x7b\"content\":\"Hello\"\x7d\x7d]\x7d").2.2.2.2.1
     "\x7b\"choices\":[\x7b\"delta\":\x7b\"content\":\"Hello\"\x7d\x7d]\x7d".toList
     (.vObj false (.fcons "choices" (.vObj true (.fcons "0"
         (.vObj false (.fcons "delta" (.vObj false (.fcons "content" (.vStr "Hello") .fnil)) .fnil))
         .fnil)) .fnil)) "Hello" (by decide) (by decide) (by decide) (by decide)⟩

/-- `buffer.split('\n')` on characters: always returns at least one
(possibly empty) segment; a trailing newline yields a trailing empty
segment, as in JavaScript. -/
def splitNlL : List Char → List (List Char)
  | [] => [[]]
  | c :: rest =>
    let s := splitNlL rest
    if c = '\n' then [] :: s
    else (c :: s.headD []) :: s.tail

/-- `buffer.split('\n')` on strings. -/
def splitNl (s : String) : List String := (splitNlL s.data).map String.mk

/-- State of the streaming promise body: the held-back unterminated buffer,
the fragments written to standard output so far (in order), and the promise
settlement (`none` pending, `some none` resolved, `some (some m)` rejected
with message `m`). -/
structure RunState where
  buffer : String
  writes : List String
  settled : Option (Option String)
  deriving DecidableEq, Repr

/-- `resolve()`: a promise settles only once. -/
def resolveP (st : RunState) : RunState :=
  match st.settled with
  | none => { st with settled := some none }
  | _ => st

/-- `reject(e)`: a promise settles only once. -/
def rejectP (st : RunState) (m : String) : RunState :=
  match st.settled with
  | none => { st with settled := some (some m) }
  | _ => st

/-- `process.stdout.write(result)`: writes happen regardless of the promise
settlement. -/
def writeOut (st : RunState) (s : String) : RunState :=
  { st with writes := st.writes ++ [s] }

/-- The `for (const line of lines)` loop of the data handler: a done result
resolves and returns (skipping the remaining lines), a fragment is written,
anything else is skipped. -/
def feedLines (st : RunState) : List String → RunState
  | [] => st
  | l :: rest =>
    match parseSSELine l with
    | .done => resolveP st
    | .frag s => feedLines (writeOut st s) rest
    | .noth => feedLines st rest

/-- Events delivered by the response stream. -/
inductive StreamEv where
  | data : String → StreamEv
  | ends : StreamEv
  | err : String → StreamEv
  deriving DecidableEq

/-- One stream event of askPerplexityStreaming's promise body: a data chunk
is appended to the buffer, the buffer is split on newline, the final
segment is held back as the new buffer and the complete lines are fed to
the parser; end-of-input parses a non-blank trailing buffer once, writes it
when it is a fragment and resolves; a transport error rejects with the
re-wrapped message. -/
def stepEv (st : RunState) : StreamEv → RunState
  | .data chunk =>
    let parts := splitNl (st.buffer ++ chunk)
    feedLines { st with buffer := parts.getLastD "" } parts.dropLast
  | .ends =>
    let st2 :=
      if st.buffer.data.all jsWsChar then st
      else
        match parseSSELine st.buffer with
        | .frag s => writeOut st s
        | _ => st
    resolveP st2
  | .err m => rejectP st ("Stream interrupted: " ++ m)

/-- The whole streaming promise body over a list of stream events. -/
def runStream (evs : List StreamEv) : RunState :=
  evs.foldl stepEv { buffer := "", writes := [], settled := none }

/-- The fragment produced by a line, if any. -/
def fragOf (l : String) : Option String :=
  match parseSSELine l with
  | .frag s => some s
  | _ => none

/-- The fragments of a list of lines, in order. -/
def frags (ls : List String) : List String := ls.filterMap fragOf

/-- No line of the list parses to the done signal. -/
def noDoneLines (ls : List String) : Prop := ∀ l ∈ ls, parseSSELine l ≠ .done

/-- Concatenation of the received chunks. -/
def concatS : List String → String
  | [] => ""
  | c :: rest => c ++ concatS rest

/-- `resolve()` on the settlement value alone. -/
def resolveSettled : Option (Option String) → Option (Option String)
  | none => some none
  | s => s

/-- The final flush of the end handler on a trailing buffer. -/
def endFlush (b : String) : List String :=
  if b.data.all jsWsChar then []
  else
    match parseSSELine b with
    | .frag s => [s]
    | _ => []

theorem splitNlL_nil : splitNlL [] = [[]] := rfl

theorem splitNlL_cons (c : Char) (rest : List Char) :
    splitNlL (c :: rest) =
      if c = '\n' then [] :: splitNlL rest
      else (c :: (splitNlL rest).headD []) :: (splitNlL rest).tail := rfl

theorem splitNlL_ne_nil : ∀ cs : List Char, splitNlL cs ≠ [] := by
  intro cs
  match cs with
  | [] => simp [splitNlL_nil]
  | c :: rest =>
    rw [splitNlL_cons]
    by_cases h : c = '\n' <;> simp [h]

/-- Prepend a head segment onto the first part of a split. -/
def glueHead (t : List Char) : List (List Char) → List (List Char)
  | [] => [t]
  | h :: r => (t ++ h) :: r

theorem glueHead_ne_nil (t : List Char) (l : List (List Char)) : glueHead t l ≠ [] := by
  cases l <;> simp [glueHead]

theorem splitNlL_append : ∀ (a b : List Char),
    splitNlL (a ++ b) = (splitNlL a).dropLast ++ glueHead ((splitNlL a).getLastD []) (splitNlL b) := by
  intro a
  induction a with
  | nil =>
      intro b
      rw [List.nil_append, splitNlL_nil]
      cases h : splitNlL b with
      | nil => exact absurd h (splitNlL_ne_nil b)
      | cons bh bt => simp [glueHead, List.getLastD]
  | cons c a' ih =>
      intro b
      rw [List.cons_append, splitNlL_cons, splitNlL_cons, ih b]
      cases hsa : splitNlL a' with
      | nil => exact absurd hsa (splitNlL_ne_nil a')
      | cons h t =>
        by_cases hc : c = '\n'
        · rw [if_pos hc, if_pos hc]
          have e1 : ([] :: h :: t : List (List Char)).dropLast = [] :: (h :: t).dropLast :=
            List.dropLast_cons_of_ne_nil (by simp)
          have e2 : ([] :: h :: t : List (List Char)).getLastD [] = t.getLastD h := by
            rw [List.getLastD_cons, List.getLastD_cons]
          have e3 : (h :: t : List (List Char)).getLastD [] = t.getLastD h :=
            List.getLastD_cons _ _ _
          rw [e3, e1, e2, List.cons_append]
        · rw [if_neg hc, if_neg hc]
          cases t with
          | nil =>
              simp only [List.headD_cons, List.tail_cons, List.dropLast_single,
                List.nil_append, List.getLastD_cons, List.getLastD_nil]
              cases hb : splitNlL b with
              | nil => exact absurd hb (splitNlL_ne_nil b)
              | cons bh bt =>
                  simp [glueHead, List.getLastD]
          | cons t0 t1 =>
              have e1 : (h :: t0 :: t1 : List (List Char)).dropLast = h :: (t0 :: t1).dropLast :=
                List.dropLast_cons_of_ne_nil (by simp)
              have e2 : ((c :: h) :: t0 :: t1 : List (List Char)).dropLast
                  = (c :: h) :: (t0 :: t1).dropLast :=
                List.dropLast_cons_of_ne_nil (by simp)
              have e3 : ((c :: h) :: t0 :: t1 : List (List Char)).getLastD [] = t1.getLastD t0 := by
                rw [List.getLastD_cons, List.getLastD_cons]
              have e4 : (h :: t0 :: t1 : List (List Char)).getLastD [] = t1.getLastD t0 := by
                rw [List.getLastD_cons, List.getLastD_cons]
              simp only [e1, e2, e3, e4, List.cons_append, List.headD_cons, List.tail_cons]

theorem splitNlL_no_nl : ∀ {cs : List Char}, '\n' ∉ cs → splitNlL cs = [cs] := by
  intro cs
  induction cs with
  | nil => intro _; rfl
  | cons c rest ih =>
      intro h
      simp only [List.mem_cons, not_or] at h
      rw [splitNlL_cons, if_neg (fun he => h.1 he.symm), ih h.2]
      rfl

theorem splitNlL_getLastD_no_nl : ∀ cs : List Char, '\n' ∉ (splitNlL cs).getLastD [] := by
  intro cs
  induction cs with
  | nil => simp [splitNlL_nil, List.getLastD]
  | cons c rest ih =>
      rw [splitNlL_cons]
      by_cases hc : c = '\n'
      · rw [if_pos hc]
        cases hs : splitNlL rest with
        | nil => exact absurd hs (splitNlL_ne_nil rest)
        | cons h t =>
            rw [hs] at ih
            rw [List.getLastD_cons, List.getLastD_cons]
            rwa [List.getLastD_cons] at ih
      · rw [if_neg hc]
        cases hs : splitNlL rest with
        | nil => exact absurd hs (splitNlL_ne_nil rest)
        | cons h t =>
            rw [hs] at ih
            rw [List.getLastD_cons] at ih ⊢
            simp only [List.headD_cons, List.tail_cons]
            cases t with
            | nil =>
                simp only [List.getLastD_nil] at ih ⊢
                simp only [List.mem_cons, not_or]
                exact ⟨fun he => hc he.symm, fun hm => ih hm⟩
            | cons t0 t1 =>
                rw [List.getLastD_cons] at ih ⊢
                exact ih

theorem splitNlL_decomp (x r : List Char) :
    splitNlL (x ++ r) =
      (splitNlL x).dropLast ++ splitNlL ((splitNlL x).getLastD [] ++ r) := by
  rw [splitNlL_append x r]
  congr 1
  rw [splitNlL_append ((splitNlL x).getLastD []) r,
    splitNlL_no_nl (splitNlL_getLastD_no_nl x)]
  simp [List.getLastD]

theorem getLastD_map {α β : Type} (f : α → β) : ∀ (l : List α) (d : α),
    (l.map f).getLastD (f d) = f (l.getLastD d) := by
  intro l
  induction l with
  | nil => intro d; rfl
  | cons a l ih =>
      intro d
      rw [List.map_cons, List.getLastD_cons, List.getLastD_cons]
      exact ih a

theorem getLastD_append_of_ne_nil {α : Type} {l2 : List α} (l1 : List α) (d : α)
    (h : l2 ≠ []) : (l1 ++ l2).getLastD d = l2.getLastD d := by
  rw [List.getLastD_eq_getLast?, List.getLastD_eq_getLast?,
    List.getLast?_append_of_ne_nil l1 h]

theorem strAppend_assoc (a b c : String) : a ++ b ++ c = a ++ (b ++ c) := by
  apply String.ext
  simp [String.data_append, List.append_assoc]

theorem splitNl_ne_nil (s : String) : splitNl s ≠ [] := by
  unfold splitNl
  intro h
  exact splitNlL_ne_nil s.data (List.map_eq_nil_iff.mp h)

theorem strMk_data (s : String) : String.mk s.data = s := rfl

theorem splitNl_getLastD (s : String) :
    (splitNl s).getLastD "" = String.mk ((splitNlL s.data).getLastD []) := by
  unfold splitNl
  exact getLastD_map String.mk (splitNlL s.data) []

theorem splitNl_getLastD_no_nl (s : String) : '\n' ∉ ((splitNl s).getLastD "").data := by
  rw [splitNl_getLastD]
  exact splitNlL_getLastD_no_nl s.data

theorem splitNl_decomp (x r : String) :
    splitNl (x ++ r) =
      (splitNl x).dropLast ++ splitNl ((splitNl x).getLastD "" ++ r) := by
  have hlast := splitNl_getLastD x
  unfold splitNl at hlast ⊢
  rw [String.data_append, splitNlL_decomp x.data r.data, List.map_append]
  congr 1
  · exact List.map_dropLast String.mk (splitNlL x.data)
  · congr 1
    rw [String.data_append]
    congr 1
    rw [hlast]

theorem splitNl_no_nl {s : String} (h : '\n' ∉ s.data) : splitNl s = [s] := by
  unfold splitNl
  rw [splitNlL_no_nl h]
  rfl

theorem feedLines_noDone : ∀ (ls : List String) (st : RunState), noDoneLines ls →
    feedLines st ls = { st with writes := st.writes ++ frags ls } := by
  intro ls
  induction ls with
  | nil => intro st _; simp [feedLines, frags]
  | cons l rest ih =>
      intro st h
      have hl : parseSSELine l ≠ .done := h l (List.mem_cons_self _ _)
      have hrest : noDoneLines rest := fun x hx => h x (List.mem_cons_of_mem _ hx)
      cases hp : parseSSELine l with
      | done => exact absurd hp hl
      | frag s =>
          simp only [feedLines, hp]
          rw [ih _ hrest]
          simp only [writeOut, frags, List.filterMap_cons, fragOf, hp]
          simp [List.append_assoc]
      | noth =>
          simp only [feedLines, hp]
          rw [ih _ hrest]
          simp only [frags, List.filterMap_cons, fragOf, hp]

theorem resolveP_eq (st : RunState) :
    resolveP st = { st with settled := resolveSettled st.settled } := by
  obtain ⟨b, w, s⟩ := st
  cases s <;> rfl

theorem feedLines_done : ∀ (pre : List String) (l : String) (post : List String) (st : RunState),
    noDoneLines pre → parseSSELine l = .done →
    feedLines st (pre ++ l :: post) =
      { st with writes := st.writes ++ frags pre, settled := resolveSettled st.settled } := by
  intro pre
  induction pre with
  | nil =>
      intro l post st _ hl
      simp only [List.nil_append, feedLines, hl]
      rw [resolveP_eq]
      simp [frags]
  | cons p pre' ih =>
      intro l post st h hl
      have hp' : parseSSELine p ≠ .done := h p (List.mem_cons_self _ _)
      have hrest : noDoneLines pre' := fun x hx => h x (List.mem_cons_of_mem _ hx)
      cases hp : parseSSELine p with
      | done => exact absurd hp hp'
      | frag s =>
          simp only [List.cons_append, feedLines, hp, List.append_eq]
          rw [ih _ _ _ hrest hl]
          simp only [writeOut, frags, List.filterMap_cons, fragOf, hp]
          simp [List.append_assoc]
      | noth =>
          simp only [List.cons_append, feedLines, hp, List.append_eq]
          rw [ih _ _ _ hrest hl]
          simp only [frags, List.filterMap_cons, fragOf, hp]

theorem runData_noDone : ∀ (cs : List String) (st : RunState), '\n' ∉ st.buffer.data →
    noDoneLines ((splitNl (st.buffer ++ concatS cs)).dropLast) →
    List.foldl stepEv st (cs.map .data) =
      { buffer := (splitNl (st.buffer ++ concatS cs)).getLastD "",
        writes := st.writes ++ frags ((splitNl (st.buffer ++ concatS cs)).dropLast),
        settled := st.settled } := by
  intro cs
  induction cs with
  | nil =>
      intro st hnl _
      rw [show concatS [] = "" from rfl, String.append_empty, splitNl_no_nl hnl]
      simp [frags]
  | cons c rest ih =>
      intro st hnl hnd
      have hassoc : st.buffer ++ concatS (c :: rest) = (st.buffer ++ c) ++ concatS rest := by
        rw [show concatS (c :: rest) = c ++ concatS rest from rfl, strAppend_assoc]
      rw [hassoc] at hnd ⊢
      rw [splitNl_decomp (st.buffer ++ c) (concatS rest)] at hnd ⊢
      set lastX := (splitNl (st.buffer ++ c)).getLastD "" with hlastX
      have hBne : splitNl (lastX ++ concatS rest) ≠ [] := splitNl_ne_nil _
      rw [List.dropLast_append_of_ne_nil _ hBne] at hnd ⊢
      have hndA : noDoneLines (splitNl (st.buffer ++ c)).dropLast := by
        intro x hx; exact hnd x (List.mem_append_left _ hx)
      have hndB : noDoneLines (splitNl (lastX ++ concatS rest)).dropLast := by
        intro x hx; exact hnd x (List.mem_append_right _ hx)
      simp only [List.map_cons, List.foldl_cons]
      rw [show stepEv st (.data c) =
          feedLines { st with buffer := (splitNl (st.buffer ++ c)).getLastD "" }
            (splitNl (st.buffer ++ c)).dropLast from rfl]
      rw [feedLines_noDone _ _ hndA]
      rw [ih _ (by exact splitNl_getLastD_no_nl (st.buffer ++ c)) (by exact hndB)]
      dsimp only
      simp only [frags, List.filterMap_append, List.append_assoc]
      rw [getLastD_append_of_ne_nil _ _ hBne]

theorem stepEnds_eq (st : RunState) :
    stepEv st .ends =
      { buffer := st.buffer, writes := st.writes ++ endFlush st.buffer,
        settled := resolveSettled st.settled } := by
  show resolveP _ = _
  by_cases hws : st.buffer.data.all jsWsChar = true
  · rw [show (if st.buffer.data.all jsWsChar then st
        else match parseSSELine st.buffer with
          | .frag s => writeOut st s
          | _ => st) = st from if_pos hws]
    rw [resolveP_eq]
    simp [endFlush, hws]
  · rw [show (if st.buffer.data.all jsWsChar then st
        else match parseSSELine st.buffer with
          | .frag s => writeOut st s
          | _ => st) = (match parseSSELine st.buffer with
          | .frag s => writeOut st s
          | _ => st) from if_neg hws]
    cases hp : parseSSELine st.buffer with
    | frag s =>
        rw [resolveP_eq]
        simp [endFlush, hws, hp, writeOut]
    | done =>
        rw [resolveP_eq]
        simp [endFlush, hws, hp]
    | noth =>
        rw [resolveP_eq]
        simp [endFlush, hws, hp]

/-- C2 (amended): the streaming body keeps exactly one buffer of
unterminated trailing text — each chunk is appended, split on newline, the
final segment held back, and every complete line fed to the parser in
arrival order (conjunct 1, stated for streams whose complete lines contain
no done signal, and conjunct 2 for the chunk containing a done line: the
done result settles the promise immediately and the remaining complete
lines of that chunk are discarded); at end-of-input a non-blank trailing
buffer is parsed exactly once as a final flush, and this flush still
happens — and its fragment is still written — even when a done result has
already completed the operation (conjunct 3 combined with conjunct 1/2's
settled promise, the correction to the claim); a transport error while the
promise is pending is re-wrapped as a stream-interrupted failure carrying
the original message (conjunct 4). -/
theorem streamBuffer_spec :
    (∀ cs : List String, noDoneLines ((splitNl (concatS cs)).dropLast) →
      runStream (cs.map StreamEv.data ++ [.ends]) =
        { buffer := (splitNl (concatS cs)).getLastD "",
          writes := frags ((splitNl (concatS cs)).dropLast) ++
            endFlush ((splitNl (concatS cs)).getLastD ""),
          settled := some none }) ∧
    (∀ (st : RunState) (chunk : String) (pre : List String) (l : String) (post : List String),
      (splitNl (st.buffer ++ chunk)).dropLast = pre ++ l :: post → noDoneLines pre →
      parseSSELine l = .done →
      stepEv st (.data chunk) =
        { buffer := (splitNl (st.buffer ++ chunk)).getLastD "",
          writes := st.writes ++ frags pre,
          settled := resolveSettled st.settled }) ∧
    (∀ st : RunState, stepEv st .ends =
        { buffer := st.buffer, writes := st.writes ++ endFlush st.buffer,
          settled := resolveSettled st.settled }) ∧
    (∀ (st : RunState) (m : String), st.settled = none →
      stepEv st (.err m) =
        { buffer := st.buffer, writes := st.writes,
          settled := some (some ("Stream interrupted: " ++ m)) }) := by
  refine ⟨?_, ?_, stepEnds_eq, ?_⟩
  · intro cs hnd
    unfold runStream
    rw [List.foldl_append]
    have h0 : '\n' ∉ (RunState.mk "" [] none).buffer.data := by
      intro h; exact absurd h (by decide)
    have hb : (RunState.mk "" [] none).buffer ++ concatS cs = concatS cs :=
      String.empty_append _
    have hr := runData_noDone cs (RunState.mk "" [] none) h0 (by rw [hb]; exact hnd)
    rw [hb] at hr
    rw [hr]
    rw [List.foldl_cons, List.foldl_nil, stepEnds_eq]
    rfl
  · intro st chunk pre l post hsplit hnd hl
    show feedLines { st with buffer := (splitNl (st.buffer ++ chunk)).getLastD "" }
        ((splitNl (st.buffer ++ chunk)).dropLast) = _
    rw [hsplit, feedLines_done pre l post _ hnd hl]
  · intro st m h
    obtain ⟨b, w, s⟩ := st
    simp only at h
    subst h
    rfl

/-- Counterexample to C2 as stated: after the chunk
`"data: [DONE]\ndata: <json X>"` (no trailing newline) the done line settles
the operation with nothing written and the json line held back in the
buffer, but the subsequent end-of-input event still parses that
buffered-but-unparsed text and writes its fragment "X" — it is not
discarded. -/
theorem streamBuffer_counterexample :
    runStream [.data "data: [DONE]\ndata: \x7b\"choices\":[\x7b\"delta\":\x7b\"content\":\"X\"\x7d\x7d]\x7d"] =
      { buffer := "data: \x7b\"choices\":[\x7b\"delta\":\x7b\"content\":\"X\"\x7d\x7d]\x7d",
        writes := [], settled := some none } ∧
    runStream [.data "data: [DONE]\ndata: \x7b\"choices\":[\x7b\"delta\":\x7b\"content\":\"X\"\x7d\x7d]\x7d", .ends] =
      { buffer := "data: \x7b\"choices\":[\x7b\"delta\":\x7b\"content\":\"X\"\x7d\x7d]\x7d",
        writes := ["X"], settled := some none } :=
  ⟨by decide, by decide⟩

/-- Concrete instantiation of `streamBuffer_spec`: two content frames split
across a chunk boundary yield exactly the two ordered fragments and a
resolved operation. -/
theorem streamBuffer_spec_witness :
    runStream (["data: \x7b\"choices\":[\x7b\"delta\":\x7b\"content\":\"A\"\x7d\x7d]\x7d\nda",
        "ta: \x7b\"choices\":[\x7b\"delta\":\x7b\"content\":\"B\"\x7d\x7d]\x7d\n"].map StreamEv.data
        ++ [.ends]) =
      { buffer := "", writes := ["A", "B"], settled := some none } :=
  (streamBuffer_spec.1 _ (by unfold noDoneLines; decide)).trans (by decide)

/-- `api` section of the typed configuration (config.ts). -/
structure ApiConfig where
  key : Option String
  base_url : String
  timeout : Rat
  deriving DecidableEq, Repr

/-- `models` section. -/
structure ModelConfig where
  default : String
  search_heavy : String
  reasoning : String
  fast : String
  deep_research : String
  deriving DecidableEq, Repr

/-- `agent` section. -/
structure AgentConfig where
  max_iterations : Rat
  temperature : Rat
  max_tokens : Rat
  top_p : Rat
  deriving DecidableEq, Repr

/-- `search_mode` values. -/
inductive SearchMode where
  | low : SearchMode
  | medium : SearchMode
  | high : SearchMode
  deriving DecidableEq, Repr

/-- `output.format` values. -/
inductive OutputFormat where
  | markdown : OutputFormat
  | json : OutputFormat
  | plain : OutputFormat
  deriving DecidableEq, Repr

/-- `research` section. -/
structure ResearchConfig where
  search_mode : SearchMode
  include_citations : Bool
  focus_on_recent : Bool
  deriving DecidableEq, Repr

/-- `output` section. -/
structure OutputConfig where
  format : OutputFormat
  stream : Bool
  verbose : Bool
  deriving DecidableEq, Repr

/-- The typed effective configuration `EnigmaConfig`. -/
structure EnigmaConfig where
  api : ApiConfig
  models : ModelConfig
  agent : AgentConfig
  research : ResearchConfig
  output : OutputConfig
  deriving DecidableEq, Repr

/-- `AVAILABLE_MODELS` from config.ts. -/
def AVAILABLE_MODELS : List String :=
  ["sonar", "sonar-pro", "sonar-reasoning", "sonar-reasoning-pro",
   "sonar-reasoning-large", "sonar-deep-research", "sonar-large"]

/-- `defaultConfig` from config.ts, in typed form. -/
def defaultConfigT : EnigmaConfig :=
  { api := { key := none, base_url := "https://api.perplexity.ai", timeout := 60000 },
    models := { default := "sonar-pro", search_heavy := "sonar-pro",
                reasoning := "sonar-reasoning-pro", fast := "sonar",
                deep_research := "sonar-deep-research" },
    agent := { max_iterations := 10, temperature := mkRat 3 10,
               max_tokens := 4096, top_p := mkRat 9 10 },
    research := { search_mode := .medium, include_citations := true,
                  focus_on_recent := true },
    output := { format := .markdown, stream := false, verbose := false } }

/-- `validateModelName(model, config)` from config.ts: an absent (or empty,
hence falsy) model yields the configured default without warning; a
whitelisted model is returned unchanged; anything else warns and falls back
to the default. -/
def validateModelName (model : Option String) (config : EnigmaConfig) : String × Bool :=
  match model with
  | none => (config.models.default, false)
  | some m =>
    if m = "" then (config.models.default, false)
    else if AVAILABLE_MODELS.contains m then (m, false)
    else (config.models.default, true)

/-- Per-call options `AskOptions` from perplexity.ts. -/
structure AskOptions where
  model : Option String
  searchMode : Option SearchMode
  deriving DecidableEq, Repr

/-- One chat message of the request body. -/
structure ChatMessage where
  role : String
  content : String
  deriving DecidableEq, Repr

/-- The request body built by `buildApiPayload`. -/
structure RequestPayload where
  model : String
  messages : List ChatMessage
  stream : Bool
  search_mode : SearchMode
  temperature : Rat
  max_tokens : Rat
  top_p : Rat
  deriving DecidableEq, Repr

/-- `buildApiPayload(question, config, options, streaming)` from
perplexity.ts. -/
def buildApiPayload (question : String) (config : EnigmaConfig) (options : AskOptions)
    (streaming : Bool) : RequestPayload :=
  { model := (validateModelName options.model config).1,
    messages := [{ role := "user", content := question }],
    stream := streaming,
    search_mode := options.searchMode.getD config.research.search_mode,
    temperature := config.agent.temperature,
    max_tokens := config.agent.max_tokens,
    top_p := config.agent.top_p }

/-- `resolveApiKey(config)` from config.ts: the `PPLX_API_KEY` environment
value (when the variable is set, even to the empty string — `??` skips only
unset values) takes precedence over `config.api.key`. -/
def resolveApiKey (envKey : Option String) (config : EnigmaConfig) : Option String :=
  match envKey with
  | some v => some v
  | none => config.api.key

/-- Outcome of the entry guard of askPerplexity / askPerplexityStreaming: a
`missingKey` outcome throws before any network request is issued (the
`axios.post` call follows the guard), so it carries no request; otherwise
the request payload and bearer key are produced. -/
inductive AskStart where
  | missingKey : AskStart
  | request : RequestPayload → String → AskStart
  deriving DecidableEq, Repr

/-- The key guard plus payload construction of `askPerplexity`
(perplexity.ts): `if (!apiKey) throw` treats an unset key and an empty
key as missing. -/
def askPerplexityStart (envKey : Option String) (question : String)
    (config : EnigmaConfig) (options : AskOptions) : AskStart :=
  match resolveApiKey envKey config with
  | none => .missingKey
  | some k =>
    if k = "" then .missingKey
    else .request (buildApiPayload question config options false) k

/-- The key guard plus payload construction of `askPerplexityStreaming`
(perplexity.ts), identical but streaming. -/
def askPerplexityStreamingStart (envKey : Option String) (question : String)
    (config : EnigmaConfig) (options : AskOptions) : AskStart :=
  match resolveApiKey envKey config with
  | none => .missingKey
  | some k =>
    if k = "" then .missingKey
    else .request (buildApiPayload question config options true) k

/-- C5: `buildApiPayload` returns exactly the payload with the validated
model (call-site option over configured default, per the validator
equations), the single user message, the caller's streaming flag, the
call-site search-mode override falling back to the configured one, and
`temperature`, `max_tokens`, `top_p` copied verbatim from `config.agent`
(the payload does not depend on the options for these three fields); the
function is pure (a Lean function), its only side channel being the
validator's warning flag. -/
theorem buildApiPayload_spec :
    (∀ (question : String) (config : EnigmaConfig) (options : AskOptions) (streaming : Bool),
      buildApiPayload question config options streaming =
        { model := (validateModelName options.model config).1,
          messages := [{ role := "user", content := question }],
          stream := streaming,
          search_mode := options.searchMode.getD config.research.search_mode,
          temperature := config.agent.temperature,
          max_tokens := config.agent.max_tokens,
          top_p := config.agent.top_p }) ∧
    (∀ config : EnigmaConfig, validateModelName none config = (config.models.default, false)) ∧
    (∀ (m : String) (config : EnigmaConfig), validateModelName (some m) config =
      if m = "" then (config.models.default, false)
      else if AVAILABLE_MODELS.contains m then (m, false)
      else (config.models.default, true)) :=
  ⟨fun _ _ _ _ => rfl, fun _ => rfl, fun _ _ => rfl⟩

/-- C7 (amended): both entry points fail with the missing-key error exactly
when the resolved key — the environment value when the variable is set,
otherwise `config.api.key` — is absent or empty; in particular a
set-but-empty environment key triggers the missing-key error even when the
configuration holds a non-empty key. -/
theorem missingKey_iff :
    ∀ (envKey : Option String) (question : String) (config : EnigmaConfig) (o : AskOptions),
      (askPerplexityStart envKey question config o = .missingKey ↔
        resolveApiKey envKey config = none ∨ resolveApiKey envKey config = some "") ∧
      (askPerplexityStreamingStart envKey question config o = .missingKey ↔
        resolveApiKey envKey config = none ∨ resolveApiKey envKey config = some "") := by
  intro envKey question config o
  constructor
  · unfold askPerplexityStart
    cases hr : resolveApiKey envKey config with
    | none => simp
    | some k =>
        by_cases hk : k = ""
        · subst hk; simp
        · simp [hk]
  · unfold askPerplexityStreamingStart
    cases hr : resolveApiKey envKey config with
    | none => simp
    | some k =>
        by_cases hk : k = ""
        · subst hk; simp
        · simp [hk]

/-- Counterexample to C7 as stated: with `PPLX_API_KEY` set to the empty
string and a valid non-empty configured key, `config.api.key` does supply a
key, yet both entry points raise the missing-key error (and the
non-streaming guard never reaches the network call). -/
theorem missingKey_counterexample :
    ({ defaultConfigT with
        api := { defaultConfigT.api with
          key := some "pplx-0123456789abcdefghijklmnopqrstuv" } } : EnigmaConfig).api.key
      = some "pplx-0123456789abcdefghijklmnopqrstuv" ∧
    ("pplx-0123456789abcdefghijklmnopqrstuv" : String) ≠ "" ∧
    resolveApiKey (some "") { defaultConfigT with
        api := { defaultConfigT.api with
          key := some "pplx-0123456789abcdefghijklmnopqrstuv" } } = some "" ∧
    askPerplexityStart (some "") "q" { defaultConfigT with
        api := { defaultConfigT.api with
          key := some "pplx-0123456789abcdefghijklmnopqrstuv" } } ⟨none, none⟩ = .missingKey ∧
    askPerplexityStreamingStart (some "") "q" { defaultConfigT with
        api := { defaultConfigT.api with
          key := some "pplx-0123456789abcdefghijklmnopqrstuv" } } ⟨none, none⟩ = .missingKey :=
  ⟨rfl, by decide, rfl, rfl, rfl⟩

/-- C10: a set-but-empty `PPLX_API_KEY` masks a valid configured key: the
nullish-coalescing resolution returns the empty string in preference to any
defined `config.api.key`, and askPerplexity then fails with the missing-key
error even though the configuration holds a non-empty key (which would have
been used had the variable been unset). -/
theorem emptyEnvKey_masks_configKey (config : EnigmaConfig) (k : String)
    (h1 : config.api.key = some k) (h2 : k ≠ "") :
    resolveApiKey (some "") config = some "" ∧
    (∀ (question : String) (o : AskOptions),
      askPerplexityStart (some "") question config o = .missingKey) ∧
    resolveApiKey none config = some k ∧
    (∀ (question : String) (o : AskOptions),
      askPerplexityStart none question config o ≠ .missingKey) := by
  refine ⟨rfl, fun _ _ => rfl, by simp [resolveApiKey, h1], ?_⟩
  intro question o
  unfold askPerplexityStart
  simp [resolveApiKey, h1, h2]

/-- Concrete instantiation of `emptyEnvKey_masks_configKey`. -/
theorem emptyEnvKey_masks_configKey_witness :
    resolveApiKey (some "") { defaultConfigT with
        api := { defaultConfigT.api with key := some "pplx-key" } } = some "" ∧
    askPerplexityStart (some "") "question" { defaultConfigT with
        api := { defaultConfigT.api with key := some "pplx-key" } } ⟨none, none⟩ = .missingKey ∧
    askPerplexityStart none "question" { defaultConfigT with
        api := { defaultConfigT.api with key := some "pplx-key" } } ⟨none, none⟩ ≠ .missingKey :=
  have h := emptyEnvKey_masks_configKey
    { defaultConfigT with api := { defaultConfigT.api with key := some "pplx-key" } }
    "pplx-key" rfl (by decide)
  ⟨h.1, h.2.1 "question" ⟨none, none⟩, h.2.2.2 "question" ⟨none, none⟩⟩

/-- JavaScript `String.prototype.trim` (ASCII whitespace model). -/
def jsTrim (s : String) : String :=
  String.mk (((s.data.dropWhile jsWsChar).reverse.dropWhile jsWsChar).reverse)

/-- `s.startsWith(p)` via the character lists. -/
def strStartsWith (s p : String) : Bool := p.data.isPrefixOf s.data

/-- `s.slice(n)` for ASCII strings (code units coincide with characters). -/
def strDrop (s : String) (n : Nat) : String := String.mk (s.data.drop n)

/-- `s.length` for ASCII strings. -/
def strLength (s : String) : Nat := s.data.length

/-- The character class `[a-zA-Z0-9_-]` of the key-suffix regular
expression. -/
def isKeyChar (c : Char) : Bool := c.isAlpha || c.isDigit || c = '_' || c = '-'

/-- Result record of `validateApiKeyFormat`. -/
structure KeyValidation where
  valid : Bool
  message : Option String
  deriving DecidableEq, Repr

/-- `validateApiKeyFormat(key)` from config.ts: an empty (falsy) key is
required; the key is trimmed; the trimmed key must start with the literal
`"pplx-"`; its length (prefix included) must lie in the inclusive window
37..128; the part after the prefix must be non-empty and match
`[a-zA-Z0-9_-]+`.  (The `typeof key !== 'string'` guard is vacuous for a
typed string argument.) -/
def validateApiKeyFormat (key : String) : KeyValidation :=
  if key = "" then { valid := false, message := some "API key is required" }
  else
    let trimmedKey := jsTrim key
    if !(strStartsWith trimmedKey "pplx-") then
      { valid := false, message := some "API key must start with \"pplx-\"" }
    else if strLength trimmedKey < 37 then
      { valid := false, message := some "API key is too short" }
    else if 128 < strLength trimmedKey then
      { valid := false, message := some "API key is too long" }
    else
      let keyPart := strDrop trimmedKey 5
      if keyPart ≠ "" ∧ keyPart.data.all isKeyChar then { valid := true, message := none }
      else { valid := false, message := some "API key contains invalid characters" }

theorem jsTrim_empty : jsTrim "" = "" := rfl

/-- C8 (amended): `validateApiKeyFormat` fails with the EMPTY message
exactly on the empty string; every other check runs on the **trimmed** key:
WRONG-PREFIX when the trimmed key (in particular, a whitespace-only key,
which trims to the empty string) does not start with `"pplx-"`;
TOO-SHORT / TOO-LONG when the trimmed string's length (prefix included)
lies outside the inclusive window 37..128; INVALID-CHARS when the suffix
after the prefix contains a character outside `[A-Za-z0-9_-]`; and the key
is reported valid if and only if all of these checks pass. -/
theorem validateApiKeyFormat_spec (key : String) :
    (key = "" → validateApiKeyFormat key =
      { valid := false, message := some "API key is required" }) ∧
    (key ≠ "" → strStartsWith (jsTrim key) "pplx-" = false →
      validateApiKeyFormat key =
        { valid := false, message := some "API key must start with \"pplx-\"" }) ∧
    (key ≠ "" → strStartsWith (jsTrim key) "pplx-" = true →
      strLength (jsTrim key) < 37 →
      validateApiKeyFormat key = { valid := false, message := some "API key is too short" }) ∧
    (key ≠ "" → strStartsWith (jsTrim key) "pplx-" = true →
      37 ≤ strLength (jsTrim key) → 128 < strLength (jsTrim key) →
      validateApiKeyFormat key = { valid := false, message := some "API key is too long" }) ∧
    (key ≠ "" → strStartsWith (jsTrim key) "pplx-" = true →
      37 ≤ strLength (jsTrim key) → strLength (jsTrim key) ≤ 128 →
      ¬ (strDrop (jsTrim key) 5).data.all isKeyChar = true →
      validateApiKeyFormat key =
        { valid := false, message := some "API key contains invalid characters" }) ∧
    ((validateApiKeyFormat key).valid = true ↔
      strStartsWith (jsTrim key) "pplx-" = true ∧
      37 ≤ strLength (jsTrim key) ∧ strLength (jsTrim key) ≤ 128 ∧
      (strDrop (jsTrim key) 5).data.all isKeyChar = true) := by
  refine ⟨?_, ?_, ?_, ?_, ?_, ?_⟩
  · intro h
    rw [validateApiKeyFormat, if_pos h]
  · intro h hsw
    rw [validateApiKeyFormat, if_neg h]
    simp only [hsw, Bool.not_false, if_pos]
  · intro h hsw hlen
    rw [validateApiKeyFormat, if_neg h]
    simp only [hsw, Bool.not_true, Bool.false_eq_true, if_false]
    rw [if_pos hlen]
  · intro h hsw hlen1 hlen2
    rw [validateApiKeyFormat, if_neg h]
    simp only [hsw, Bool.not_true, Bool.false_eq_true, if_false]
    rw [if_neg (by omega), if_pos hlen2]
  · intro h hsw hlen1 hlen2 hchars
    rw [validateApiKeyFormat, if_neg h]
    simp only [hsw, Bool.not_true, Bool.false_eq_true, if_false]
    rw [if_neg (by omega), if_neg (by omega)]
    rw [if_neg (by intro hcon; exact hchars hcon.2)]
  · constructor
    · intro hv
      by_cases h : key = ""
      · rw [validateApiKeyFormat, if_pos h] at hv
        exact absurd hv (by decide)
      · rw [validateApiKeyFormat, if_neg h] at hv
        by_cases hsw : strStartsWith (jsTrim key) "pplx-" = true
        · simp only [hsw, Bool.not_true, Bool.false_eq_true, if_false] at hv
          by_cases hlen1 : strLength (jsTrim key) < 37
          · rw [if_pos hlen1] at hv
            exact absurd hv (by decide)
          · rw [if_neg hlen1] at hv
            by_cases hlen2 : 128 < strLength (jsTrim key)
            · rw [if_pos hlen2] at hv
              exact absurd hv (by decide)
            · rw [if_neg hlen2] at hv
              by_cases hch : (strDrop (jsTrim key) 5) ≠ "" ∧
                  (strDrop (jsTrim key) 5).data.all isKeyChar = true
              · exact ⟨hsw, by omega, by omega, hch.2⟩
              · rw [if_neg hch] at hv
                exact absurd hv (by decide)
        · simp only [Bool.not_eq_true] at hsw
          simp only [hsw, Bool.not_false, if_pos] at hv
          exact absurd hv (by decide)
    · rintro ⟨hsw, hlen1, hlen2, hch⟩
      have hkeyne : key ≠ "" := by
        intro hcon
        subst hcon
        rw [jsTrim_empty] at hlen1
        simp [strLength] at hlen1
      have hpartne : strDrop (jsTrim key) 5 ≠ "" := by
        intro hcon
        have : ((jsTrim key).data.drop 5).length = 0 := by
          rw [show (jsTrim key).data.drop 5 = (strDrop (jsTrim key) 5).data from rfl, hcon]
          rfl
        rw [List.length_drop] at this
        unfold strLength at hlen1
        omega
      rw [validateApiKeyFormat, if_neg hkeyne]
      simp only [hsw, Bool.not_true, Bool.false_eq_true, if_false]
      rw [if_neg (by unfold strLength at hlen1 ⊢; omega),
        if_neg (by unfold strLength at hlen2 ⊢; omega),
        if_pos ⟨hpartne, hch⟩]

/-- Counterexample to C8 as stated: a whitespace-only key is blank, but the
validator trims it first, so the check that fires is the prefix check, not
the EMPTY check. -/
theorem validateApiKeyFormat_counterexample :
    jsTrim "   " = "" ∧
    validateApiKeyFormat "   " =
      { valid := false, message := some "API key must start with \"pplx-\"" } ∧
    validateApiKeyFormat "   " ≠
      { valid := false, message := some "API key is required" } :=
  ⟨by decide, by decide, by decide⟩

/-- Concrete instantiations of `validateApiKeyFormat_spec`: the empty key,
a wrong-prefix key, a too-short key, an invalid-character key, and a valid
key. -/
theorem validateApiKeyFormat_spec_witness :
    validateApiKeyFormat "" = { valid := false, message := some "API key is required" } ∧
    validateApiKeyFormat "sk-0123456789abcdefghijklmnopqrstuvwxyz" =
      { valid := false, message := some "API key must start with \"pplx-\"" } ∧
    validateApiKeyFormat "pplx-short" =
      { valid := false, message := some "API key is too short" } ∧
    validateApiKeyFormat "pplx-0123456789abcdefghijklmnopqrstu!" =
      { valid := false, message := some "API key contains invalid characters" } ∧
    (validateApiKeyFormat "pplx-0123456789abcdefghijklmnopqrstuv").valid = true :=
  ⟨(validateApiKeyFormat_spec "").1 rfl,
   (validateApiKeyFormat_spec "sk-0123456789abcdefghijklmnopqrstuvwxyz").2.1
     (by decide) (by decide),
   (validateApiKeyFormat_spec "pplx-short").2.2.1 (by decide) (by decide) (by decide),
   (validateApiKeyFormat_spec "pplx-0123456789abcdefghijklmnopqrstu!").2.2.2.2.1
     (by decide) (by decide) (by decide) (by decide) (by decide),
   ((validateApiKeyFormat_spec "pplx-0123456789abcdefghijklmnopqrstuv").2.2.2.2.2).mpr
     ⟨by decide, by decide, by decide, by decide⟩⟩

/-- Lower-case hexadecimal digit. -/
def hexDigit (n : Nat) : Char :=
  if n < 10 then Char.ofNat (48 + n) else Char.ofNat (87 + n)

/-- Four-digit hexadecimal rendering for `\u` escapes. -/
def hex4 (n : Nat) : List Char :=
  [hexDigit (n / 4096 % 16), hexDigit (n / 256 % 16), hexDigit (n / 16 % 16), hexDigit (n % 16)]

/-- JSON escaping of one character, as `JSON.stringify` performs it. -/
def jsonEscapeChar (c : Char) : List Char :=
  if c = '"' then ['\\', '"']
  else if c = '\\' then ['\\', '\\']
  else if c = '\n' then ['\\', 'n']
  else if c = '\r' then ['\\', 'r']
  else if c = '\t' then ['\\', 't']
  else if c = '\x08' then ['\\', 'b']
  else if c = '\x0c' then ['\\', 'f']
  else if c.toNat < 32 then '\\' :: 'u' :: hex4 c.toNat
  else [c]

/-- A JSON string literal with quotes and escapes. -/
def quoteJson (s : String) : String :=
  String.mk ('"' :: s.data.foldr (fun c acc => jsonEscapeChar c ++ acc) ['"'])

/-- Digits of the fractional part by long division (a terminating decimal
is rendered exactly; the embedded code never renders a non-terminating
one, which would be truncated at thirty digits). -/
def fracDigits : Nat → Nat → Nat → List Char
  | 0, _, _ => []
  | fuel + 1, num, den =>
    if num = 0 then []
    else
      Char.ofNat (48 + num * 10 / den) :: fracDigits fuel (num * 10 % den) den

/-- JavaScript number-to-string: integers plainly, other values in decimal
notation. -/
def numToString (q : Rat) : String :=
  if q.den = 1 then toString q.num
  else
    let sign := if q.num < 0 then "-" else ""
    let n := q.num.natAbs
    sign ++ toString (n / q.den) ++ "." ++ String.mk (fracDigits 30 (n % q.den) q.den)

/-- Comma-join. -/
def joinComma : List String → String
  | [] => ""
  | [s] => s
  | s :: rest => s ++ "," ++ joinComma rest

mutual

/-- `JSON.stringify` on a JavaScript value: `undefined` has no JSON
rendering (the call evaluates to the undefined value, modelled as `none`);
inside arrays an element with no rendering becomes `null`; inside objects a
member with no rendering is dropped. -/
def jsonStringify : JVal → Option String
  | .vUndef => none
  | .vNull => some "null"
  | .vBool true => some "true"
  | .vBool false => some "false"
  | .vNum q => some (numToString q)
  | .vStr s => some (quoteJson s)
  | .vObj true fs => some ("[" ++ joinComma (stringifyArr fs) ++ "]")
  | .vObj false fs => some ("\x7b" ++ joinComma (stringifyObj fs) ++ "\x7d")

def stringifyArr : JFields → List String
  | .fnil => []
  | .fcons _ v rest =>
    (match jsonStringify v with
     | some s => s
     | none => "null") :: stringifyArr rest

def stringifyObj : JFields → List String
  | .fnil => []
  | .fcons k v rest =>
    match jsonStringify v with
    | some s => (quoteJson k ++ ":" ++ s) :: stringifyObj rest
    | none => stringifyObj rest

end

/-- The `unknown` error input of `formatError`: a transport (axios) error
with optional HTTP status, optional transport code, message and optional
response-body error detail; an `Error` instance with its message; a plain
string; or any other JavaScript value. -/
inductive ErrVal where
  | axiosErr : Option Nat → Option String → String → Option String → ErrVal
  | errObj : String → ErrVal
  | strVal : String → ErrVal
  | otherVal : JVal → ErrVal
  deriving DecidableEq

/-- JavaScript truthiness of the optional status (`!status` is true for an
absent status and for a zero status, the XHR convention for "no
response"). -/
def statusTruthy : Option Nat → Bool
  | none => false
  | some n => n != 0

/-- `formatError(error)` from perplexity.ts: the transport decision table in
source order, then the `Error` message, then a plain string verbatim, then
`JSON.stringify` of the value. -/
def formatError : ErrVal → Option String
  | .axiosErr status code message respErr =>
    let detail := respErr.getD message
    if !(statusTruthy status) && code.isSome then
      some ("Network error (" ++ code.getD "" ++ "). Please check your connection and try again.")
    else if status = some 401 ∨ status = some 403 then
      some "API key invalid or unauthorized. Run \"enigma config\" to update your key."
    else if status = some 404 then
      some "Endpoint not found. Please try again in a moment."
    else if status = some 429 then
      some "Rate limit exceeded. Please wait a moment and try again."
    else if status = some 500 ∨ status = some 502 ∨ status = some 503 then
      some ("Server error (" ++ toString (status.getD 0) ++
        "). The Perplexity API may be temporarily unavailable. Please try again later.")
    else if statusTruthy status then
      some ("API error (" ++ toString (status.getD 0) ++ "): " ++ detail)
    else
      some ("API error: " ++ detail)
  | .errObj message => some message
  | .strVal s => some s
  | .otherVal j => jsonStringify j

theorem jsonStringify_isSome (j : JVal) (h : j ≠ .vUndef) :
    (jsonStringify j).isSome = true := by
  cases j with
  | vUndef => exact absurd rfl h
  | vNull => rfl
  | vBool b => cases b <;> rfl
  | vNum q => rfl
  | vStr s => rfl
  | vObj a fs => cases a <;> rfl

/-- C6 (amended): `formatError` is pure and total, and maps transport
errors by the decision table checked in source order — no truthy HTTP
status with a transport code gives the network-error message; status 401 or
403 the unauthorized message; 404 endpoint-not-found; 429 the rate-limit
message; 500, 502 or 503 a server-error message naming the status; any
other truthy status `API error (<status>): <detail>`; no truthy status and
no code `API error: <detail>` — and maps a non-transport error to its
message, a plain string verbatim, and any other value to its JSON
rendering; every such value except `undefined` yields a message, while
`JSON.stringify(undefined)` has no string rendering, so `formatError`
returns the undefined value there rather than a human-readable message. -/
theorem formatError_spec :
    (∀ (status : Option Nat) (code : Option String) (message : String) (respErr : Option String),
      statusTruthy status = false → code.isSome = true →
      formatError (.axiosErr status code message respErr) =
        some ("Network error (" ++ code.getD "" ++
          "). Please check your connection and try again.")) ∧
    (∀ (status : Option Nat) (code : Option String) (message : String) (respErr : Option String),
      status = some 401 ∨ status = some 403 →
      formatError (.axiosErr status code message respErr) =
        some "API key invalid or unauthorized. Run \"enigma config\" to update your key.") ∧
    (∀ (code : Option String) (message : String) (respErr : Option String),
      formatError (.axiosErr (some 404) code message respErr) =
        some "Endpoint not found. Please try again in a moment.") ∧
    (∀ (code : Option String) (message : String) (respErr : Option String),
      formatError (.axiosErr (some 429) code message respErr) =
        some "Rate limit exceeded. Please wait a moment and try again.") ∧
    (∀ (status : Option Nat) (code : Option String) (message : String) (respErr : Option String),
      status = some 500 ∨ status = some 502 ∨ status = some 503 →
      formatError (.axiosErr status code message respErr) =
        some ("Server error (" ++ toString (status.getD 0) ++
          "). The Perplexity API may be temporarily unavailable. Please try again later.")) ∧
    (∀ (status : Option Nat) (code : Option String) (message : String) (respErr : Option String),
      statusTruthy status = true →
      status ≠ some 401 → status ≠ some 403 → status ≠ some 404 → status ≠ some 429 →
      status ≠ some 500 → status ≠ some 502 → status ≠ some 503 →
      formatError (.axiosErr status code message respErr) =
        some ("API error (" ++ toString (status.getD 0) ++ "): " ++ respErr.getD message)) ∧
    (∀ (status : Option Nat) (message : String) (respErr : Option String),
      statusTruthy status = false →
      formatError (.axiosErr status none message respErr) =
        some ("API error: " ++ respErr.getD message)) ∧
    (∀ message : String, formatError (.errObj message) = some message) ∧
    (∀ s : String, formatError (.strVal s) = some s) ∧
    (∀ j : JVal, formatError (.otherVal j) = jsonStringify j) ∧
    (∀ j : JVal, j ≠ .vUndef → (formatError (.otherVal j)).isSome = true) := by
  refine ⟨?_, ?_, ?_, ?_, ?_, ?_, ?_, fun _ => rfl, fun _ => rfl, fun _ => rfl,
    fun j h => jsonStringify_isSome j h⟩
  · intro status code message respErr hst hcode
    simp only [formatError]
    rw [hst, hcode]
    simp
  · intro status code message respErr hst
    rcases hst with h | h <;> subst h <;> simp [formatError, statusTruthy]
  · intro code message respErr
    simp [formatError, statusTruthy]
  · intro code message respErr
    simp [formatError, statusTruthy]
  · intro status code message respErr hst
    rcases hst with h | h | h <;> subst h <;> simp [formatError, statusTruthy]
  · intro status code message respErr htruthy h401 h403 h404 h429 h500 h502 h503
    simp only [formatError]
    rw [htruthy]
    simp [h401, h403, h404, h429, h500, h502, h503]
  · intro status message respErr hst
    have hcases : status = none ∨ status = some 0 := by
      cases status with
      | none => exact Or.inl rfl
      | some n =>
          right
          have hz : n = 0 := by
            by_contra hn
            simp [statusTruthy, hn] at hst
          rw [hz]
    rcases hcases with h | h <;> subst h <;> simp [formatError, statusTruthy]

/-- Counterexample to C6 as stated: `formatError(undefined)` does not
return a human-readable message — `JSON.stringify(undefined)` evaluates to
the undefined value, which the function returns as-is. -/
theorem formatError_counterexample :
    formatError (.otherVal .vUndef) = none ∧
    (formatError (.otherVal .vUndef)).isSome = false :=
  ⟨rfl, rfl⟩

/-- Concrete instantiations of `formatError_spec`: a code-only network
error, 401, 429, 502, an uncatalogued status, no status and no code, an
Error message, a plain string, and a JSON-rendered object. -/
theorem formatError_spec_witness :
    formatError (.axiosErr none (some "ECONNREFUSED") "boom" none) =
      some "Network error (ECONNREFUSED). Please check your connection and try again." ∧
    formatError (.axiosErr (some 401) none "boom" none) =
      some "API key invalid or unauthorized. Run \"enigma config\" to update your key." ∧
    formatError (.axiosErr (some 429) none "boom" none) =
      some "Rate limit exceeded. Please wait a moment and try again." ∧
    formatError (.axiosErr (some 502) none "boom" none) =
      some "Server error (502). The Perplexity API may be temporarily unavailable. Please try again later." ∧
    formatError (.axiosErr (some 418) none "boom" (some "teapot")) =
      some "API error (418): teapot" ∧
    formatError (.axiosErr none none "boom" none) = some "API error: boom" ∧
    formatError (.errObj "x") = some "x" ∧
    formatError (.strVal "plain") = some "plain" ∧
    formatError (.otherVal (.vObj false (.fcons "odd" (.vNum 1) .fnil))) =
      some "\x7b\"odd\":1\x7d" :=
  ⟨formatError_spec.1 none (some "ECONNREFUSED") "boom" none rfl rfl,
   formatError_spec.2.1 (some 401) none "boom" none (Or.inl rfl),
   formatError_spec.2.2.2.1 none "boom" none,
   formatError_spec.2.2.2.2.1 (some 502) none "boom" none (Or.inr (Or.inl rfl)),
   (formatError_spec.2.2.2.2.2.1 (some 418) none "boom" (some "teapot") (by decide)
     (by decide) (by decide) (by decide) (by decide) (by decide) (by decide) (by decide)).trans
     (by decide),
   formatError_spec.2.2.2.2.2.2.1 none "boom" none rfl,
   formatError_spec.2.2.2.2.2.2.2.1 "x",
   formatError_spec.2.2.2.2.2.2.2.2.1 "plain",
   (formatError_spec.2.2.2.2.2.2.2.2.2.1 (.vObj false (.fcons "odd" (.vNum 1) .fnil))).trans
     (by decide)⟩

/-- `parseBoolean(value)` from config.ts: undefined stays undefined, then
`"true"` or `"1"` parse to true and everything else to false. -/
def parseBoolean (value : Option String) : Option Bool :=
  match value with
  | none => none
  | some v => some (v = "true" || v = "1")

/-- Value of a digit run in a radix (`none` on an invalid digit). -/
def radixValGo (base : Nat) (acc : Nat) : List Char → Option Nat
  | [] => some acc
  | c :: rest =>
    match hexVal c with
    | some d => if d < base then radixValGo base (acc * base + d) rest else none
    | none => none

/-- A radix literal after `0x` / `0o` / `0b`. -/
def parseRadix (base : Nat) (ds : List Char) : Option Rat :=
  match ds with
  | [] => none
  | _ => (radixValGo base 0 ds).map (fun n => mkRat (n : Int) 1)

/-- A JavaScript decimal numeric literal (`Number` semantics): optional
sign, digits with optional fraction (either side of the dot may be empty,
but not both), optional exponent; `Infinity` is recognised but non-finite,
so the caller maps it to `none`. -/
def jsDecimal (t : List Char) : Option Rat :=
  let (neg, t1) : Bool × List Char :=
    match t with
    | '+' :: rest => (false, rest)
    | '-' :: rest => (true, rest)
    | _ => (false, t)
  if t1 = ['I', 'n', 'f', 'i', 'n', 'i', 't', 'y'] then none
  else
    let (ids, t2) := takeDigits t1
    let (fds, t3) : List Char × List Char :=
      match t2 with
      | '.' :: rest => takeDigits rest
      | _ => ([], t2)
    let hadDot : Bool := match t2 with
      | '.' :: _ => true
      | _ => false
    if ids.isEmpty ∧ fds.isEmpty then none
    else
      let t3' := if hadDot then t3 else t2
      let expRes : Option (Int × List Char) :=
        match t3' with
        | e :: rest =>
          if e = 'e' ∨ e = 'E' then
            let (esign, rest2) : Bool × List Char :=
              match rest with
              | '+' :: r => (false, r)
              | '-' :: r => (true, r)
              | _ => (false, rest)
            let (eds, rest3) := takeDigits rest2
            if eds.isEmpty then none
            else some (if esign then -(digitsVal eds : Int) else (digitsVal eds : Int), rest3)
          else some (0, t3')
        | [] => some (0, [])
      match expRes with
      | none => none
      | some (ex, t4) =>
        if t4 = [] then
          let mant : Int := (digitsVal ids * pow10 fds.length + digitsVal fds : Nat)
          let mant : Int := if neg then -mant else mant
          let scale : Int := ex - (fds.length : Int)
          some (if 0 ≤ scale then mkRat (mant * (pow10 scale.toNat : Int)) 1
                else mkRat mant (pow10 (-scale).toNat))
        else none

/-- `Number(value)` restricted to finite results, as used by
`parseNumber`: trim whitespace, the empty string is zero, radix literals,
otherwise a decimal literal; anything else (including non-finite results)
is `none`. -/
def jsNumber (s : String) : Option Rat :=
  let t := ((s.data.dropWhile jsWsChar).reverse.dropWhile jsWsChar).reverse
  match t with
  | [] => some 0
  | '0' :: c :: rest =>
    if c = 'x' ∨ c = 'X' then parseRadix 16 rest
    else if c = 'o' ∨ c = 'O' then parseRadix 8 rest
    else if c = 'b' ∨ c = 'B' then parseRadix 2 rest
    else jsDecimal t
  | _ => jsDecimal t

/-- `parseNumber(value)` from config.ts: undefined stays undefined;
otherwise `Number(value)` filtered by `Number.isFinite`. -/
def parseNumber (value : Option String) : Option Rat :=
  match value with
  | none => none
  | some v => jsNumber v

/-- `parseSearchMode(value)` from config.ts: a falsy value (undefined or
empty) is undefined; only the three literal modes pass. -/
def parseSearchMode (value : Option String) : Option String :=
  match value with
  | none => none
  | some v =>
    if v = "" then none
    else if v = "low" ∨ v = "medium" ∨ v = "high" then some v
    else none

/-- `parseOutputFormat(value)` from config.ts. -/
def parseOutputFormat (value : Option String) : Option String :=
  match value with
  | none => none
  | some v =>
    if v = "" then none
    else if v = "markdown" ∨ v = "json" ∨ v = "plain" then some v
    else none

/-- The environment-variable table of config.ts (`envMap`): one optional
raw string per configuration leaf, `none` meaning the variable is unset.
Field names follow the config keys; the bound variables are PPLX_API_KEY,
PPLX_API_BASE_URL, PPLX_API_TIMEOUT, the five PPLX_MODEL_*, the four
PPLX_AGENT_*, PPLX_SEARCH_MODE, PPLX_INCLUDE_CITATIONS,
PPLX_FOCUS_ON_RECENT, PPLX_OUTPUT_FORMAT, PPLX_OUTPUT_STREAM and
PPLX_VERBOSE. -/
structure Env where
  key : Option String
  base_url : Option String
  timeout : Option String
  default : Option String
  search_heavy : Option String
  reasoning : Option String
  fast : Option String
  deep_research : Option String
  max_iterations : Option String
  temperature : Option String
  max_tokens : Option String
  top_p : Option String
  search_mode : Option String
  include_citations : Option String
  focus_on_recent : Option String
  format : Option String
  stream : Option String
  verbose : Option String
  deriving DecidableEq, Repr

/-- The environment with no variable set. -/
def emptyEnv : Env :=
  ⟨none, none, none, none, none, none, none, none, none,
   none, none, none, none, none, none, none, none, none⟩

/-- Field list from ordered pairs. -/
def ofPairs : List (String × JVal) → JFields
  | [] => .fnil
  | (k, v) :: rest => .fcons k v (ofPairs rest)

/-- The single optional entry contributed by one leaf. -/
def optP (k : String) (o : Option JVal) : List (String × JVal) :=
  match o with
  | some v => [(k, v)]
  | none => []

/-- Plain member access `v.k` (undefined when absent; the JavaScript crash
on a null/undefined base is unreachable on the overlays considered here and
is modelled as undefined). -/
def jsMember (v : JVal) (k : String) : JVal := (getKey v k).getD (.vUndef)

/-- `parse(value) ?? fallback` for numeric environment leaves. -/
def numFallback : Option Rat → JVal → JVal
  | some n, _ => .vNum n
  | none, fb => fb

/-- `parse(value) ?? fallback` for enumerated environment leaves. -/
def strFallback : Option String → JVal → JVal
  | some v, _ => .vStr v
  | none, fb => fb

/-- `parse(value) ?? fallback` for boolean environment leaves. -/
def boolFallback : Option Bool → JVal → JVal
  | some b, _ => .vBool b
  | none, fb => fb

/-- The default `api` section object. -/
def defaultApiObj : JVal :=
  .vObj false (ofPairs [
    ("key", .vUndef),
    ("base_url", .vStr "https://api.perplexity.ai"),
    ("timeout", .vNum 60000)])

/-- The default `models` section object. -/
def defaultModelsObj : JVal :=
  .vObj false (ofPairs [
    ("default", .vStr "sonar-pro"),
    ("search_heavy", .vStr "sonar-pro"),
    ("reasoning", .vStr "sonar-reasoning-pro"),
    ("fast", .vStr "sonar"),
    ("deep_research", .vStr "sonar-deep-research")])

/-- The default `agent` section object. -/
def defaultAgentObj : JVal :=
  .vObj false (ofPairs [
    ("max_iterations", .vNum 10),
    ("temperature", .vNum (mkRat 3 10)),
    ("max_tokens", .vNum 4096),
    ("top_p", .vNum (mkRat 9 10))])

/-- The default `research` section object. -/
def defaultResearchObj : JVal :=
  .vObj false (ofPairs [
    ("search_mode", .vStr "medium"),
    ("include_citations", .vBool true),
    ("focus_on_recent", .vBool true)])

/-- The default `output` section object. -/
def defaultOutputObj : JVal :=
  .vObj false (ofPairs [
    ("format", .vStr "markdown"),
    ("stream", .vBool false),
    ("verbose", .vBool false)])

/-- `defaultConfig` from config.ts as a dynamic object. -/
def defaultConfig : JVal :=
  .vObj false (ofPairs [
    ("api", defaultApiObj),
    ("models", defaultModelsObj),
    ("agent", defaultAgentObj),
    ("research", defaultResearchObj),
    ("output", defaultOutputObj)])

/-- The `api` entries contributed by set environment variables, in
`envMap` order; numeric values parse with a fallback to the current merged
value. -/
def envApiFields (env : Env) (config : JVal) : List (String × JVal) :=
  optP "key" (env.key.map .vStr) ++
  optP "base_url" (env.base_url.map .vStr) ++
  optP "timeout" (env.timeout.map (fun v =>
    numFallback (parseNumber (some v)) (jsMember (jsMember config "api") "timeout")))

/-- The `models` entries contributed by set environment variables (raw
strings). -/
def envModelsFields (env : Env) : List (String × JVal) :=
  optP "default" (env.default.map .vStr) ++
  optP "search_heavy" (env.search_heavy.map .vStr) ++
  optP "reasoning" (env.reasoning.map .vStr) ++
  optP "fast" (env.fast.map .vStr) ++
  optP "deep_research" (env.deep_research.map .vStr)

/-- The `agent` entries contributed by set environment variables. -/
def envAgentFields (env : Env) (config : JVal) : List (String × JVal) :=
  optP "max_iterations" (env.max_iterations.map (fun v =>
    numFallback (parseNumber (some v)) (jsMember (jsMember config "agent") "max_iterations"))) ++
  optP "temperature" (env.temperature.map (fun v =>
    numFallback (parseNumber (some v)) (jsMember (jsMember config "agent") "temperature"))) ++
  optP "max_tokens" (env.max_tokens.map (fun v =>
    numFallback (parseNumber (some v)) (jsMember (jsMember config "agent") "max_tokens"))) ++
  optP "top_p" (env.top_p.map (fun v =>
    numFallback (parseNumber (some v)) (jsMember (jsMember config "agent") "top_p")))

/-- The `research` entries contributed by set environment variables. -/
def envResearchFields (env : Env) (config : JVal) : List (String × JVal) :=
  optP "search_mode" (env.search_mode.map (fun v =>
    strFallback (parseSearchMode (some v)) (jsMember (jsMember config "research") "search_mode"))) ++
  optP "include_citations" (env.include_citations.map (fun v =>
    boolFallback (parseBoolean (some v)) (jsMember (jsMember config "research") "include_citations"))) ++
  optP "focus_on_recent" (env.focus_on_recent.map (fun v =>
    boolFallback (parseBoolean (some v)) (jsMember (jsMember config "research") "focus_on_recent")))

/-- The `output` entries contributed by set environment variables. -/
def envOutputFields (env : Env) (config : JVal) : List (String × JVal) :=
  optP "format" (env.format.map (fun v =>
    strFallback (parseOutputFormat (some v)) (jsMember (jsMember config "output") "format"))) ++
  optP "stream" (env.stream.map (fun v =>
    boolFallback (parseBoolean (some v)) (jsMember (jsMember config "output") "stream"))) ++
  optP "verbose" (env.verbose.map (fun v =>
    boolFallback (parseBoolean (some v)) (jsMember (jsMember config "output") "verbose")))

/-- The environment overlay: five always-present section objects holding
the entries of the set variables, in `envMap` iteration order. -/
def envSections (env : Env) (config : JVal) : List (String × JVal) :=
  [("api", .vObj false (ofPairs (envApiFields env config))),
   ("models", .vObj false (ofPairs (envModelsFields env))),
   ("agent", .vObj false (ofPairs (envAgentFields env config))),
   ("research", .vObj false (ofPairs (envResearchFields env config))),
   ("output", .vObj false (ofPairs (envOutputFields env config)))]

/-- `applyEnvOverrides(config)` from config.ts: the overlay starts as five
empty section objects; iterating `envMap` in declaration order adds, for
each set variable, the raw value (key, base_url, model slots) or the typed
parse with a fallback to the current merged value (numbers, booleans,
enums); the overlay is then deep-merged over the configuration. -/
def applyEnvOverrides (env : Env) (config : JVal) : JVal :=
  deepMerge config (.vObj false (ofPairs (envSections env config)))

/-- `loadConfig(baseDir)` from config.ts, with the file layer abstracted to
the value produced by `loadFileConfig` (the empty object for a missing or
malformed file): defaults, then the file overlay, then the environment
overlay. -/
def loadConfig (env : Env) (fileConfig : JVal) : JVal :=
  applyEnvOverrides env (deepMerge defaultConfig fileConfig)

/-- A well-typed partial `api` section of a settings file. -/
structure FileApi where
  key : Option String
  base_url : Option String
  timeout : Option Rat
  deriving DecidableEq, Repr

/-- A well-typed partial `models` section. -/
structure FileModels where
  default : Option String
  search_heavy : Option String
  reasoning : Option String
  fast : Option String
  deep_research : Option String
  deriving DecidableEq, Repr

/-- A well-typed partial `agent` section. -/
structure FileAgent where
  max_iterations : Option Rat
  temperature : Option Rat
  max_tokens : Option Rat
  top_p : Option Rat
  deriving DecidableEq, Repr

/-- A well-typed partial `research` section (enumerations kept as raw
strings: the file layer is not validated by the source). -/
structure FileResearch where
  search_mode : Option String
  include_citations : Option Bool
  focus_on_recent : Option Bool
  deriving DecidableEq, Repr

/-- A well-typed partial `output` section. -/
structure FileOutput where
  format : Option String
  stream : Option Bool
  verbose : Option Bool
  deriving DecidableEq, Repr

/-- A well-typed partial settings file: sections may be absent, and each
present section binds a subset of its scalar leaves. -/
structure FileConfig where
  api : Option FileApi
  models : Option FileModels
  agent : Option FileAgent
  research : Option FileResearch
  output : Option FileOutput
  deriving DecidableEq, Repr

/-- Encoded `api` section of a settings file. -/
def fileApiFields (a : FileApi) : List (String × JVal) :=
  optP "key" (a.key.map .vStr) ++
  optP "base_url" (a.base_url.map .vStr) ++
  optP "timeout" (a.timeout.map .vNum)

/-- Encoded `models` section of a settings file. -/
def fileModelsFields (m : FileModels) : List (String × JVal) :=
  optP "default" (m.default.map .vStr) ++
  optP "search_heavy" (m.search_heavy.map .vStr) ++
  optP "reasoning" (m.reasoning.map .vStr) ++
  optP "fast" (m.fast.map .vStr) ++
  optP "deep_research" (m.deep_research.map .vStr)

/-- Encoded `agent` section of a settings file. -/
def fileAgentFields (a : FileAgent) : List (String × JVal) :=
  optP "max_iterations" (a.max_iterations.map .vNum) ++
  optP "temperature" (a.temperature.map .vNum) ++
  optP "max_tokens" (a.max_tokens.map .vNum) ++
  optP "top_p" (a.top_p.map .vNum)

/-- Encoded `research` section of a settings file. -/
def fileResearchFields (r : FileResearch) : List (String × JVal) :=
  optP "search_mode" (r.search_mode.map .vStr) ++
  optP "include_citations" (r.include_citations.map .vBool) ++
  optP "focus_on_recent" (r.focus_on_recent.map .vBool)

/-- Encoded `output` section of a settings file. -/
def fileOutputFields (o : FileOutput) : List (String × JVal) :=
  optP "format" (o.format.map .vStr) ++
  optP "stream" (o.stream.map .vBool) ++
  optP "verbose" (o.verbose.map .vBool)

/-- The sections of a settings file, present only when bound. -/
def fileSections (f : FileConfig) : List (String × JVal) :=
  optP "api" (f.api.map (fun a => .vObj false (ofPairs (fileApiFields a)))) ++
  optP "models" (f.models.map (fun m => .vObj false (ofPairs (fileModelsFields m)))) ++
  optP "agent" (f.agent.map (fun a => .vObj false (ofPairs (fileAgentFields a)))) ++
  optP "research" (f.research.map (fun r => .vObj false (ofPairs (fileResearchFields r)))) ++
  optP "output" (f.output.map (fun o => .vObj false (ofPairs (fileOutputFields o))))

/-- The YAML object denoted by a well-typed partial settings file. -/
def encodeFile (f : FileConfig) : JVal := .vObj false (ofPairs (fileSections f))

/-- The eighteen configuration leaves. -/
inductive Leaf where
  | key | base_url | timeout
  | mdefault | search_heavy | reasoning | fast | deep_research
  | max_iterations | temperature | max_tokens | top_p
  | search_mode | include_citations | focus_on_recent
  | format | stream | verbose
  deriving DecidableEq, Repr

/-- The section object holding a leaf. -/
def leafSection : Leaf → String
  | .key => "api" | .base_url => "api" | .timeout => "api"
  | .mdefault => "models" | .search_heavy => "models" | .reasoning => "models"
  | .fast => "models" | .deep_research => "models"
  | .max_iterations => "agent" | .temperature => "agent"
  | .max_tokens => "agent" | .top_p => "agent"
  | .search_mode => "research" | .include_citations => "research"
  | .focus_on_recent => "research"
  | .format => "output" | .stream => "output" | .verbose => "output"

/-- The property name of a leaf. -/
def leafName : Leaf → String
  | .key => "key" | .base_url => "base_url" | .timeout => "timeout"
  | .mdefault => "default" | .search_heavy => "search_heavy" | .reasoning => "reasoning"
  | .fast => "fast" | .deep_research => "deep_research"
  | .max_iterations => "max_iterations" | .temperature => "temperature"
  | .max_tokens => "max_tokens" | .top_p => "top_p"
  | .search_mode => "search_mode" | .include_citations => "include_citations"
  | .focus_on_recent => "focus_on_recent"
  | .format => "format" | .stream => "stream" | .verbose => "verbose"

/-- Read one leaf of a configuration object. -/
def leafGet (c : JVal) (l : Leaf) : Option JVal :=
  (getKey c (leafSection l)).bind (fun s => getKey s (leafName l))

/-- The built-in default of a leaf (the optional api key defaults to
undefined). -/
def defaultLeaf : Leaf → JVal
  | .key => .vUndef
  | .base_url => .vStr "https://api.perplexity.ai"
  | .timeout => .vNum 60000
  | .mdefault => .vStr "sonar-pro"
  | .search_heavy => .vStr "sonar-pro"
  | .reasoning => .vStr "sonar-reasoning-pro"
  | .fast => .vStr "sonar"
  | .deep_research => .vStr "sonar-deep-research"
  | .max_iterations => .vNum 10
  | .temperature => .vNum (mkRat 3 10)
  | .max_tokens => .vNum 4096
  | .top_p => .vNum (mkRat 9 10)
  | .search_mode => .vStr "medium"
  | .include_citations => .vBool true
  | .focus_on_recent => .vBool true
  | .format => .vStr "markdown"
  | .stream => .vBool false
  | .verbose => .vBool false

/-- The value a well-typed file overlay defines for a leaf, if any. -/
def fileLeaf (f : FileConfig) : Leaf → Option JVal
  | .key => (f.api.bind (fun a => a.key)).map .vStr
  | .base_url => (f.api.bind (fun a => a.base_url)).map .vStr
  | .timeout => (f.api.bind (fun a => a.timeout)).map .vNum
  | .mdefault => (f.models.bind (fun m => m.default)).map .vStr
  | .search_heavy => (f.models.bind (fun m => m.search_heavy)).map .vStr
  | .reasoning => (f.models.bind (fun m => m.reasoning)).map .vStr
  | .fast => (f.models.bind (fun m => m.fast)).map .vStr
  | .deep_research => (f.models.bind (fun m => m.deep_research)).map .vStr
  | .max_iterations => (f.agent.bind (fun a => a.max_iterations)).map .vNum
  | .temperature => (f.agent.bind (fun a => a.temperature)).map .vNum
  | .max_tokens => (f.agent.bind (fun a => a.max_tokens)).map .vNum
  | .top_p => (f.agent.bind (fun a => a.top_p)).map .vNum
  | .search_mode => (f.research.bind (fun r => r.search_mode)).map .vStr
  | .include_citations => (f.research.bind (fun r => r.include_citations)).map .vBool
  | .focus_on_recent => (f.research.bind (fun r => r.focus_on_recent)).map .vBool
  | .format => (f.output.bind (fun o => o.format)).map .vStr
  | .stream => (f.output.bind (fun o => o.stream)).map .vBool
  | .verbose => (f.output.bind (fun o => o.verbose)).map .vBool

/-- The raw environment string bound to a leaf, if its variable is set. -/
def envRaw (e : Env) : Leaf → Option String
  | .key => e.key
  | .base_url => e.base_url
  | .timeout => e.timeout
  | .mdefault => e.default
  | .search_heavy => e.search_heavy
  | .reasoning => e.reasoning
  | .fast => e.fast
  | .deep_research => e.deep_research
  | .max_iterations => e.max_iterations
  | .temperature => e.temperature
  | .max_tokens => e.max_tokens
  | .top_p => e.top_p
  | .search_mode => e.search_mode
  | .include_citations => e.include_citations
  | .focus_on_recent => e.focus_on_recent
  | .format => e.format
  | .stream => e.stream
  | .verbose => e.verbose

/-- The typed parse applied to an environment value at a leaf: string
leaves accept any value, numeric leaves parse through `parseNumber`,
boolean leaves through `parseBoolean` (which never fails on a set
variable), enumerated leaves through their dedicated parser. -/
def envParseLeaf : Leaf → String → Option JVal
  | .key, v => some (.vStr v)
  | .base_url, v => some (.vStr v)
  | .timeout, v => (parseNumber (some v)).map .vNum
  | .mdefault, v => some (.vStr v)
  | .search_heavy, v => some (.vStr v)
  | .reasoning, v => some (.vStr v)
  | .fast, v => some (.vStr v)
  | .deep_research, v => some (.vStr v)
  | .max_iterations, v => (parseNumber (some v)).map .vNum
  | .temperature, v => (parseNumber (some v)).map .vNum
  | .max_tokens, v => (parseNumber (some v)).map .vNum
  | .top_p, v => (parseNumber (some v)).map .vNum
  | .search_mode, v => (parseSearchMode (some v)).map .vStr
  | .include_citations, v => (parseBoolean (some v)).map .vBool
  | .focus_on_recent, v => (parseBoolean (some v)).map .vBool
  | .format, v => (parseOutputFormat (some v)).map .vStr
  | .stream, v => (parseBoolean (some v)).map .vBool
  | .verbose, v => (parseBoolean (some v)).map .vBool

/-- The effective value the specification's precedence assigns to a leaf: a
set, parseable environment value wins; an unparseable environment value
falls back to the next-lower layer; otherwise a defined file value wins;
otherwise the built-in default. -/
def expectedLeaf (env : Env) (f : FileConfig) (l : Leaf) : JVal :=
  match envRaw env l with
  | some v =>
    match envParseLeaf l v with
    | some jv => jv
    | none => (fileLeaf f l).getD (defaultLeaf l)
  | none => (fileLeaf f l).getD (defaultLeaf l)

/-- The value-side of `(result[key] ?? \x7b\x7d)`, phrased on the looked-up
value. -/
def keyOrEmptyOpt (acc : Option JVal) : JVal :=
  match acc with
  | some .vNull => .vObj false .fnil
  | some .vUndef => .vObj false .fnil
  | none => .vObj false .fnil
  | some v => v

theorem keyOrEmpty_eq (r : JVal) (k : String) :
    keyOrEmpty r k = keyOrEmptyOpt (getKey r k) := by
  unfold keyOrEmpty keyOrEmptyOpt
  cases h : getKey r k with
  | none => rfl
  | some v => cases v <;> rfl

/-- What one merge step makes of the value at a fixed key. -/
def mergeValueAt (acc : Option JVal) (v : JVal) : Option JVal :=
  match v with
  | .vUndef => acc
  | .vObj true afs => some (.vObj true afs)
  | .vObj false ofs => some (mergeFields (spreadBase (keyOrEmptyOpt acc)) ofs)
  | w => some w

/-- The evolution of the value at key `k` along the merge loop. -/
def stepK (k : String) (acc : Option JVal) (kv : String × JVal) : Option JVal :=
  if kv.1 = k then mergeValueAt acc kv.2 else acc

theorem isObjJ_mergeFields : ∀ (fs : JFields) {r : JVal},
    isObjJ r = true → isObjJ (mergeFields r fs) = true := by
  intro fs
  induction fs using JFields.inductionOn with
  | fnil => intro r h; exact h
  | fcons k v rest ih =>
      intro r h
      exact ih (isObjJ_mergeOne h)

theorem spreadBase_obj {v : JVal} (h : isObjJ v = true) : spreadBase v = v := by
  cases v with
  | vObj a fs => rfl
  | vNull => exact absurd h (by simp [isObjJ])
  | vUndef => exact absurd h (by simp [isObjJ])
  | vBool b => exact absurd h (by simp [isObjJ])
  | vNum q => exact absurd h (by simp [isObjJ])
  | vStr s => exact absurd h (by simp [isObjJ])

theorem getKey_mergeOne_self {r : JVal} {k : String} (v : JVal) (h : isObjJ r = true) :
    getKey (mergeOne r k v) k = mergeValueAt (getKey r k) v := by
  cases v with
  | vUndef => rfl
  | vObj isArr fs =>
      cases isArr with
      | true => exact getKey_setKey_self h
      | false =>
          show getKey (setKey r k (mergeFields (spreadBase (keyOrEmpty r k)) fs)) k = _
          rw [getKey_setKey_self h, keyOrEmpty_eq]
          rfl
  | vNull => exact getKey_setKey_self h
  | vBool b => exact getKey_setKey_self h
  | vNum q => exact getKey_setKey_self h
  | vStr s => exact getKey_setKey_self h

theorem getKey_mergeFields_pairs (k : String) :
    ∀ (ps : List (String × JVal)) (r : JVal), isObjJ r = true →
    getKey (mergeFields r (ofPairs ps)) k = ps.foldl (stepK k) (getKey r k) := by
  intro ps
  induction ps with
  | nil => intro r _; rfl
  | cons kv rest ih =>
      intro r h
      obtain ⟨k', v⟩ := kv
      show getKey (mergeFields (mergeOne r k' v) (ofPairs rest)) k = _
      rw [ih _ (isObjJ_mergeOne h), List.foldl_cons]
      congr 1
      by_cases he : k' = k
      · subst he
        rw [getKey_mergeOne_self v h]
        simp [stepK]
      · rw [getKey_mergeOne_ne (fun h2 => he h2.symm)]
        simp [stepK, he]

theorem foldl_stepK_skip {k k' : String} (hne : k' ≠ k) (o : Option JVal)
    (acc : Option JVal) (rest : List (String × JVal)) :
    List.foldl (stepK k) acc (optP k' o ++ rest) = List.foldl (stepK k) acc rest := by
  cases o with
  | none => rfl
  | some v => simp [optP, stepK, hne]

theorem foldl_stepK_hit (k : String) (o : Option JVal)
    (acc : Option JVal) (rest : List (String × JVal)) :
    List.foldl (stepK k) acc (optP k o ++ rest) =
      List.foldl (stepK k) (match o with
        | some v => mergeValueAt acc v
        | none => acc) rest := by
  cases o with
  | none => rfl
  | some v => simp [optP, stepK]

theorem foldl_stepK_cons_ne {k k' : String} (hne : k' ≠ k) (v : JVal)
    (acc : Option JVal) (rest : List (String × JVal)) :
    List.foldl (stepK k) acc ((k', v) :: rest) = List.foldl (stepK k) acc rest := by
  simp [stepK, hne]

theorem foldl_stepK_cons_eq (k : String) (v : JVal)
    (acc : Option JVal) (rest : List (String × JVal)) :
    List.foldl (stepK k) acc ((k, v) :: rest) =
      List.foldl (stepK k) (mergeValueAt acc v) rest := by
  simp [stepK]

/-- Primitive (non-object, non-undefined) values. -/
def isPrimJ : JVal → Bool
  | .vNull => true
  | .vBool _ => true
  | .vNum _ => true
  | .vStr _ => true
  | _ => false

theorem mergeValueAt_prim {w : JVal} (h : isPrimJ w = true) (acc : Option JVal) :
    mergeValueAt acc w = some w := by
  cases w with
  | vNull => rfl
  | vBool b => rfl
  | vNum q => rfl
  | vStr s => rfl
  | vUndef => exact absurd h (by simp [isPrimJ])
  | vObj a fs => exact absurd h (by simp [isPrimJ])

theorem keyOrEmptyOpt_obj {v : JVal} (h : isObjJ v = true) :
    keyOrEmptyOpt (some v) = v := by
  cases v with
  | vObj a fs => rfl
  | vNull => exact absurd h (by simp [isObjJ])
  | vUndef => exact absurd h (by simp [isObjJ])
  | vBool b => exact absurd h (by simp [isObjJ])
  | vNum q => exact absurd h (by simp [isObjJ])
  | vStr s => exact absurd h (by simp [isObjJ])

theorem isObjJ_merged (f : FileConfig) :
    isObjJ (deepMerge defaultConfig (encodeFile f)) = true :=
  isObjJ_mergeFields _ (by rfl)

theorem foldl_stepK_skip_last {k k' : String} (hne : k' ≠ k) (o : Option JVal)
    (acc : Option JVal) :
    List.foldl (stepK k) acc (optP k' o) = acc := by
  cases o with
  | none => rfl
  | some v => simp [optP, stepK, hne]

theorem foldl_stepK_hit_last (k : String) (o : Option JVal) (acc : Option JVal) :
    List.foldl (stepK k) acc (optP k o) =
      (match o with
       | some v => mergeValueAt acc v
       | none => acc) := by
  cases o with
  | none => rfl
  | some v => simp [optP, stepK]

/-- The merged `agent` section of defaults plus a well-typed file. -/
def mergedAgentObj (f : FileConfig) : JVal :=
  match f.agent with
  | none => defaultAgentObj
  | some fa => mergeFields defaultAgentObj (ofPairs (fileAgentFields fa))

theorem getKey_merged_agent (f : FileConfig) :
    getKey (deepMerge defaultConfig (encodeFile f)) "agent" = some (mergedAgentObj f) := by
  show getKey (mergeFields (spreadBase defaultConfig) (ofPairs (fileSections f))) "agent" = _
  rw [show spreadBase defaultConfig = defaultConfig from rfl,
    getKey_mergeFields_pairs "agent" (fileSections f) defaultConfig rfl]
  unfold fileSections
  simp only [List.append_assoc]
  rw [foldl_stepK_skip (by decide), foldl_stepK_skip (by decide), foldl_stepK_hit,
    foldl_stepK_skip (by decide), foldl_stepK_skip_last (by decide)]
  cases hfa : f.agent with
  | none =>
      simp only [mergedAgentObj, hfa, Option.map_none']
      rfl
  | some fa =>
      simp only [mergedAgentObj, hfa, Option.map_some']
      rfl

theorem getKey_mergedAgent_temperature (f : FileConfig) :
    getKey (mergedAgentObj f) "temperature" =
      some ((fileLeaf f .temperature).getD (defaultLeaf .temperature)) := by
  cases hfa : f.agent with
  | none =>
      simp only [mergedAgentObj, fileLeaf, hfa]
      rfl
  | some fa =>
      simp only [mergedAgentObj, fileLeaf, hfa]
      rw [getKey_mergeFields_pairs "temperature" (fileAgentFields fa) defaultAgentObj rfl]
      unfold fileAgentFields
      simp only [List.append_assoc]
      rw [foldl_stepK_skip (by decide), foldl_stepK_hit,
        foldl_stepK_skip (by decide), foldl_stepK_skip_last (by decide)]
      cases hft : fa.temperature with
      | none =>
          simp only [hft, Option.map_none', Option.some_bind]
          rfl
      | some q =>
          simp only [hft, Option.map_some', Option.some_bind]
          rfl

theorem prim_getD_num (o : Option Rat) (d : Rat) :
    isPrimJ ((o.map JVal.vNum).getD (.vNum d)) = true := by
  cases o <;> rfl

theorem prim_getD_str (o : Option String) (d : String) :
    isPrimJ ((o.map JVal.vStr).getD (.vStr d)) = true := by
  cases o <;> rfl

theorem prim_getD_bool (o : Option Bool) (d : Bool) :
    isPrimJ ((o.map JVal.vBool).getD (.vBool d)) = true := by
  cases o <;> rfl

theorem isObjJ_mergedAgentObj (f : FileConfig) : isObjJ (mergedAgentObj f) = true := by
  cases hfa : f.agent with
  | none => simp only [mergedAgentObj, hfa]; rfl
  | some fa =>
      simp only [mergedAgentObj, hfa]
      exact isObjJ_mergeFields _ (by rfl)

theorem loadConfig_temperature (env : Env) (f : FileConfig) :
    leafGet (loadConfig env (encodeFile f)) .temperature =
      some (expectedLeaf env f .temperature) := by
  have hm := isObjJ_merged f
  have hsec := getKey_merged_agent f
  have hObjSec := isObjJ_mergedAgentObj f
  set M := deepMerge defaultConfig (encodeFile f) with hM
  show (getKey (applyEnvOverrides env M) "agent").bind (fun s => getKey s "temperature") = _
  rw [show applyEnvOverrides env M =
      mergeFields (spreadBase M) (ofPairs (envSections env M)) from rfl]
  rw [spreadBase_obj hm]
  rw [getKey_mergeFields_pairs "agent" (envSections env M) M hm]
  unfold envSections
  rw [foldl_stepK_cons_ne (by decide), foldl_stepK_cons_ne (by decide),
    foldl_stepK_cons_eq, foldl_stepK_cons_ne (by decide), foldl_stepK_cons_ne (by decide),
    List.foldl_nil]
  rw [hsec]
  rw [show mergeValueAt (some (mergedAgentObj f)) (.vObj false (ofPairs (envAgentFields env M)))
      = some (mergeFields (spreadBase (keyOrEmptyOpt (some (mergedAgentObj f))))
          (ofPairs (envAgentFields env M))) from rfl]
  rw [keyOrEmptyOpt_obj hObjSec, spreadBase_obj hObjSec, Option.some_bind]
  rw [getKey_mergeFields_pairs "temperature" (envAgentFields env M) (mergedAgentObj f) hObjSec]
  unfold envAgentFields
  simp only [List.append_assoc]
  rw [foldl_stepK_skip (by decide), foldl_stepK_hit, foldl_stepK_skip (by decide),
    foldl_stepK_skip_last (by decide)]
  cases het : env.temperature with
  | none =>
      simp only [het, Option.map_none']
      rw [getKey_mergedAgent_temperature]
      simp only [expectedLeaf, envRaw, het]
  | some v =>
      simp only [het, Option.map_some']
      cases hp : parseNumber (some v) with
      | some n =>
          simp only [hp, numFallback]
          rw [mergeValueAt_prim (by rfl)]
          simp only [expectedLeaf, envRaw, envParseLeaf, het, hp, Option.map_some']
      | none =>
          simp only [hp, numFallback]
          rw [show jsMember M "agent" = mergedAgentObj f from by
            unfold jsMember; rw [hsec]; rfl]
          rw [show jsMember (mergedAgentObj f) "temperature" =
              (fileLeaf f .temperature).getD (defaultLeaf .temperature) from by
            unfold jsMember; rw [getKey_mergedAgent_temperature]; rfl]
          rw [mergeValueAt_prim (by
            simp only [fileLeaf]
            exact prim_getD_num (f.agent.bind (fun a => a.temperature)) (mkRat 3 10))]
          simp only [expectedLeaf, envRaw, envParseLeaf, het, hp, Option.map_none']

/-- The merged `api` section of defaults plus a well-typed file. -/
def mergedApiObj (f : FileConfig) : JVal :=
  match f.api with
  | none => defaultApiObj
  | some fa => mergeFields defaultApiObj (ofPairs (fileApiFields fa))

theorem getKey_merged_api (f : FileConfig) :
    getKey (deepMerge defaultConfig (encodeFile f)) "api" = some (mergedApiObj f) := by
  show getKey (mergeFields (spreadBase defaultConfig) (ofPairs (fileSections f))) "api" = _
  rw [show spreadBase defaultConfig = defaultConfig from rfl,
    getKey_mergeFields_pairs "api" (fileSections f) defaultConfig rfl]
  unfold fileSections
  simp only [List.append_assoc]
  rw [foldl_stepK_hit,
    foldl_stepK_skip (by decide),
    foldl_stepK_skip (by decide),
    foldl_stepK_skip (by decide),
    foldl_stepK_skip_last (by decide)]
  cases hfa : f.api with
  | none =>
      simp only [mergedApiObj, hfa, Option.map_none']
      rfl
  | some fa =>
      simp only [mergedApiObj, hfa, Option.map_some']
      rfl

theorem isObjJ_mergedApiObj (f : FileConfig) : isObjJ (mergedApiObj f) = true := by
  cases hfa : f.api with
  | none => simp only [mergedApiObj, hfa]; rfl
  | some fa =>
      simp only [mergedApiObj, hfa]
      exact isObjJ_mergeFields _ (by rfl)

/-- The merged `models` section of defaults plus a well-typed file. -/
def mergedModelsObj (f : FileConfig) : JVal :=
  match f.models with
  | none => defaultModelsObj
  | some fm => mergeFields defaultModelsObj (ofPairs (fileModelsFields fm))

theorem getKey_merged_models (f : FileConfig) :
    getKey (deepMerge defaultConfig (encodeFile f)) "models" = some (mergedModelsObj f) := by
  show getKey (mergeFields (spreadBase defaultConfig) (ofPairs (fileSections f))) "models" = _
  rw [show spreadBase defaultConfig = defaultConfig from rfl,
    getKey_mergeFields_pairs "models" (fileSections f) defaultConfig rfl]
  unfold fileSections
  simp only [List.append_assoc]
  rw [foldl_stepK_skip (by decide),
    foldl_stepK_hit,
    foldl_stepK_skip (by decide),
    foldl_stepK_skip (by decide),
    foldl_stepK_skip_last (by decide)]
  cases hfa : f.models with
  | none =>
      simp only [mergedModelsObj, hfa, Option.map_none']
      rfl
  | some fm =>
      simp only [mergedModelsObj, hfa, Option.map_some']
      rfl

theorem isObjJ_mergedModelsObj (f : FileConfig) : isObjJ (mergedModelsObj f) = true := by
  cases hfa : f.models with
  | none => simp only [mergedModelsObj, hfa]; rfl
  | some fm =>
      simp only [mergedModelsObj, hfa]
      exact isObjJ_mergeFields _ (by rfl)

/-- The merged `research` section of defaults plus a well-typed file. -/
def mergedResearchObj (f : FileConfig) : JVal :=
  match f.research with
  | none => defaultResearchObj
  | some fr => mergeFields defaultResearchObj (ofPairs (fileResearchFields fr))

theorem getKey_merged_research (f : FileConfig) :
    getKey (deepMerge defaultConfig (encodeFile f)) "research" = some (mergedResearchObj f) := by
  show getKey (mergeFields (spreadBase defaultConfig) (ofPairs (fileSections f))) "research" = _
  rw [show spreadBase defaultConfig = defaultConfig from rfl,
    getKey_mergeFields_pairs "research" (fileSections f) defaultConfig rfl]
  unfold fileSections
  simp only [List.append_assoc]
  rw [foldl_stepK_skip (by decide),
    foldl_stepK_skip (by decide),
    foldl_stepK_skip (by decide),
    foldl_stepK_hit,
    foldl_stepK_skip_last (by decide)]
  cases hfa : f.research with
  | none =>
      simp only [mergedResearchObj, hfa, Option.map_none']
      rfl
  | some fr =>
      simp only [mergedResearchObj, hfa, Option.map_some']
      rfl

theorem isObjJ_mergedResearchObj (f : FileConfig) : isObjJ (mergedResearchObj f) = true := by
  cases hfa : f.research with
  | none => simp only [mergedResearchObj, hfa]; rfl
  | some fr =>
      simp only [mergedResearchObj, hfa]
      exact isObjJ_mergeFields _ (by rfl)

/-- The merged `output` section of defaults plus a well-typed file. -/
def mergedOutputObj (f : FileConfig) : JVal :=
  match f.output with
  | none => defaultOutputObj
  | some fo => mergeFields defaultOutputObj (ofPairs (fileOutputFields fo))

theorem getKey_merged_output (f : FileConfig) :
    getKey (deepMerge defaultConfig (encodeFile f)) "output" = some (mergedOutputObj f) := by
  show getKey (mergeFields (spreadBase defaultConfig) (ofPairs (fileSections f))) "output" = _
  rw [show spreadBase defaultConfig = defaultConfig from rfl,
    getKey_mergeFields_pairs "output" (fileSections f) defaultConfig rfl]
  unfold fileSections
  simp only [List.append_assoc]
  rw [foldl_stepK_skip (by decide),
    foldl_stepK_skip (by decide),
    foldl_stepK_skip (by decide),
    foldl_stepK_skip (by decide),
    foldl_stepK_hit_last]
  cases hfa : f.output with
  | none =>
      simp only [mergedOutputObj, hfa, Option.map_none']
      rfl
  | some fo =>
      simp only [mergedOutputObj, hfa, Option.map_some']
      rfl

theorem isObjJ_mergedOutputObj (f : FileConfig) : isObjJ (mergedOutputObj f) = true := by
  cases hfa : f.output with
  | none => simp only [mergedOutputObj, hfa]; rfl
  | some fo =>
      simp only [mergedOutputObj, hfa]
      exact isObjJ_mergeFields _ (by rfl)

theorem getKey_mergedApi_key (f : FileConfig) :
    getKey (mergedApiObj f) "key" =
      some ((fileLeaf f .key).getD (defaultLeaf .key)) := by
  cases hfa : f.api with
  | none =>
      simp only [mergedApiObj, fileLeaf, hfa]
      rfl
  | some fa =>
      simp only [mergedApiObj, fileLeaf, hfa]
      rw [getKey_mergeFields_pairs "key" (fileApiFields fa) defaultApiObj rfl]
      unfold fileApiFields
      simp only [List.append_assoc]
      rw [foldl_stepK_hit,
      foldl_stepK_skip (by decide),
      foldl_stepK_skip_last (by decide)]
      cases hft : fa.key with
      | none =>
          simp only [hft, Option.map_none', Option.some_bind]
          rfl
      | some q =>
          simp only [hft, Option.map_some', Option.some_bind]
          rfl

theorem getKey_mergedApi_base_url (f : FileConfig) :
    getKey (mergedApiObj f) "base_url" =
      some ((fileLeaf f .base_url).getD (defaultLeaf .base_url)) := by
  cases hfa : f.api with
  | none =>
      simp only [mergedApiObj, fileLeaf, hfa]
      rfl
  | some fa =>
      simp only [mergedApiObj, fileLeaf, hfa]
      rw [getKey_mergeFields_pairs "base_url" (fileApiFields fa) defaultApiObj rfl]
      unfold fileApiFields
      simp only [List.append_assoc]
      rw [foldl_stepK_skip (by decide),
      foldl_stepK_hit,
      foldl_stepK_skip_last (by decide)]
      cases hft : fa.base_url with
      | none =>
          simp only [hft, Option.map_none', Option.some_bind]
          rfl
      | some q =>
          simp only [hft, Option.map_some', Option.some_bind]
          rfl

theorem getKey_mergedApi_timeout (f : FileConfig) :
    getKey (mergedApiObj f) "timeout" =
      some ((fileLeaf f .timeout).getD (defaultLeaf .timeout)) := by
  cases hfa : f.api with
  | none =>
      simp only [mergedApiObj, fileLeaf, hfa]
      rfl
  | some fa =>
      simp only [mergedApiObj, fileLeaf, hfa]
      rw [getKey_mergeFields_pairs "timeout" (fileApiFields fa) defaultApiObj rfl]
      unfold fileApiFields
      simp only [List.append_assoc]
      rw [foldl_stepK_skip (by decide),
      foldl_stepK_skip (by decide),
      foldl_stepK_hit_last]
      cases hft : fa.timeout with
      | none =>
          simp only [hft, Option.map_none', Option.some_bind]
          rfl
      | some q =>
          simp only [hft, Option.map_some', Option.some_bind]
          rfl

theorem getKey_mergedModels_default (f : FileConfig) :
    getKey (mergedModelsObj f) "default" =
      some ((fileLeaf f .mdefault).getD (defaultLeaf .mdefault)) := by
  cases hfa : f.models with
  | none =>
      simp only [mergedModelsObj, fileLeaf, hfa]
      rfl
  | some fm =>
      simp only [mergedModelsObj, fileLeaf, hfa]
      rw [getKey_mergeFields_pairs "default" (fileModelsFields fm) defaultModelsObj rfl]
      unfold fileModelsFields
      simp only [List.append_assoc]
      rw [foldl_stepK_hit,
      foldl_stepK_skip (by decide),
      foldl_stepK_skip (by decide),
      foldl_stepK_skip (by decide),
      foldl_stepK_skip_last (by decide)]
      cases hft : fm.default with
      | none =>
          simp only [hft, Option.map_none', Option.some_bind]
          rfl
      | some q =>
          simp only [hft, Option.map_some', Option.some_bind]
          rfl

theorem getKey_mergedModels_search_heavy (f : FileConfig) :
    getKey (mergedModelsObj f) "search_heavy" =
      some ((fileLeaf f .search_heavy).getD (defaultLeaf .search_heavy)) := by
  cases hfa : f.models with
  | none =>
      simp only [mergedModelsObj, fileLeaf, hfa]
      rfl
  | some fm =>
      simp only [mergedModelsObj, fileLeaf, hfa]
      rw [getKey_mergeFields_pairs "search_heavy" (fileModelsFields fm) defaultModelsObj rfl]
      unfold fileModelsFields
      simp only [List.append_assoc]
      rw [foldl_stepK_skip (by decide),
      foldl_stepK_hit,
      foldl_stepK_skip (by decide),
      foldl_stepK_skip (by decide),
      foldl_stepK_skip_last (by decide)]
      cases hft : fm.search_heavy with
      | none =>
          simp only [hft, Option.map_none', Option.some_bind]
          rfl
      | some q =>
          simp only [hft, Option.map_some', Option.some_bind]
          rfl

theorem getKey_mergedModels_reasoning (f : FileConfig) :
    getKey (mergedModelsObj f) "reasoning" =
      some ((fileLeaf f .reasoning).getD (defaultLeaf .reasoning)) := by
  cases hfa : f.models with
  | none =>
      simp only [mergedModelsObj, fileLeaf, hfa]
      rfl
  | some fm =>
      simp only [mergedModelsObj, fileLeaf, hfa]
      rw [getKey_mergeFields_pairs "reasoning" (fileModelsFields fm) defaultModelsObj rfl]
      unfold fileModelsFields
      simp only [List.append_assoc]
      rw [foldl_stepK_skip (by decide),
      foldl_stepK_skip (by decide),
      foldl_stepK_hit,
      foldl_stepK_skip (by decide),
      foldl_stepK_skip_last (by decide)]
      cases hft : fm.reasoning with
      | none =>
          simp only [hft, Option.map_none', Option.some_bind]
          rfl
      | some q =>
          simp only [hft, Option.map_some', Option.some_bind]
          rfl

theorem getKey_mergedModels_fast (f : FileConfig) :
    getKey (mergedModelsObj f) "fast" =
      some ((fileLeaf f .fast).getD (defaultLeaf .fast)) := by
  cases hfa : f.models with
  | none =>
      simp only [mergedModelsObj, fileLeaf, hfa]
      rfl
  | some fm =>
      simp only [mergedModelsObj, fileLeaf, hfa]
      rw [getKey_mergeFields_pairs "fast" (fileModelsFields fm) defaultModelsObj rfl]
      unfold fileModelsFields
      simp only [List.append_assoc]
      rw [foldl_stepK_skip (by decide),
      foldl_stepK_skip (by decide),
      foldl_stepK_skip (by decide),
      foldl_stepK_hit,
      foldl_stepK_skip_last (by decide)]
      cases hft : fm.fast with
      | none =>
          simp only [hft, Option.map_none', Option.some_bind]
          rfl
      | some q =>
          simp only [hft, Option.map_some', Option.some_bind]
          rfl

theorem getKey_mergedModels_deep_research (f : FileConfig) :
    getKey (mergedModelsObj f) "deep_research" =
      some ((fileLeaf f .deep_research).getD (defaultLeaf .deep_research)) := by
  cases hfa : f.models with
  | none =>
      simp only [mergedModelsObj, fileLeaf, hfa]
      rfl
  | some fm =>
      simp only [mergedModelsObj, fileLeaf, hfa]
      rw [getKey_mergeFields_pairs "deep_research" (fileModelsFields fm) defaultModelsObj rfl]
      unfold fileModelsFields
      simp only [List.append_assoc]
      rw [foldl_stepK_skip (by decide),
      foldl_stepK_skip (by decide),
      foldl_stepK_skip (by decide),
      foldl_stepK_skip (by decide),
      foldl_stepK_hit_last]
      cases hft : fm.deep_research with
      | none =>
          simp only [hft, Option.map_none', Option.some_bind]
          rfl
      | some q =>
          simp only [hft, Option.map_some', Option.some_bind]
          rfl

theorem getKey_mergedAgent_max_iterations (f : FileConfig) :
    getKey (mergedAgentObj f) "max_iterations" =
      some ((fileLeaf f .max_iterations).getD (defaultLeaf .max_iterations)) := by
  cases hfa : f.agent with
  | none =>
      simp only [mergedAgentObj, fileLeaf, hfa]
      rfl
  | some fa =>
      simp only [mergedAgentObj, fileLeaf, hfa]
      rw [getKey_mergeFields_pairs "max_iterations" (fileAgentFields fa) defaultAgentObj rfl]
      unfold fileAgentFields
      simp only [List.append_assoc]
      rw [foldl_stepK_hit,
      foldl_stepK_skip (by decide),
      foldl_stepK_skip (by decide),
      foldl_stepK_skip_last (by decide)]
      cases hft : fa.max_iterations with
      | none =>
          simp only [hft, Option.map_none', Option.some_bind]
          rfl
      | some q =>
          simp only [hft, Option.map_some', Option.some_bind]
          rfl

theorem getKey_mergedAgent_max_tokens (f : FileConfig) :
    getKey (mergedAgentObj f) "max_tokens" =
      some ((fileLeaf f .max_tokens).getD (defaultLeaf .max_tokens)) := by
  cases hfa : f.agent with
  | none =>
      simp only [mergedAgentObj, fileLeaf, hfa]
      rfl
  | some fa =>
      simp only [mergedAgentObj, fileLeaf, hfa]
      rw [getKey_mergeFields_pairs "max_tokens" (fileAgentFields fa) defaultAgentObj rfl]
      unfold fileAgentFields
      simp only [List.append_assoc]
      rw [foldl_stepK_skip (by decide),
      foldl_stepK_skip (by decide),
      foldl_stepK_hit,
      foldl_stepK_skip_last (by decide)]
      cases hft : fa.max_tokens with
      | none =>
          simp only [hft, Option.map_none', Option.some_bind]
          rfl
      | some q =>
          simp only [hft, Option.map_some', Option.some_bind]
          rfl

theorem getKey_mergedAgent_top_p (f : FileConfig) :
    getKey (mergedAgentObj f) "top_p" =
      some ((fileLeaf f .top_p).getD (defaultLeaf .top_p)) := by
  cases hfa : f.agent with
  | none =>
      simp only [mergedAgentObj, fileLeaf, hfa]
      rfl
  | some fa =>
      simp only [mergedAgentObj, fileLeaf, hfa]
      rw [getKey_mergeFields_pairs "top_p" (fileAgentFields fa) defaultAgentObj rfl]
      unfold fileAgentFields
      simp only [List.append_assoc]
      rw [foldl_stepK_skip (by decide),
      foldl_stepK_skip (by decide),
      foldl_stepK_skip (by decide),
      foldl_stepK_hit_last]
      cases hft : fa.top_p with
      | none =>
          simp only [hft, Option.map_none', Option.some_bind]
          rfl
      | some q =>
          simp only [hft, Option.map_some', Option.some_bind]
          rfl

theorem getKey_mergedResearch_search_mode (f : FileConfig) :
    getKey (mergedResearchObj f) "search_mode" =
      some ((fileLeaf f .search_mode).getD (defaultLeaf .search_mode)) := by
  cases hfa : f.research with
  | none =>
      simp only [mergedResearchObj, fileLeaf, hfa]
      rfl
  | some fr =>
      simp only [mergedResearchObj, fileLeaf, hfa]
      rw [getKey_mergeFields_pairs "search_mode" (fileResearchFields fr) defaultResearchObj rfl]
      unfold fileResearchFields
      simp only [List.append_assoc]
      rw [foldl_stepK_hit,
      foldl_stepK_skip (by decide),
      foldl_stepK_skip_last (by decide)]
      cases hft : fr.search_mode with
      | none =>
          simp only [hft, Option.map_none', Option.some_bind]
          rfl
      | some q =>
          simp only [hft, Option.map_some', Option.some_bind]
          rfl

theorem getKey_mergedResearch_include_citations (f : FileConfig) :
    getKey (mergedResearchObj f) "include_citations" =
      some ((fileLeaf f .include_citations).getD (defaultLeaf .include_citations)) := by
  cases hfa : f.research with
  | none =>
      simp only [mergedResearchObj, fileLeaf, hfa]
      rfl
  | some fr =>
      simp only [mergedResearchObj, fileLeaf, hfa]
      rw [getKey_mergeFields_pairs "include_citations" (fileResearchFields fr) defaultResearchObj rfl]
      unfold fileResearchFields
      simp only [List.append_assoc]
      rw [foldl_stepK_skip (by decide),
      foldl_stepK_hit,
      foldl_stepK_skip_last (by decide)]
      cases hft : fr.include_citations with
      | none =>
          simp only [hft, Option.map_none', Option.some_bind]
          rfl
      | some q =>
          simp only [hft, Option.map_some', Option.some_bind]
          rfl

theorem getKey_mergedResearch_focus_on_recent (f : FileConfig) :
    getKey (mergedResearchObj f) "focus_on_recent" =
      some ((fileLeaf f .focus_on_recent).getD (defaultLeaf .focus_on_recent)) := by
  cases hfa : f.research with
  | none =>
      simp only [mergedResearchObj, fileLeaf, hfa]
      rfl
  | some fr =>
      simp only [mergedResearchObj, fileLeaf, hfa]
      rw [getKey_mergeFields_pairs "focus_on_recent" (fileResearchFields fr) defaultResearchObj rfl]
      unfold fileResearchFields
      simp only [List.append_assoc]
      rw [foldl_stepK_skip (by decide),
      foldl_stepK_skip (by decide),
      foldl_stepK_hit_last]
      cases hft : fr.focus_on_recent with
      | none =>
          simp only [hft, Option.map_none', Option.some_bind]
          rfl
      | some q =>
          simp only [hft, Option.map_some', Option.some_bind]
          rfl

theorem getKey_mergedOutput_format (f : FileConfig) :
    getKey (mergedOutputObj f) "format" =
      some ((fileLeaf f .format).getD (defaultLeaf .format)) := by
  cases hfa : f.output with
  | none =>
      simp only [mergedOutputObj, fileLeaf, hfa]
      rfl
  | some fo =>
      simp only [mergedOutputObj, fileLeaf, hfa]
      rw [getKey_mergeFields_pairs "format" (fileOutputFields fo) defaultOutputObj rfl]
      unfold fileOutputFields
      simp only [List.append_assoc]
      rw [foldl_stepK_hit,
      foldl_stepK_skip (by decide),
      foldl_stepK_skip_last (by decide)]
      cases hft : fo.format with
      | none =>
          simp only [hft, Option.map_none', Option.some_bind]
          rfl
      | some q =>
          simp only [hft, Option.map_some', Option.some_bind]
          rfl

theorem getKey_mergedOutput_stream (f : FileConfig) :
    getKey (mergedOutputObj f) "stream" =
      some ((fileLeaf f .stream).getD (defaultLeaf .stream)) := by
  cases hfa : f.output with
  | none =>
      simp only [mergedOutputObj, fileLeaf, hfa]
      rfl
  | some fo =>
      simp only [mergedOutputObj, fileLeaf, hfa]
      rw [getKey_mergeFields_pairs "stream" (fileOutputFields fo) defaultOutputObj rfl]
      unfold fileOutputFields
      simp only [List.append_assoc]
      rw [foldl_stepK_skip (by decide),
      foldl_stepK_hit,
      foldl_stepK_skip_last (by decide)]
      cases hft : fo.stream with
      | none =>
          simp only [hft, Option.map_none', Option.some_bind]
          rfl
      | some q =>
          simp only [hft, Option.map_some', Option.some_bind]
          rfl

theorem getKey_mergedOutput_verbose (f : FileConfig) :
    getKey (mergedOutputObj f) "verbose" =
      some ((fileLeaf f .verbose).getD (defaultLeaf .verbose)) := by
  cases hfa : f.output with
  | none =>
      simp only [mergedOutputObj, fileLeaf, hfa]
      rfl
  | some fo =>
      simp only [mergedOutputObj, fileLeaf, hfa]
      rw [getKey_mergeFields_pairs "verbose" (fileOutputFields fo) defaultOutputObj rfl]
      unfold fileOutputFields
      simp only [List.append_assoc]
      rw [foldl_stepK_skip (by decide),
      foldl_stepK_skip (by decide),
      foldl_stepK_hit_last]
      cases hft : fo.verbose with
      | none =>
          simp only [hft, Option.map_none', Option.some_bind]
          rfl
      | some q =>
          simp only [hft, Option.map_some', Option.some_bind]
          rfl

theorem loadConfig_key (env : Env) (f : FileConfig) :
    leafGet (loadConfig env (encodeFile f)) .key =
      some (expectedLeaf env f .key) := by
  have hm := isObjJ_merged f
  have hsec := getKey_merged_api f
  have hObjSec := isObjJ_mergedApiObj f
  set M := deepMerge defaultConfig (encodeFile f) with hM
  show (getKey (applyEnvOverrides env M) "api").bind (fun s => getKey s "key") = _
  rw [show applyEnvOverrides env M =
      mergeFields (spreadBase M) (ofPairs (envSections env M)) from rfl]
  rw [spreadBase_obj hm]
  rw [getKey_mergeFields_pairs "api" (envSections env M) M hm]
  unfold envSections
  rw [foldl_stepK_cons_eq,
    foldl_stepK_cons_ne (by decide),
    foldl_stepK_cons_ne (by decide),
    foldl_stepK_cons_ne (by decide),
    foldl_stepK_cons_ne (by decide),
    List.foldl_nil]
  rw [hsec]
  rw [show mergeValueAt (some (mergedApiObj f)) (.vObj false (ofPairs (envApiFields env M)))
      = some (mergeFields (spreadBase (keyOrEmptyOpt (some (mergedApiObj f))))
          (ofPairs (envApiFields env M))) from rfl]
  rw [keyOrEmptyOpt_obj hObjSec, spreadBase_obj hObjSec, Option.some_bind]
  rw [getKey_mergeFields_pairs "key" (envApiFields env M) (mergedApiObj f) hObjSec]
  unfold envApiFields
  simp only [List.append_assoc]
  rw [foldl_stepK_hit,
    foldl_stepK_skip (by decide),
    foldl_stepK_skip_last (by decide)]
  cases het : env.key with
  | none =>
      simp only [het, Option.map_none']
      rw [getKey_mergedApi_key]
      simp only [expectedLeaf, envRaw, het]
  | some v =>
      simp only [het, Option.map_some']
      rw [mergeValueAt_prim (by rfl)]
      simp only [expectedLeaf, envRaw, envParseLeaf, het]

theorem loadConfig_base_url (env : Env) (f : FileConfig) :
    leafGet (loadConfig env (encodeFile f)) .base_url =
      some (expectedLeaf env f .base_url) := by
  have hm := isObjJ_merged f
  have hsec := getKey_merged_api f
  have hObjSec := isObjJ_mergedApiObj f
  set M := deepMerge defaultConfig (encodeFile f) with hM
  show (getKey (applyEnvOverrides env M) "api").bind (fun s => getKey s "base_url") = _
  rw [show applyEnvOverrides env M =
      mergeFields (spreadBase M) (ofPairs (envSections env M)) from rfl]
  rw [spreadBase_obj hm]
  rw [getKey_mergeFields_pairs "api" (envSections env M) M hm]
  unfold envSections
  rw [foldl_stepK_cons_eq,
    foldl_stepK_cons_ne (by decide),
    foldl_stepK_cons_ne (by decide),
    foldl_stepK_cons_ne (by decide),
    foldl_stepK_cons_ne (by decide),
    List.foldl_nil]
  rw [hsec]
  rw [show mergeValueAt (some (mergedApiObj f)) (.vObj false (ofPairs (envApiFields env M)))
      = some (mergeFields (spreadBase (keyOrEmptyOpt (some (mergedApiObj f))))
          (ofPairs (envApiFields env M))) from rfl]
  rw [keyOrEmptyOpt_obj hObjSec, spreadBase_obj hObjSec, Option.some_bind]
  rw [getKey_mergeFields_pairs "base_url" (envApiFields env M) (mergedApiObj f) hObjSec]
  unfold envApiFields
  simp only [List.append_assoc]
  rw [foldl_stepK_skip (by decide),
    foldl_stepK_hit,
    foldl_stepK_skip_last (by decide)]
  cases het : env.base_url with
  | none =>
      simp only [het, Option.map_none']
      rw [getKey_mergedApi_base_url]
      simp only [expectedLeaf, envRaw, het]
  | some v =>
      simp only [het, Option.map_some']
      rw [mergeValueAt_prim (by rfl)]
      simp only [expectedLeaf, envRaw, envParseLeaf, het]

theorem loadConfig_timeout (env : Env) (f : FileConfig) :
    leafGet (loadConfig env (encodeFile f)) .timeout =
      some (expectedLeaf env f .timeout) := by
  have hm := isObjJ_merged f
  have hsec := getKey_merged_api f
  have hObjSec := isObjJ_mergedApiObj f
  set M := deepMerge defaultConfig (encodeFile f) with hM
  show (getKey (applyEnvOverrides env M) "api").bind (fun s => getKey s "timeout") = _
  rw [show applyEnvOverrides env M =
      mergeFields (spreadBase M) (ofPairs (envSections env M)) from rfl]
  rw [spreadBase_obj hm]
  rw [getKey_mergeFields_pairs "api" (envSections env M) M hm]
  unfold envSections
  rw [foldl_stepK_cons_eq,
    foldl_stepK_cons_ne (by decide),
    foldl_stepK_cons_ne (by decide),
    foldl_stepK_cons_ne (by decide),
    foldl_stepK_cons_ne (by decide),
    List.foldl_nil]
  rw [hsec]
  rw [show mergeValueAt (some (mergedApiObj f)) (.vObj false (ofPairs (envApiFields env M)))
      = some (mergeFields (spreadBase (keyOrEmptyOpt (some (mergedApiObj f))))
          (ofPairs (envApiFields env M))) from rfl]
  rw [keyOrEmptyOpt_obj hObjSec, spreadBase_obj hObjSec, Option.some_bind]
  rw [getKey_mergeFields_pairs "timeout" (envApiFields env M) (mergedApiObj f) hObjSec]
  unfold envApiFields
  simp only [List.append_assoc]
  rw [foldl_stepK_skip (by decide),
    foldl_stepK_skip (by decide),
    foldl_stepK_hit_last]
  cases het : env.timeout with
  | none =>
      simp only [het, Option.map_none']
      rw [getKey_mergedApi_timeout]
      simp only [expectedLeaf, envRaw, het]
  | some v =>
      simp only [het, Option.map_some']
      cases hp : parseNumber (some v) with
      | some pv =>
          simp only [hp, numFallback]
          rw [mergeValueAt_prim (by rfl)]
          simp only [expectedLeaf, envRaw, envParseLeaf, het, hp, Option.map_some']
      | none =>
          simp only [hp, numFallback]
          rw [show jsMember M "api" = mergedApiObj f from by
            unfold jsMember; rw [hsec]; rfl]
          rw [show jsMember (mergedApiObj f) "timeout" =
              (fileLeaf f .timeout).getD (defaultLeaf .timeout) from by
            unfold jsMember; rw [getKey_mergedApi_timeout]; rfl]
          rw [mergeValueAt_prim (by
            simp only [fileLeaf]
            exact prim_getD_num (f.api.bind (fun a => a.timeout)) (60000 : Rat))]
          simp only [expectedLeaf, envRaw, envParseLeaf, het, hp, Option.map_none']

theorem loadConfig_mdefault (env : Env) (f : FileConfig) :
    leafGet (loadConfig env (encodeFile f)) .mdefault =
      some (expectedLeaf env f .mdefault) := by
  have hm := isObjJ_merged f
  have hsec := getKey_merged_models f
  have hObjSec := isObjJ_mergedModelsObj f
  set M := deepMerge defaultConfig (encodeFile f) with hM
  show (getKey (applyEnvOverrides env M) "models").bind (fun s => getKey s "default") = _
  rw [show applyEnvOverrides env M =
      mergeFields (spreadBase M) (ofPairs (envSections env M)) from rfl]
  rw [spreadBase_obj hm]
  rw [getKey_mergeFields_pairs "models" (envSections env M) M hm]
  unfold envSections
  rw [foldl_stepK_cons_ne (by decide),
    foldl_stepK_cons_eq,
    foldl_stepK_cons_ne (by decide),
    foldl_stepK_cons_ne (by decide),
    foldl_stepK_cons_ne (by decide),
    List.foldl_nil]
  rw [hsec]
  rw [show mergeValueAt (some (mergedModelsObj f)) (.vObj false (ofPairs (envModelsFields env)))
      = some (mergeFields (spreadBase (keyOrEmptyOpt (some (mergedModelsObj f))))
          (ofPairs (envModelsFields env))) from rfl]
  rw [keyOrEmptyOpt_obj hObjSec, spreadBase_obj hObjSec, Option.some_bind]
  rw [getKey_mergeFields_pairs "default" (envModelsFields env) (mergedModelsObj f) hObjSec]
  unfold envModelsFields
  simp only [List.append_assoc]
  rw [foldl_stepK_hit,
    foldl_stepK_skip (by decide),
    foldl_stepK_skip (by decide),
    foldl_stepK_skip (by decide),
    foldl_stepK_skip_last (by decide)]
  cases het : env.default with
  | none =>
      simp only [het, Option.map_none']
      rw [getKey_mergedModels_default]
      simp only [expectedLeaf, envRaw, het]
  | some v =>
      simp only [het, Option.map_some']
      rw [mergeValueAt_prim (by rfl)]
      simp only [expectedLeaf, envRaw, envParseLeaf, het]

theorem loadConfig_search_heavy (env : Env) (f : FileConfig) :
    leafGet (loadConfig env (encodeFile f)) .search_heavy =
      some (expectedLeaf env f .search_heavy) := by
  have hm := isObjJ_merged f
  have hsec := getKey_merged_models f
  have hObjSec := isObjJ_mergedModelsObj f
  set M := deepMerge defaultConfig (encodeFile f) with hM
  show (getKey (applyEnvOverrides env M) "models").bind (fun s => getKey s "search_heavy") = _
  rw [show applyEnvOverrides env M =
      mergeFields (spreadBase M) (ofPairs (envSections env M)) from rfl]
  rw [spreadBase_obj hm]
  rw [getKey_mergeFields_pairs "models" (envSections env M) M hm]
  unfold envSections
  rw [foldl_stepK_cons_ne (by decide),
    foldl_stepK_cons_eq,
    foldl_stepK_cons_ne (by decide),
    foldl_stepK_cons_ne (by decide),
    foldl_stepK_cons_ne (by decide),
    List.foldl_nil]
  rw [hsec]
  rw [show mergeValueAt (some (mergedModelsObj f)) (.vObj false (ofPairs (envModelsFields env)))
      = some (mergeFields (spreadBase (keyOrEmptyOpt (some (mergedModelsObj f))))
          (ofPairs (envModelsFields env))) from rfl]
  rw [keyOrEmptyOpt_obj hObjSec, spreadBase_obj hObjSec, Option.some_bind]
  rw [getKey_mergeFields_pairs "search_heavy" (envModelsFields env) (mergedModelsObj f) hObjSec]
  unfold envModelsFields
  simp only [List.append_assoc]
  rw [foldl_stepK_skip (by decide),
    foldl_stepK_hit,
    foldl_stepK_skip (by decide),
    foldl_stepK_skip (by decide),
    foldl_stepK_skip_last (by decide)]
  cases het : env.search_heavy with
  | none =>
      simp only [het, Option.map_none']
      rw [getKey_mergedModels_search_heavy]
      simp only [expectedLeaf, envRaw, het]
  | some v =>
      simp only [het, Option.map_some']
      rw [mergeValueAt_prim (by rfl)]
      simp only [expectedLeaf, envRaw, envParseLeaf, het]

theorem loadConfig_reasoning (env : Env) (f : FileConfig) :
    leafGet (loadConfig env (encodeFile f)) .reasoning =
      some (expectedLeaf env f .reasoning) := by
  have hm := isObjJ_merged f
  have hsec := getKey_merged_models f
  have hObjSec := isObjJ_mergedModelsObj f
  set M := deepMerge defaultConfig (encodeFile f) with hM
  show (getKey (applyEnvOverrides env M) "models").bind (fun s => getKey s "reasoning") = _
  rw [show applyEnvOverrides env M =
      mergeFields (spreadBase M) (ofPairs (envSections env M)) from rfl]
  rw [spreadBase_obj hm]
  rw [getKey_mergeFields_pairs "models" (envSections env M) M hm]
  unfold envSections
  rw [foldl_stepK_cons_ne (by decide),
    foldl_stepK_cons_eq,
    foldl_stepK_cons_ne (by decide),
    foldl_stepK_cons_ne (by decide),
    foldl_stepK_cons_ne (by decide),
    List.foldl_nil]
  rw [hsec]
  rw [show mergeValueAt (some (mergedModelsObj f)) (.vObj false (ofPairs (envModelsFields env)))
      = some (mergeFields (spreadBase (keyOrEmptyOpt (some (mergedModelsObj f))))
          (ofPairs (envModelsFields env))) from rfl]
  rw [keyOrEmptyOpt_obj hObjSec, spreadBase_obj hObjSec, Option.some_bind]
  rw [getKey_mergeFields_pairs "reasoning" (envModelsFields env) (mergedModelsObj f) hObjSec]
  unfold envModelsFields
  simp only [List.append_assoc]
  rw [foldl_stepK_skip (by decide),
    foldl_stepK_skip (by decide),
    foldl_stepK_hit,
    foldl_stepK_skip (by decide),
    foldl_stepK_skip_last (by decide)]
  cases het : env.reasoning with
  | none =>
      simp only [het, Option.map_none']
      rw [getKey_mergedModels_reasoning]
      simp only [expectedLeaf, envRaw, het]
  | some v =>
      simp only [het, Option.map_some']
      rw [mergeValueAt_prim (by rfl)]
      simp only [expectedLeaf, envRaw, envParseLeaf, het]

theorem loadConfig_fast (env : Env) (f : FileConfig) :
    leafGet (loadConfig env (encodeFile f)) .fast =
      some (expectedLeaf env f .fast) := by
  have hm := isObjJ_merged f
  have hsec := getKey_merged_models f
  have hObjSec := isObjJ_mergedModelsObj f
  set M := deepMerge defaultConfig (encodeFile f) with hM
  show (getKey (applyEnvOverrides env M) "models").bind (fun s => getKey s "fast") = _
  rw [show applyEnvOverrides env M =
      mergeFields (spreadBase M) (ofPairs (envSections env M)) from rfl]
  rw [spreadBase_obj hm]
  rw [getKey_mergeFields_pairs "models" (envSections env M) M hm]
  unfold envSections
  rw [foldl_stepK_cons_ne (by decide),
    foldl_stepK_cons_eq,
    foldl_stepK_cons_ne (by decide),
    foldl_stepK_cons_ne (by decide),
    foldl_stepK_cons_ne (by decide),
    List.foldl_nil]
  rw [hsec]
  rw [show mergeValueAt (some (mergedModelsObj f)) (.vObj false (ofPairs (envModelsFields env)))
      = some (mergeFields (spreadBase (keyOrEmptyOpt (some (mergedModelsObj f))))
          (ofPairs (envModelsFields env))) from rfl]
  rw [keyOrEmptyOpt_obj hObjSec, spreadBase_obj hObjSec, Option.some_bind]
  rw [getKey_mergeFields_pairs "fast" (envModelsFields env) (mergedModelsObj f) hObjSec]
  unfold envModelsFields
  simp only [List.append_assoc]
  rw [foldl_stepK_skip (by decide),
    foldl_stepK_skip (by decide),
    foldl_stepK_skip (by decide),
    foldl_stepK_hit,
    foldl_stepK_skip_last (by decide)]
  cases het : env.fast with
  | none =>
      simp only [het, Option.map_none']
      rw [getKey_mergedModels_fast]
      simp only [expectedLeaf, envRaw, het]
  | some v =>
      simp only [het, Option.map_some']
      rw [mergeValueAt_prim (by rfl)]
      simp only [expectedLeaf, envRaw, envParseLeaf, het]

theorem loadConfig_deep_research (env : Env) (f : FileConfig) :
    leafGet (loadConfig env (encodeFile f)) .deep_research =
      some (expectedLeaf env f .deep_research) := by
  have hm := isObjJ_merged f
  have hsec := getKey_merged_models f
  have hObjSec := isObjJ_mergedModelsObj f
  set M := deepMerge defaultConfig (encodeFile f) with hM
  show (getKey (applyEnvOverrides env M) "models").bind (fun s => getKey s "deep_research") = _
  rw [show applyEnvOverrides env M =
      mergeFields (spreadBase M) (ofPairs (envSections env M)) from rfl]
  rw [spreadBase_obj hm]
  rw [getKey_mergeFields_pairs "models" (envSections env M) M hm]
  unfold envSections
  rw [foldl_stepK_cons_ne (by decide),
    foldl_stepK_cons_eq,
    foldl_stepK_cons_ne (by decide),
    foldl_stepK_cons_ne (by decide),
    foldl_stepK_cons_ne (by decide),
    List.foldl_nil]
  rw [hsec]
  rw [show mergeValueAt (some (mergedModelsObj f)) (.vObj false (ofPairs (envModelsFields env)))
      = some (mergeFields (spreadBase (keyOrEmptyOpt (some (mergedModelsObj f))))
          (ofPairs (envModelsFields env))) from rfl]
  rw [keyOrEmptyOpt_obj hObjSec, spreadBase_obj hObjSec, Option.some_bind]
  rw [getKey_mergeFields_pairs "deep_research" (envModelsFields env) (mergedModelsObj f) hObjSec]
  unfold envModelsFields
  simp only [List.append_assoc]
  rw [foldl_stepK_skip (by decide),
    foldl_stepK_skip (by decide),
    foldl_stepK_skip (by decide),
    foldl_stepK_skip (by decide),
    foldl_stepK_hit_last]
  cases het : env.deep_research with
  | none =>
      simp only [het, Option.map_none']
      rw [getKey_mergedModels_deep_research]
      simp only [expectedLeaf, envRaw, het]
  | some v =>
      simp only [het, Option.map_some']
      rw [mergeValueAt_prim (by rfl)]
      simp only [expectedLeaf, envRaw, envParseLeaf, het]

theorem loadConfig_max_iterations (env : Env) (f : FileConfig) :
    leafGet (loadConfig env (encodeFile f)) .max_iterations =
      some (expectedLeaf env f .max_iterations) := by
  have hm := isObjJ_merged f
  have hsec := getKey_merged_agent f
  have hObjSec := isObjJ_mergedAgentObj f
  set M := deepMerge defaultConfig (encodeFile f) with hM
  show (getKey (applyEnvOverrides env M) "agent").bind (fun s => getKey s "max_iterations") = _
  rw [show applyEnvOverrides env M =
      mergeFields (spreadBase M) (ofPairs (envSections env M)) from rfl]
  rw [spreadBase_obj hm]
  rw [getKey_mergeFields_pairs "agent" (envSections env M) M hm]
  unfold envSections
  rw [foldl_stepK_cons_ne (by decide),
    foldl_stepK_cons_ne (by decide),
    foldl_stepK_cons_eq,
    foldl_stepK_cons_ne (by decide),
    foldl_stepK_cons_ne (by decide),
    List.foldl_nil]
  rw [hsec]
  rw [show mergeValueAt (some (mergedAgentObj f)) (.vObj false (ofPairs (envAgentFields env M)))
      = some (mergeFields (spreadBase (keyOrEmptyOpt (some (mergedAgentObj f))))
          (ofPairs (envAgentFields env M))) from rfl]
  rw [keyOrEmptyOpt_obj hObjSec, spreadBase_obj hObjSec, Option.some_bind]
  rw [getKey_mergeFields_pairs "max_iterations" (envAgentFields env M) (mergedAgentObj f) hObjSec]
  unfold envAgentFields
  simp only [List.append_assoc]
  rw [foldl_stepK_hit,
    foldl_stepK_skip (by decide),
    foldl_stepK_skip (by decide),
    foldl_stepK_skip_last (by decide)]
  cases het : env.max_iterations with
  | none =>
      simp only [het, Option.map_none']
      rw [getKey_mergedAgent_max_iterations]
      simp only [expectedLeaf, envRaw, het]
  | some v =>
      simp only [het, Option.map_some']
      cases hp : parseNumber (some v) with
      | some pv =>
          simp only [hp, numFallback]
          rw [mergeValueAt_prim (by rfl)]
          simp only [expectedLeaf, envRaw, envParseLeaf, het, hp, Option.map_some']
      | none =>
          simp only [hp, numFallback]
          rw [show jsMember M "agent" = mergedAgentObj f from by
            unfold jsMember; rw [hsec]; rfl]
          rw [show jsMember (mergedAgentObj f) "max_iterations" =
              (fileLeaf f .max_iterations).getD (defaultLeaf .max_iterations) from by
            unfold jsMember; rw [getKey_mergedAgent_max_iterations]; rfl]
          rw [mergeValueAt_prim (by
            simp only [fileLeaf]
            exact prim_getD_num (f.agent.bind (fun a => a.max_iterations)) (10 : Rat))]
          simp only [expectedLeaf, envRaw, envParseLeaf, het, hp, Option.map_none']

theorem loadConfig_max_tokens (env : Env) (f : FileConfig) :
    leafGet (loadConfig env (encodeFile f)) .max_tokens =
      some (expectedLeaf env f .max_tokens) := by
  have hm := isObjJ_merged f
  have hsec := getKey_merged_agent f
  have hObjSec := isObjJ_mergedAgentObj f
  set M := deepMerge defaultConfig (encodeFile f) with hM
  show (getKey (applyEnvOverrides env M) "agent").bind (fun s => getKey s "max_tokens") = _
  rw [show applyEnvOverrides env M =
      mergeFields (spreadBase M) (ofPairs (envSections env M)) from rfl]
  rw [spreadBase_obj hm]
  rw [getKey_mergeFields_pairs "agent" (envSections env M) M hm]
  unfold envSections
  rw [foldl_stepK_cons_ne (by decide),
    foldl_stepK_cons_ne (by decide),
    foldl_stepK_cons_eq,
    foldl_stepK_cons_ne (by decide),
    foldl_stepK_cons_ne (by decide),
    List.foldl_nil]
  rw [hsec]
  rw [show mergeValueAt (some (mergedAgentObj f)) (.vObj false (ofPairs (envAgentFields env M)))
      = some (mergeFields (spreadBase (keyOrEmptyOpt (some (mergedAgentObj f))))
          (ofPairs (envAgentFields env M))) from rfl]
  rw [keyOrEmptyOpt_obj hObjSec, spreadBase_obj hObjSec, Option.some_bind]
  rw [getKey_mergeFields_pairs "max_tokens" (envAgentFields env M) (mergedAgentObj f) hObjSec]
  unfold envAgentFields
  simp only [List.append_assoc]
  rw [foldl_stepK_skip (by decide),
    foldl_stepK_skip (by decide),
    foldl_stepK_hit,
    foldl_stepK_skip_last (by decide)]
  cases het : env.max_tokens with
  | none =>
      simp only [het, Option.map_none']
      rw [getKey_mergedAgent_max_tokens]
      simp only [expectedLeaf, envRaw, het]
  | some v =>
      simp only [het, Option.map_some']
      cases hp : parseNumber (some v) with
      | some pv =>
          simp only [hp, numFallback]
          rw [mergeValueAt_prim (by rfl)]
          simp only [expectedLeaf, envRaw, envParseLeaf, het, hp, Option.map_some']
      | none =>
          simp only [hp, numFallback]
          rw [show jsMember M "agent" = mergedAgentObj f from by
            unfold jsMember; rw [hsec]; rfl]
          rw [show jsMember (mergedAgentObj f) "max_tokens" =
              (fileLeaf f .max_tokens).getD (defaultLeaf .max_tokens) from by
            unfold jsMember; rw [getKey_mergedAgent_max_tokens]; rfl]
          rw [mergeValueAt_prim (by
            simp only [fileLeaf]
            exact prim_getD_num (f.agent.bind (fun a => a.max_tokens)) (4096 : Rat))]
          simp only [expectedLeaf, envRaw, envParseLeaf, het, hp, Option.map_none']

theorem loadConfig_top_p (env : Env) (f : FileConfig) :
    leafGet (loadConfig env (encodeFile f)) .top_p =
      some (expectedLeaf env f .top_p) := by
  have hm := isObjJ_merged f
  have hsec := getKey_merged_agent f
  have hObjSec := isObjJ_mergedAgentObj f
  set M := deepMerge defaultConfig (encodeFile f) with hM
  show (getKey (applyEnvOverrides env M) "agent").bind (fun s => getKey s "top_p") = _
  rw [show applyEnvOverrides env M =
      mergeFields (spreadBase M) (ofPairs (envSections env M)) from rfl]
  rw [spreadBase_obj hm]
  rw [getKey_mergeFields_pairs "agent" (envSections env M) M hm]
  unfold envSections
  rw [foldl_stepK_cons_ne (by decide),
    foldl_stepK_cons_ne (by decide),
    foldl_stepK_cons_eq,
    foldl_stepK_cons_ne (by decide),
    foldl_stepK_cons_ne (by decide),
    List.foldl_nil]
  rw [hsec]
  rw [show mergeValueAt (some (mergedAgentObj f)) (.vObj false (ofPairs (envAgentFields env M)))
      = some (mergeFields (spreadBase (keyOrEmptyOpt (some (mergedAgentObj f))))
          (ofPairs (envAgentFields env M))) from rfl]
  rw [keyOrEmptyOpt_obj hObjSec, spreadBase_obj hObjSec, Option.some_bind]
  rw [getKey_mergeFields_pairs "top_p" (envAgentFields env M) (mergedAgentObj f) hObjSec]
  unfold envAgentFields
  simp only [List.append_assoc]
  rw [foldl_stepK_skip (by decide),
    foldl_stepK_skip (by decide),
    foldl_stepK_skip (by decide),
    foldl_stepK_hit_last]
  cases het : env.top_p with
  | none =>
      simp only [het, Option.map_none']
      rw [getKey_mergedAgent_top_p]
      simp only [expectedLeaf, envRaw, het]
  | some v =>
      simp only [het, Option.map_some']
      cases hp : parseNumber (some v) with
      | some pv =>
          simp only [hp, numFallback]
          rw [mergeValueAt_prim (by rfl)]
          simp only [expectedLeaf, envRaw, envParseLeaf, het, hp, Option.map_some']
      | none =>
          simp only [hp, numFallback]
          rw [show jsMember M "agent" = mergedAgentObj f from by
            unfold jsMember; rw [hsec]; rfl]
          rw [show jsMember (mergedAgentObj f) "top_p" =
              (fileLeaf f .top_p).getD (defaultLeaf .top_p) from by
            unfold jsMember; rw [getKey_mergedAgent_top_p]; rfl]
          rw [mergeValueAt_prim (by
            simp only [fileLeaf]
            exact prim_getD_num (f.agent.bind (fun a => a.top_p)) (mkRat 9 10))]
          simp only [expectedLeaf, envRaw, envParseLeaf, het, hp, Option.map_none']

theorem loadConfig_search_mode (env : Env) (f : FileConfig) :
    leafGet (loadConfig env (encodeFile f)) .search_mode =
      some (expectedLeaf env f .search_mode) := by
  have hm := isObjJ_merged f
  have hsec := getKey_merged_research f
  have hObjSec := isObjJ_mergedResearchObj f
  set M := deepMerge defaultConfig (encodeFile f) with hM
  show (getKey (applyEnvOverrides env M) "research").bind (fun s => getKey s "search_mode") = _
  rw [show applyEnvOverrides env M =
      mergeFields (spreadBase M) (ofPairs (envSections env M)) from rfl]
  rw [spreadBase_obj hm]
  rw [getKey_mergeFields_pairs "research" (envSections env M) M hm]
  unfold envSections
  rw [foldl_stepK_cons_ne (by decide),
    foldl_stepK_cons_ne (by decide),
    foldl_stepK_cons_ne (by decide),
    foldl_stepK_cons_eq,
    foldl_stepK_cons_ne (by decide),
    List.foldl_nil]
  rw [hsec]
  rw [show mergeValueAt (some (mergedResearchObj f)) (.vObj false (ofPairs (envResearchFields env M)))
      = some (mergeFields (spreadBase (keyOrEmptyOpt (some (mergedResearchObj f))))
          (ofPairs (envResearchFields env M))) from rfl]
  rw [keyOrEmptyOpt_obj hObjSec, spreadBase_obj hObjSec, Option.some_bind]
  rw [getKey_mergeFields_pairs "search_mode" (envResearchFields env M) (mergedResearchObj f) hObjSec]
  unfold envResearchFields
  simp only [List.append_assoc]
  rw [foldl_stepK_hit,
    foldl_stepK_skip (by decide),
    foldl_stepK_skip_last (by decide)]
  cases het : env.search_mode with
  | none =>
      simp only [het, Option.map_none']
      rw [getKey_mergedResearch_search_mode]
      simp only [expectedLeaf, envRaw, het]
  | some v =>
      simp only [het, Option.map_some']
      cases hp : parseSearchMode (some v) with
      | some pv =>
          simp only [hp, strFallback]
          rw [mergeValueAt_prim (by rfl)]
          simp only [expectedLeaf, envRaw, envParseLeaf, het, hp, Option.map_some']
      | none =>
          simp only [hp, strFallback]
          rw [show jsMember M "research" = mergedResearchObj f from by
            unfold jsMember; rw [hsec]; rfl]
          rw [show jsMember (mergedResearchObj f) "search_mode" =
              (fileLeaf f .search_mode).getD (defaultLeaf .search_mode) from by
            unfold jsMember; rw [getKey_mergedResearch_search_mode]; rfl]
          rw [mergeValueAt_prim (by
            simp only [fileLeaf]
            exact prim_getD_str (f.research.bind (fun r => r.search_mode)) "medium")]
          simp only [expectedLeaf, envRaw, envParseLeaf, het, hp, Option.map_none']

theorem loadConfig_include_citations (env : Env) (f : FileConfig) :
    leafGet (loadConfig env (encodeFile f)) .include_citations =
      some (expectedLeaf env f .include_citations) := by
  have hm := isObjJ_merged f
  have hsec := getKey_merged_research f
  have hObjSec := isObjJ_mergedResearchObj f
  set M := deepMerge defaultConfig (encodeFile f) with hM
  show (getKey (applyEnvOverrides env M) "research").bind (fun s => getKey s "include_citations") = _
  rw [show applyEnvOverrides env M =
      mergeFields (spreadBase M) (ofPairs (envSections env M)) from rfl]
  rw [spreadBase_obj hm]
  rw [getKey_mergeFields_pairs "research" (envSections env M) M hm]
  unfold envSections
  rw [foldl_stepK_cons_ne (by decide),
    foldl_stepK_cons_ne (by decide),
    foldl_stepK_cons_ne (by decide),
    foldl_stepK_cons_eq,
    foldl_stepK_cons_ne (by decide),
    List.foldl_nil]
  rw [hsec]
  rw [show mergeValueAt (some (mergedResearchObj f)) (.vObj false (ofPairs (envResearchFields env M)))
      = some (mergeFields (spreadBase (keyOrEmptyOpt (some (mergedResearchObj f))))
          (ofPairs (envResearchFields env M))) from rfl]
  rw [keyOrEmptyOpt_obj hObjSec, spreadBase_obj hObjSec, Option.some_bind]
  rw [getKey_mergeFields_pairs "include_citations" (envResearchFields env M) (mergedResearchObj f) hObjSec]
  unfold envResearchFields
  simp only [List.append_assoc]
  rw [foldl_stepK_skip (by decide),
    foldl_stepK_hit,
    foldl_stepK_skip_last (by decide)]
  cases het : env.include_citations with
  | none =>
      simp only [het, Option.map_none']
      rw [getKey_mergedResearch_include_citations]
      simp only [expectedLeaf, envRaw, het]
  | some v =>
      simp only [het, Option.map_some']
      cases hp : parseBoolean (some v) with
      | some b =>
          simp only [hp, boolFallback]
          rw [mergeValueAt_prim (by rfl)]
          simp only [expectedLeaf, envRaw, envParseLeaf, het, hp, Option.map_some']
      | none => simp [parseBoolean] at hp

theorem loadConfig_focus_on_recent (env : Env) (f : FileConfig) :
    leafGet (loadConfig env (encodeFile f)) .focus_on_recent =
      some (expectedLeaf env f .focus_on_recent) := by
  have hm := isObjJ_merged f
  have hsec := getKey_merged_research f
  have hObjSec := isObjJ_mergedResearchObj f
  set M := deepMerge defaultConfig (encodeFile f) with hM
  show (getKey (applyEnvOverrides env M) "research").bind (fun s => getKey s "focus_on_recent") = _
  rw [show applyEnvOverrides env M =
      mergeFields (spreadBase M) (ofPairs (envSections env M)) from rfl]
  rw [spreadBase_obj hm]
  rw [getKey_mergeFields_pairs "research" (envSections env M) M hm]
  unfold envSections
  rw [foldl_stepK_cons_ne (by decide),
    foldl_stepK_cons_ne (by decide),
    foldl_stepK_cons_ne (by decide),
    foldl_stepK_cons_eq,
    foldl_stepK_cons_ne (by decide),
    List.foldl_nil]
  rw [hsec]
  rw [show mergeValueAt (some (mergedResearchObj f)) (.vObj false (ofPairs (envResearchFields env M)))
      = some (mergeFields (spreadBase (keyOrEmptyOpt (some (mergedResearchObj f))))
          (ofPairs (envResearchFields env M))) from rfl]
  rw [keyOrEmptyOpt_obj hObjSec, spreadBase_obj hObjSec, Option.some_bind]
  rw [getKey_mergeFields_pairs "focus_on_recent" (envResearchFields env M) (mergedResearchObj f) hObjSec]
  unfold envResearchFields
  simp only [List.append_assoc]
  rw [foldl_stepK_skip (by decide),
    foldl_stepK_skip (by decide),
    foldl_stepK_hit_last]
  cases het : env.focus_on_recent with
  | none =>
      simp only [het, Option.map_none']
      rw [getKey_mergedResearch_focus_on_recent]
      simp only [expectedLeaf, envRaw, het]
  | some v =>
      simp only [het, Option.map_some']
      cases hp : parseBoolean (some v) with
      | some b =>
          simp only [hp, boolFallback]
          rw [mergeValueAt_prim (by rfl)]
          simp only [expectedLeaf, envRaw, envParseLeaf, het, hp, Option.map_some']
      | none => simp [parseBoolean] at hp

theorem loadConfig_format (env : Env) (f : FileConfig) :
    leafGet (loadConfig env (encodeFile f)) .format =
      some (expectedLeaf env f .format) := by
  have hm := isObjJ_merged f
  have hsec := getKey_merged_output f
  have hObjSec := isObjJ_mergedOutputObj f
  set M := deepMerge defaultConfig (encodeFile f) with hM
  show (getKey (applyEnvOverrides env M) "output").bind (fun s => getKey s "format") = _
  rw [show applyEnvOverrides env M =
      mergeFields (spreadBase M) (ofPairs (envSections env M)) from rfl]
  rw [spreadBase_obj hm]
  rw [getKey_mergeFields_pairs "output" (envSections env M) M hm]
  unfold envSections
  rw [foldl_stepK_cons_ne (by decide),
    foldl_stepK_cons_ne (by decide),
    foldl_stepK_cons_ne (by decide),
    foldl_stepK_cons_ne (by decide),
    foldl_stepK_cons_eq,
    List.foldl_nil]
  rw [hsec]
  rw [show mergeValueAt (some (mergedOutputObj f)) (.vObj false (ofPairs (envOutputFields env M)))
      = some (mergeFields (spreadBase (keyOrEmptyOpt (some (mergedOutputObj f))))
          (ofPairs (envOutputFields env M))) from rfl]
  rw [keyOrEmptyOpt_obj hObjSec, spreadBase_obj hObjSec, Option.some_bind]
  rw [getKey_mergeFields_pairs "format" (envOutputFields env M) (mergedOutputObj f) hObjSec]
  unfold envOutputFields
  simp only [List.append_assoc]
  rw [foldl_stepK_hit,
    foldl_stepK_skip (by decide),
    foldl_stepK_skip_last (by decide)]
  cases het : env.format with
  | none =>
      simp only [het, Option.map_none']
      rw [getKey_mergedOutput_format]
      simp only [expectedLeaf, envRaw, het]
  | some v =>
      simp only [het, Option.map_some']
      cases hp : parseOutputFormat (some v) with
      | some pv =>
          simp only [hp, strFallback]
          rw [mergeValueAt_prim (by rfl)]
          simp only [expectedLeaf, envRaw, envParseLeaf, het, hp, Option.map_some']
      | none =>
          simp only [hp, strFallback]
          rw [show jsMember M "output" = mergedOutputObj f from by
            unfold jsMember; rw [hsec]; rfl]
          rw [show jsMember (mergedOutputObj f) "format" =
              (fileLeaf f .format).getD (defaultLeaf .format) from by
            unfold jsMember; rw [getKey_mergedOutput_format]; rfl]
          rw [mergeValueAt_prim (by
            simp only [fileLeaf]
            exact prim_getD_str (f.output.bind (fun o => o.format)) "markdown")]
          simp only [expectedLeaf, envRaw, envParseLeaf, het, hp, Option.map_none']

theorem loadConfig_stream (env : Env) (f : FileConfig) :
    leafGet (loadConfig env (encodeFile f)) .stream =
      some (expectedLeaf env f .stream) := by
  have hm := isObjJ_merged f
  have hsec := getKey_merged_output f
  have hObjSec := isObjJ_mergedOutputObj f
  set M := deepMerge defaultConfig (encodeFile f) with hM
  show (getKey (applyEnvOverrides env M) "output").bind (fun s => getKey s "stream") = _
  rw [show applyEnvOverrides env M =
      mergeFields (spreadBase M) (ofPairs (envSections env M)) from rfl]
  rw [spreadBase_obj hm]
  rw [getKey_mergeFields_pairs "output" (envSections env M) M hm]
  unfold envSections
  rw [foldl_stepK_cons_ne (by decide),
    foldl_stepK_cons_ne (by decide),
    foldl_stepK_cons_ne (by decide),
    foldl_stepK_cons_ne (by decide),
    foldl_stepK_cons_eq,
    List.foldl_nil]
  rw [hsec]
  rw [show mergeValueAt (some (mergedOutputObj f)) (.vObj false (ofPairs (envOutputFields env M)))
      = some (mergeFields (spreadBase (keyOrEmptyOpt (some (mergedOutputObj f))))
          (ofPairs (envOutputFields env M))) from rfl]
  rw [keyOrEmptyOpt_obj hObjSec, spreadBase_obj hObjSec, Option.some_bind]
  rw [getKey_mergeFields_pairs "stream" (envOutputFields env M) (mergedOutputObj f) hObjSec]
  unfold envOutputFields
  simp only [List.append_assoc]
  rw [foldl_stepK_skip (by decide),
    foldl_stepK_hit,
    foldl_stepK_skip_last (by decide)]
  cases het : env.stream with
  | none =>
      simp only [het, Option.map_none']
      rw [getKey_mergedOutput_stream]
      simp only [expectedLeaf, envRaw, het]
  | some v =>
      simp only [het, Option.map_some']
      cases hp : parseBoolean (some v) with
      | some b =>
          simp only [hp, boolFallback]
          rw [mergeValueAt_prim (by rfl)]
          simp only [expectedLeaf, envRaw, envParseLeaf, het, hp, Option.map_some']
      | none => simp [parseBoolean] at hp

theorem loadConfig_verbose (env : Env) (f : FileConfig) :
    leafGet (loadConfig env (encodeFile f)) .verbose =
      some (expectedLeaf env f .verbose) := by
  have hm := isObjJ_merged f
  have hsec := getKey_merged_output f
  have hObjSec := isObjJ_mergedOutputObj f
  set M := deepMerge defaultConfig (encodeFile f) with hM
  show (getKey (applyEnvOverrides env M) "output").bind (fun s => getKey s "verbose") = _
  rw [show applyEnvOverrides env M =
      mergeFields (spreadBase M) (ofPairs (envSections env M)) from rfl]
  rw [spreadBase_obj hm]
  rw [getKey_mergeFields_pairs "output" (envSections env M) M hm]
  unfold envSections
  rw [foldl_stepK_cons_ne (by decide),
    foldl_stepK_cons_ne (by decide),
    foldl_stepK_cons_ne (by decide),
    foldl_stepK_cons_ne (by decide),
    foldl_stepK_cons_eq,
    List.foldl_nil]
  rw [hsec]
  rw [show mergeValueAt (some (mergedOutputObj f)) (.vObj false (ofPairs (envOutputFields env M)))
      = some (mergeFields (spreadBase (keyOrEmptyOpt (some (mergedOutputObj f))))
          (ofPairs (envOutputFields env M))) from rfl]
  rw [keyOrEmptyOpt_obj hObjSec, spreadBase_obj hObjSec, Option.some_bind]
  rw [getKey_mergeFields_pairs "verbose" (envOutputFields env M) (mergedOutputObj f) hObjSec]
  unfold envOutputFields
  simp only [List.append_assoc]
  rw [foldl_stepK_skip (by decide),
    foldl_stepK_skip (by decide),
    foldl_stepK_hit_last]
  cases het : env.verbose with
  | none =>
      simp only [het, Option.map_none']
      rw [getKey_mergedOutput_verbose]
      simp only [expectedLeaf, envRaw, het]
  | some v =>
      simp only [het, Option.map_some']
      cases hp : parseBoolean (some v) with
      | some b =>
          simp only [hp, boolFallback]
          rw [mergeValueAt_prim (by rfl)]
          simp only [expectedLeaf, envRaw, envParseLeaf, het, hp, Option.map_some']
      | none => simp [parseBoolean] at hp

theorem prim_ne_undef {v : JVal} (h : isPrimJ v = true) : v ≠ .vUndef := by
  intro he
  rw [he] at h
  exact absurd h (by decide)

theorem expectedLeaf_prim (env : Env) (f : FileConfig) :
    ∀ l : Leaf, l ≠ .key → isPrimJ (expectedLeaf env f l) = true := by
  intro l hl
  cases l with
  | key => exact absurd rfl hl
  | base_url =>
      unfold expectedLeaf
      cases h1 : envRaw env .base_url with
      | none =>
          simp only [fileLeaf, defaultLeaf]
          exact prim_getD_str _ _
      | some v => rfl
  | timeout =>
      unfold expectedLeaf
      cases h1 : envRaw env .timeout with
      | none =>
          simp only [fileLeaf, defaultLeaf]
          exact prim_getD_num _ _
      | some v =>
          cases h2 : parseNumber (some v) with
          | some pv => simp only [envParseLeaf, h2, Option.map_some', isPrimJ]
          | none =>
              simp only [envParseLeaf, h2, Option.map_none', fileLeaf, defaultLeaf]
              exact prim_getD_num _ _
  | mdefault =>
      unfold expectedLeaf
      cases h1 : envRaw env .mdefault with
      | none =>
          simp only [fileLeaf, defaultLeaf]
          exact prim_getD_str _ _
      | some v => rfl
  | search_heavy =>
      unfold expectedLeaf
      cases h1 : envRaw env .search_heavy with
      | none =>
          simp only [fileLeaf, defaultLeaf]
          exact prim_getD_str _ _
      | some v => rfl
  | reasoning =>
      unfold expectedLeaf
      cases h1 : envRaw env .reasoning with
      | none =>
          simp only [fileLeaf, defaultLeaf]
          exact prim_getD_str _ _
      | some v => rfl
  | fast =>
      unfold expectedLeaf
      cases h1 : envRaw env .fast with
      | none =>
          simp only [fileLeaf, defaultLeaf]
          exact prim_getD_str _ _
      | some v => rfl
  | deep_research =>
      unfold expectedLeaf
      cases h1 : envRaw env .deep_research with
      | none =>
          simp only [fileLeaf, defaultLeaf]
          exact prim_getD_str _ _
      | some v => rfl
  | max_iterations =>
      unfold expectedLeaf
      cases h1 : envRaw env .max_iterations with
      | none =>
          simp only [fileLeaf, defaultLeaf]
          exact prim_getD_num _ _
      | some v =>
          cases h2 : parseNumber (some v) with
          | some pv => simp only [envParseLeaf, h2, Option.map_some', isPrimJ]
          | none =>
              simp only [envParseLeaf, h2, Option.map_none', fileLeaf, defaultLeaf]
              exact prim_getD_num _ _
  | temperature =>
      unfold expectedLeaf
      cases h1 : envRaw env .temperature with
      | none =>
          simp only [fileLeaf, defaultLeaf]
          exact prim_getD_num _ _
      | some v =>
          cases h2 : parseNumber (some v) with
          | some pv => simp only [envParseLeaf, h2, Option.map_some', isPrimJ]
          | none =>
              simp only [envParseLeaf, h2, Option.map_none', fileLeaf, defaultLeaf]
              exact prim_getD_num _ _
  | max_tokens =>
      unfold expectedLeaf
      cases h1 : envRaw env .max_tokens with
      | none =>
          simp only [fileLeaf, defaultLeaf]
          exact prim_getD_num _ _
      | some v =>
          cases h2 : parseNumber (some v) with
          | some pv => simp only [envParseLeaf, h2, Option.map_some', isPrimJ]
          | none =>
              simp only [envParseLeaf, h2, Option.map_none', fileLeaf, defaultLeaf]
              exact prim_getD_num _ _
  | top_p =>
      unfold expectedLeaf
      cases h1 : envRaw env .top_p with
      | none =>
          simp only [fileLeaf, defaultLeaf]
          exact prim_getD_num _ _
      | some v =>
          cases h2 : parseNumber (some v) with
          | some pv => simp only [envParseLeaf, h2, Option.map_some', isPrimJ]
          | none =>
              simp only [envParseLeaf, h2, Option.map_none', fileLeaf, defaultLeaf]
              exact prim_getD_num _ _
  | search_mode =>
      unfold expectedLeaf
      cases h1 : envRaw env .search_mode with
      | none =>
          simp only [fileLeaf, defaultLeaf]
          exact prim_getD_str _ _
      | some v =>
          cases h2 : parseSearchMode (some v) with
          | some pv => simp only [envParseLeaf, h2, Option.map_some', isPrimJ]
          | none =>
              simp only [envParseLeaf, h2, Option.map_none', fileLeaf, defaultLeaf]
              exact prim_getD_str _ _
  | include_citations =>
      unfold expectedLeaf
      cases h1 : envRaw env .include_citations with
      | none =>
          simp only [fileLeaf, defaultLeaf]
          exact prim_getD_bool _ _
      | some v => rfl
  | focus_on_recent =>
      unfold expectedLeaf
      cases h1 : envRaw env .focus_on_recent with
      | none =>
          simp only [fileLeaf, defaultLeaf]
          exact prim_getD_bool _ _
      | some v => rfl
  | format =>
      unfold expectedLeaf
      cases h1 : envRaw env .format with
      | none =>
          simp only [fileLeaf, defaultLeaf]
          exact prim_getD_str _ _
      | some v =>
          cases h2 : parseOutputFormat (some v) with
          | some pv => simp only [envParseLeaf, h2, Option.map_some', isPrimJ]
          | none =>
              simp only [envParseLeaf, h2, Option.map_none', fileLeaf, defaultLeaf]
              exact prim_getD_str _ _
  | stream =>
      unfold expectedLeaf
      cases h1 : envRaw env .stream with
      | none =>
          simp only [fileLeaf, defaultLeaf]
          exact prim_getD_bool _ _
      | some v => rfl
  | verbose =>
      unfold expectedLeaf
      cases h1 : envRaw env .verbose with
      | none =>
          simp only [fileLeaf, defaultLeaf]
          exact prim_getD_bool _ _
      | some v => rfl

/-- Every leaf of the loaded configuration equals the three-layer
precedence value: a set, parseable environment value wins; a failing
typed parse falls back; otherwise a defined file value wins; otherwise
the built-in default. -/
theorem loadConfig_leaf_eq (env : Env) (f : FileConfig) :
    ∀ l : Leaf, leafGet (loadConfig env (encodeFile f)) l = some (expectedLeaf env f l) := by
  intro l
  cases l with
  | key => exact loadConfig_key env f
  | base_url => exact loadConfig_base_url env f
  | timeout => exact loadConfig_timeout env f
  | mdefault => exact loadConfig_mdefault env f
  | search_heavy => exact loadConfig_search_heavy env f
  | reasoning => exact loadConfig_reasoning env f
  | fast => exact loadConfig_fast env f
  | deep_research => exact loadConfig_deep_research env f
  | max_iterations => exact loadConfig_max_iterations env f
  | temperature => exact loadConfig_temperature env f
  | max_tokens => exact loadConfig_max_tokens env f
  | top_p => exact loadConfig_top_p env f
  | search_mode => exact loadConfig_search_mode env f
  | include_citations => exact loadConfig_include_citations env f
  | focus_on_recent => exact loadConfig_focus_on_recent env f
  | format => exact loadConfig_format env f
  | stream => exact loadConfig_stream env f
  | verbose => exact loadConfig_verbose env f

/-- C3: for every environment, every well-typed settings file and every
configuration leaf, `loadConfig` resolves the effective value with
precedence environment overlay over file overlay over built-in default:
a set environment value that passes its typed parse wins; an environment
value that fails its typed parse falls back to the next-lower layer;
otherwise a defined file value wins; otherwise the built-in default is
used (`expectedLeaf` states exactly this precedence order). -/
theorem loadConfig_precedence (env : Env) (f : FileConfig) (l : Leaf) :
    leafGet (loadConfig env (encodeFile f)) l = some (expectedLeaf env f l) :=
  loadConfig_leaf_eq env f l

/-- C9 (amended): for every environment and every well-typed settings
file, every configuration leaf other than `api.key` is defined after
`loadConfig` and holds a primitive, non-undefined value; the `api.key`
leaf is exempt because its built-in default is `undefined`. -/
theorem loadConfig_defined (env : Env) (f : FileConfig) (l : Leaf) (h : l ≠ .key) :
    ∃ v, leafGet (loadConfig env (encodeFile f)) l = some v ∧ v ≠ .vUndef :=
  ⟨expectedLeaf env f l, loadConfig_leaf_eq env f l,
    prim_ne_undef (expectedLeaf_prim env f l h)⟩

/-- C9 counterexample: with no environment variable set and an empty (or
absent) settings file, the loaded configuration's `api.key` field is the
value `undefined`; and a parseable settings file binding the `api`
section to `null` erases the section's defaults, so `api.base_url` is
not defined at all afterwards. -/
theorem loadConfig_undefined_counterexample :
    leafGet (loadConfig emptyEnv (.vObj false .fnil)) .key = some .vUndef ∧
    leafGet (loadConfig emptyEnv
      (.vObj false (.fcons "api" .vNull .fnil))) .base_url = none := by
  constructor
  · decide
  · decide

theorem loadConfig_defined_witness :
    ∃ v, leafGet (loadConfig emptyEnv (encodeFile ⟨none, none, none, none, none⟩)) .base_url
      = some v ∧ v ≠ JVal.vUndef :=
  loadConfig_defined emptyEnv ⟨none, none, none, none, none⟩ .base_url (by decide)
